import Mathlib

/-!
# Password account repository: a shallow embedding

Embedding of `internal/auth/password/repository_account.go` (namespace `Password`), a
model of the principal repository whose test is `internal/iam/repository_user_test.go`
(namespace `Iam`), and an embedding of `splitMethodName` of
`internal/daemon/controller/internal/metric/cluster.go` (namespace `Metric`).

* Go strings are byte sequences (`GoString`), `len` is the number of bytes.
* Go `error` values are trees of `fmt.Errorf("... %w", err)` wrappers over leaf
  errors; `errors.Is` walks the chain.
* Pointers to accounts are addresses into an explicit `Heap`; every call of a
  collaborator (configuration source, id generator, KDF, KMS wrapper, reader,
  writer, transaction executor) appends an `Event` to the trace, and the
  collaborator's answer is an arbitrary function of the history so far.
-/

namespace Password

/-! ## Strings and errors -/

/-- A Go string: a sequence of bytes. -/
abbrev GoString := List Nat

/-- The package-level error values used by the repository (`db.Err...`, `ErrTooShort`). -/
inductive Sentinel
  | ErrNilParameter
  | ErrInvalidParameter
  | ErrNotUnique
  | ErrRecordNotFound
  | ErrMultipleRecords
  | ErrTooShort
  deriving DecidableEq, Repr

/-- A Go error value: a package-level sentinel, a database driver error carrying its
condition name, any other leaf error, or `fmt.Errorf(format, args..., inner)` with one `%w`. -/
inductive GoError
  | sentinel (s : Sentinel)
  | pq (codeName : String)
  | leaf (msg : String)
  | wrap (format : String) (args : List GoString) (inner : GoError)
  deriving DecidableEq, Repr

/-- Go `errors.Is(err, target)` for a sentinel target: follow the `%w` chain. -/
def errorsIs : GoError → Sentinel → Bool
  | .sentinel s, t => decide (s = t)
  | .pq _, _ => false
  | .leaf _, _ => false
  | .wrap _ _ inner, t => errorsIs inner t

/-- Go `errors.As(err, &pqError)`: the first driver error in the chain, if any. -/
def errorsAsPq : GoError → Option String
  | .sentinel _ => none
  | .pq c => some c
  | .leaf _ => none
  | .wrap _ _ inner => errorsAsPq inner

/-- Go `errors.Unwrap` iterated: `inner` occurs in the `%w` chain of `err`. -/
def wraps : GoError → GoError → Bool
  | .wrap f as inner, e => decide (GoError.wrap f as inner = e) || wraps inner e
  | err, e => decide (err = e)

/-- Modelled from the spec: `db.IsUniqueError` is not part of the sources at hand. A storage
uniqueness violation is an error whose chain holds `db.ErrNotUnique` or a driver error
whose condition name is `unique_violation`; a nil error is not one. -/
def IsUniqueError : Option GoError → Bool
  | none => false
  | some err => errorsIs err .ErrNotUnique || errorsAsPq err == some "unique_violation"

/-! ## validUserName -/

/-- Go `utf8.RuneError`. -/
def RuneError : Nat := 0xFFFD

/-- Go `utf8.DecodeRune` on a byte sequence: the first rune and its width in bytes.
The masks `p0 & 0x1F`, `b & 0x3F` and the shifts are written with `%` and `*`. -/
def DecodeRune : List Nat → Nat × Nat
  | [] => (RuneError, 0)
  | p0 :: rest =>
    if p0 < 0x80 then (p0, 1)
    else if p0 < 0xC2 then (RuneError, 1)
    else if p0 ≤ 0xDF then
      match rest with
      | b1 :: _ =>
        if b1 < 0x80 ∨ 0xBF < b1 then (RuneError, 1)
        else ((p0 % 32) * 64 + b1 % 64, 2)
      | _ => (RuneError, 1)
    else if p0 ≤ 0xEF then
      let lo := if p0 = 0xE0 then 0xA0 else 0x80
      let hi := if p0 = 0xED then 0x9F else 0xBF
      match rest with
      | b1 :: b2 :: _ =>
        if b1 < lo ∨ hi < b1 then (RuneError, 1)
        else if b2 < 0x80 ∨ 0xBF < b2 then (RuneError, 1)
        else ((p0 % 16) * 4096 + (b1 % 64) * 64 + b2 % 64, 3)
      | _ => (RuneError, 1)
    else if p0 ≤ 0xF4 then
      let lo := if p0 = 0xF0 then 0x90 else 0x80
      let hi := if p0 = 0xF4 then 0x8F else 0xBF
      match rest with
      | b1 :: b2 :: b3 :: _ =>
        if b1 < lo ∨ hi < b1 then (RuneError, 1)
        else if b2 < 0x80 ∨ 0xBF < b2 then (RuneError, 1)
        else if b3 < 0x80 ∨ 0xBF < b3 then (RuneError, 1)
        else ((p0 % 8) * 262144 + (b1 % 64) * 4096 + (b2 % 64) * 64 + b3 % 64, 4)
      | _ => (RuneError, 1)
    else (RuneError, 1)

/-- The character class `a-z0-9.` of the pattern `[^a-z0-9.]`, on runes. -/
def inClass (r : Nat) : Bool :=
  (0x61 ≤ r && r ≤ 0x7A) || (0x30 ≤ r && r ≤ 0x39) || r == 0x2E

/-- Unanchored search for one rune outside the class: the input is decoded rune by
rune from the start; `skip` counts the bytes of the current rune still to be passed. -/
def matchFrom : Nat → List Nat → Bool
  | _, [] => false
  | skip + 1, _ :: rest => matchFrom skip rest
  | 0, b :: rest =>
    if inClass (DecodeRune (b :: rest)).1 then matchFrom ((DecodeRune (b :: rest)).2 - 1) rest
    else true

/-- The compiled pattern `reInvalidUserName = regexp.MustCompile("[^a-z0-9.]")`, as its
`Match` method on a byte slice. -/
def reInvalidUserName.Match (b : List Nat) : Bool := matchFrom 0 b

/-- Source function `validUserName`. -/
def validUserName (u : GoString) : Bool :=
  if u = [] then false
  else !reInvalidUserName.Match u

/-! ## Data model -/

/-- The embedded `store.Account` message. -/
structure StoreAccount where
  PublicId : GoString
  AuthMethodId : GoString
  UserName : GoString
  Name : GoString
  Description : GoString
  CreateTime : Option Nat
  UpdateTime : Option Nat
  deriving DecidableEq, Repr

/-- A password `Account`: a struct embedding a `*store.Account` (field `embedded`), which
may be nil. -/
structure Account where
  embedded : Option StoreAccount
  deriving DecidableEq, Repr

/-- Promoted field `a.PublicId` (read only where the embedded pointer is known non-nil). -/
def Account.PublicId (a : Account) : GoString :=
  match a.embedded with
  | some sa => sa.PublicId
  | none => []

/-- Promoted field `a.AuthMethodId`. -/
def Account.AuthMethodId (a : Account) : GoString :=
  match a.embedded with
  | some sa => sa.AuthMethodId
  | none => []

/-- Promoted field `a.UserName`. -/
def Account.UserName (a : Account) : GoString :=
  match a.embedded with
  | some sa => sa.UserName
  | none => []

/-- Promoted field `a.Name`. -/
def Account.Name (a : Account) : GoString :=
  match a.embedded with
  | some sa => sa.Name
  | none => []

/-- Promoted field `a.Description`. -/
def Account.Description (a : Account) : GoString :=
  match a.embedded with
  | some sa => sa.Description
  | none => []

/-- The assignment `a.PublicId = id` on the struct value. -/
def Account.setPublicId (a : Account) (id : GoString) : Account :=
  match a.embedded with
  | some sa => { embedded := some { sa with PublicId := id } }
  | none => a

/-- Modelled from the spec: `allocAccount` is not part of the sources at hand; it yields an
account with a fresh, zero-valued embedded `store.Account`. -/
def allocAccount : Account :=
  { embedded := some
      { PublicId := []
        AuthMethodId := []
        UserName := []
        Name := []
        Description := []
        CreateTime := none
        UpdateTime := none } }

/-- The KDF cost parameters returned by `cc.argon2()`. -/
structure Argon2Configuration where
  Iterations : Nat
  Memory : Nat
  Threads : Nat
  SaltLength : Nat
  KeyLength : Nat
  deriving DecidableEq, Repr

/-- The value returned by `r.currentConfig`: the auth method's current settings. -/
structure currentConfig where
  MinUserNameLength : Int
  MinPasswordLength : Int
  argon2 : Argon2Configuration
  deriving DecidableEq, Repr

/-- Modelled from the spec: the `Argon2Credential` type is not part of the sources at hand.
It is keyed by the account id and holds the salt, the derived key, the cost parameters
and the encrypted blob. -/
structure Argon2Credential where
  PasswordAccountId : GoString
  Salt : List Nat
  DerivedKey : List Nat
  Params : Argon2Configuration
  CtBlob : List Nat
  deriving DecidableEq, Repr

/-- The options resolved by `getOpts(opt...)`. -/
structure options where
  withPassword : Bool
  password : GoString
  withLimit : Int
  deriving DecidableEq, Repr

/-- What a writer call is handed: an account or a credential. -/
inductive Entity
  | account (a : Account)
  | credential (c : Argon2Credential)
  deriving DecidableEq, Repr

/-- The operation types of `oplog.OpType`. -/
inductive OpType
  | OP_TYPE_CREATE
  | OP_TYPE_UPDATE
  | OP_TYPE_DELETE
  deriving DecidableEq, Repr

/-- The `oplog.Metadata` built by the receiver's `oplog(op)` method, kept as the pair it
is computed from: the receiver's value and the operation type. -/
structure Metadata where
  resource : Entity
  opType : OpType
  deriving DecidableEq, Repr

/-- The handle of the key-management wrapper held by the repository. -/
abbrev Wrapper := Nat

/-- The writer option `db.WithOplog(wrapper, metadata)`. -/
structure OplogOpt where
  wrapper : Wrapper
  metadata : Metadata
  deriving DecidableEq, Repr

/-- The method `a.oplog(op)` of an account. -/
def Account.oplog (a : Account) (op : OpType) : Metadata :=
  { resource := .account a, opType := op }

/-- The method `cred.oplog(op)` of a credential. -/
def Argon2Credential.oplog (c : Argon2Credential) (op : OpType) : Metadata :=
  { resource := .credential c, opType := op }

/-- The function `db.WithOplog`. -/
def WithOplog (w : Wrapper) (md : Metadata) : OplogOpt :=
  { wrapper := w, metadata := md }

/-- Modelled from the spec: `Account.clone` is not part of the sources at hand; it builds a
working copy with the same field values. -/
def Account.clone (a : Account) : Account := a

/-- Modelled from the spec: `Argon2Credential.clone` is not part of the sources at hand; it
builds a copy with the same field values. -/
def Argon2Credential.clone (c : Argon2Credential) : Argon2Credential := c

/-! ## Collaborators, heap and trace -/

/-- One call of a collaborator, in the order the calls are made. -/
inductive Event
  | currentConfig (authMethodId : GoString)
  | newAccountId
  | newArgon2Credential (accountId password : GoString) (conf : Argon2Configuration)
  | encrypt (c : Argon2Credential) (w : Wrapper)
  | txBegin
  | txCommit
  | txRollback
  | Create (e : Entity) (opt : OplogOpt)
  | Delete (e : Entity) (opt : OplogOpt)
  | LookupByPublicId (a : Account)
  | SearchWhere (query : String) (args : List GoString) (limit : Int)
  deriving DecidableEq, Repr

/-- The `db.Reader` of the repository; each answer may depend on the history. A lookup
fills the struct it is handed. -/
structure Reader where
  LookupByPublicId : List Event → Account → Option GoError × Account
  SearchWhere : List Event → String → List GoString → Int → Option GoError × List Account

/-- The `db.Writer` of the repository. Its generic `Create` is given at its two uses, on an
account (`CreateAccountRow`, which may fill fields of the struct it is handed and returns
the struct as it leaves it) and on a credential (`CreateCredentialRow`); `commit` and `transient`
are the executor's commit outcome and its test for a retryable conflict. -/
structure Writer where
  CreateAccountRow : List Event → Account → OplogOpt → Option GoError × Account
  CreateCredentialRow : List Event → Argon2Credential → OplogOpt → Option GoError
  Delete : List Event → Account → OplogOpt → Int × Option GoError
  commit : List Event → Option GoError
  transient : GoError → Bool

/-- The `Repository` receiver: reader, writer, wrapper, default limit, and the
`currentConfig` method (not part of the sources at hand) as a collaborator. -/
structure Repository where
  reader : Reader
  writer : Writer
  wrapper : Wrapper
  defaultLimit : Int
  currentConfig : List Event → GoString → Except GoError currentConfig

/-- The package-level collaborators: id generator, credential derivation, credential
encryption, and the `db.StdRetryCnt` constant. -/
structure Env where
  newAccountId : List Event → Except GoError GoString
  newArgon2Credential :
    List Event → GoString → GoString → Argon2Configuration → Except GoError Argon2Credential
  encrypt : List Event → Argon2Credential → Wrapper → Except GoError Argon2Credential
  StdRetryCnt : Nat

/-- An address of an account object. -/
abbrev Ptr := Nat

/-- The account objects allocated so far; the object at address `p` is `objs[p]`. -/
structure Heap where
  objs : List Account
  deriving DecidableEq, Repr

/-- Read the object at an address (a nil-embedded account outside the allocated range). -/
def Heap.read (h : Heap) (p : Ptr) : Account := h.objs.getD p { embedded := none }

/-- Overwrite the object at an address. -/
def Heap.write (h : Heap) (p : Ptr) (v : Account) : Heap := { objs := h.objs.set p v }

/-- Allocate a new object; its address is the next free one. -/
def Heap.alloc (h : Heap) (v : Account) : Heap × Ptr := ({ objs := h.objs ++ [v] }, h.objs.length)

/-- The program state threaded through a call: the heap and the trace of collaborator calls. -/
structure State where
  heap : Heap
  trace : List Event
  deriving DecidableEq, Repr

/-- Append an event to the trace. -/
def State.emit (s : State) (e : Event) : State := { s with trace := s.trace ++ [e] }

/-! ## The transaction executor -/

/-- What a transaction yields: the error (nil when committed), the variables the callback
captured, and the state afterwards. -/
structure TxResult (γ : Type) where
  err : Option GoError
  captured : γ
  state : State

/-- One run of the callback in its own transaction: begin, callback, then commit, or
roll back when the callback or the commit fails. -/
def runTx {γ : Type} (w : Writer) (handler : State → γ → TxResult γ) (s : State) (c : γ) :
    TxResult γ :=
  match (handler (s.emit .txBegin) c).err with
  | some e =>
    { err := some e
      captured := (handler (s.emit .txBegin) c).captured
      state := (handler (s.emit .txBegin) c).state.emit .txRollback }
  | none =>
    match w.commit (handler (s.emit .txBegin) c).state.trace with
    | some e =>
      { err := some e
        captured := (handler (s.emit .txBegin) c).captured
        state := (handler (s.emit .txBegin) c).state.emit .txRollback }
    | none =>
      { err := none
        captured := (handler (s.emit .txBegin) c).captured
        state := (handler (s.emit .txBegin) c).state.emit .txCommit }

/-- Modelled from the spec: `DoTx` is not part of the sources at hand. The callback runs in
one transaction; a non-nil error rolls back; a transient conflict is retried, at most
`retries` times, and the last error is surfaced otherwise. The backoff policy only
delays and is left out. -/
def DoTx {γ : Type} (w : Writer) (retries : Nat) (handler : State → γ → TxResult γ)
    (s : State) (c : γ) : TxResult γ :=
  match retries with
  | 0 => runTx w handler s c
  | n + 1 =>
    match (runTx w handler s c).err with
    | some e =>
      if w.transient e then
        DoTx w n handler (runTx w handler s c).state (runTx w handler s c).captured
      else runTx w handler s c
    | none => runTx w handler s c

/-! ## The repository operations -/

/-- What `CreateAccount` and `LookupAccount` return: the account pointer (nil as `none`),
the error (nil as `none`), and the state afterwards. -/
structure AccountResult where
  account : Option Ptr
  err : Option GoError
  state : State
  deriving DecidableEq, Repr

/-- The callback handed to `DoTx` by `CreateAccount` (source lines 70-86). `a` is the
working copy, `cred` the derived credential or nil; the captured variable is
`newAccount` (`newCred` is not read outside the callback and is kept local). -/
def CreateAccount.txHandler (env : Env) (r : Repository) (a : Ptr)
    (cred : Option Argon2Credential) (s : State) (_newAccount : Option Ptr) :
    TxResult (Option Ptr) :=
  -- newAccount = a.clone()
  let al := s.heap.alloc (s.heap.read a).clone
  let newAccount := al.2
  let opt := WithOplog r.wrapper ((al.1.read a).oplog .OP_TYPE_CREATE)
  -- w.Create(ctx, newAccount, db.WithOplog(r.wrapper, a.oplog(CREATE)))
  let res := r.writer.CreateAccountRow s.trace (al.1.read newAccount) opt
  let s1 : State :=
    { heap := al.1.write newAccount res.2
      trace := s.trace ++ [.Create (.account (al.1.read newAccount)) opt] }
  match res.1 with
  | some err => { err := some err, captured := some newAccount, state := s1 }
  | none =>
    match cred with
    | none => { err := none, captured := some newAccount, state := s1 }
    | some cred =>
      -- newCred = cred.clone(); newCred.encrypt(ctx, r.wrapper)
      let newCred := cred.clone
      let s2 := s1.emit (.encrypt newCred r.wrapper)
      match env.encrypt s1.trace newCred r.wrapper with
      | .error err => { err := some err, captured := some newAccount, state := s2 }
      | .ok encrypted =>
        -- w.Create(ctx, newCred, db.WithOplog(r.wrapper, cred.oplog(CREATE)))
        let opt2 := WithOplog r.wrapper (cred.oplog .OP_TYPE_CREATE)
        let s3 := s2.emit (.Create (.credential encrypted) opt2)
        match r.writer.CreateCredentialRow s2.trace encrypted opt2 with
        | some err => { err := some err, captured := some newAccount, state := s3 }
        | none => { err := none, captured := some newAccount, state := s3 }

/-- The end of `CreateAccount` (source lines 67-96): the transaction and the translation
of its error. `a` is the working copy with its generated id. -/
def CreateAccount.store (env : Env) (r : Repository) (a : Ptr)
    (cred : Option Argon2Credential) (s : State) : AccountResult :=
  let tx := DoTx r.writer env.StdRetryCnt (CreateAccount.txHandler env r a cred) s none
  match tx.err with
  | some err =>
    if IsUniqueError (some err) then
      { account := none
        err := some (.wrap
          "create: password account: in auth method: %s: name %s already exists: %w"
          [(tx.state.heap.read a).AuthMethodId, (tx.state.heap.read a).Name]
          (.sentinel .ErrNotUnique))
        state := tx.state }
    else
      { account := none
        err := some (.wrap "create: password account: in auth method: %s: %w"
          [(tx.state.heap.read a).AuthMethodId] err)
        state := tx.state }
  | none => { account := tx.captured, err := none, state := tx.state }

/-- Source function `Repository.CreateAccount`. `a` is the caller's pointer (nil as
`none`), `opts` the options as resolved by `getOpts`. -/
def CreateAccount (env : Env) (r : Repository) (s : State) (a : Option Ptr) (opts : options) :
    AccountResult :=
  match a with
  | none =>
    { account := none
      err := some (.wrap "create: password account: %w" [] (.sentinel .ErrNilParameter))
      state := s }
  | some a =>
    if (s.heap.read a).embedded = none then
      { account := none
        err := some (.wrap "create: password account: embedded Account: %w" []
          (.sentinel .ErrNilParameter))
        state := s }
    else if (s.heap.read a).AuthMethodId = [] then
      { account := none
        err := some (.wrap "create: password account: no auth method id: %w" []
          (.sentinel .ErrInvalidParameter))
        state := s }
    else if (s.heap.read a).PublicId ≠ [] then
      { account := none
        err := some (.wrap "create: password account: public id not empty: %w" []
          (.sentinel .ErrInvalidParameter))
        state := s }
    else if validUserName (s.heap.read a).UserName = false then
      { account := none
        err := some (.wrap "create: password account: invalid user name: %w" []
          (.sentinel .ErrInvalidParameter))
        state := s }
    else
      -- cc, err := r.currentConfig(ctx, a.AuthMethodId)
      let s1 := s.emit (.currentConfig (s.heap.read a).AuthMethodId)
      match r.currentConfig s.trace (s.heap.read a).AuthMethodId with
      | .error err =>
        { account := none
          err := some (.wrap "create: password account: retrieve current configuration: %w"
            [] err)
          state := s1 }
      | .ok cc =>
        if cc.MinUserNameLength > ((s1.heap.read a).UserName.length : Int) then
          { account := none
            err := some (.wrap "create: password account: user name %q: %w"
              [(s1.heap.read a).UserName] (.sentinel .ErrTooShort))
            state := s1 }
        else
          -- a = a.clone(); id, err := newAccountId()
          let al := s1.heap.alloc (s1.heap.read a).clone
          let a := al.2
          let s2 : State := { heap := al.1, trace := s1.trace ++ [.newAccountId] }
          match env.newAccountId s1.trace with
          | .error err =>
            { account := none
              err := some (.wrap "create: password account: %w" [] err)
              state := s2 }
          | .ok id =>
            -- a.PublicId = id
            let s3 : State := { s2 with heap := s2.heap.write a ((s2.heap.read a).setPublicId id) }
            if opts.withPassword then
              if cc.MinPasswordLength > (opts.password.length : Int) then
                { account := none
                  err := some (.wrap "create: password account: password: %w" []
                    (.sentinel .ErrTooShort))
                  state := s3 }
              else
                let s4 := s3.emit (.newArgon2Credential id opts.password cc.argon2)
                match env.newArgon2Credential s3.trace id opts.password cc.argon2 with
                | .error err =>
                  { account := none
                    err := some (.wrap "create: password account: %w" [] err)
                    state := s4 }
                | .ok cred => CreateAccount.store env r a (some cred) s4
            else CreateAccount.store env r a none s3

/-- Source function `Repository.LookupAccount`; all options are ignored. -/
def LookupAccount (r : Repository) (s : State) (withPublicId : GoString) : AccountResult :=
  if withPublicId = [] then
    { account := none
      err := some (.wrap "lookup: password account: missing public id %w" []
        (.sentinel .ErrInvalidParameter))
      state := s }
  else
    -- a := allocAccount(); a.PublicId = withPublicId
    let al := s.heap.alloc (allocAccount.setPublicId withPublicId)
    let a := al.2
    -- r.reader.LookupByPublicId(ctx, &a)
    let res := r.reader.LookupByPublicId s.trace (al.1.read a)
    let s1 : State :=
      { heap := al.1.write a res.2
        trace := s.trace ++ [.LookupByPublicId (al.1.read a)] }
    match res.1 with
    | some err =>
      if errorsIs err .ErrRecordNotFound then { account := none, err := none, state := s1 }
      else
        { account := none
          err := some (.wrap "lookup: password account: failed %w for %s" [withPublicId] err)
          state := s1 }
    | none => { account := some a, err := none, state := s1 }

/-- What `ListAccounts` returns: the accounts found (a nil slice as `[]`; the pointers of
the slice are kept as the values they point to), the error, and the state afterwards. -/
structure ListResult where
  accounts : List Account
  err : Option GoError
  state : State
  deriving DecidableEq, Repr

/-- Source function `Repository.ListAccounts`; `opts` are the options as resolved by
`getOpts`. -/
def ListAccounts (r : Repository) (s : State) (withAuthMethodId : GoString) (opts : options) :
    ListResult :=
  if withAuthMethodId = [] then
    { accounts := []
      err := some (.wrap "list: password account: missing auth method id %w" []
        (.sentinel .ErrInvalidParameter))
      state := s }
  else
    -- non-zero signals an override of the default limit for the repo
    let limit := if opts.withLimit ≠ 0 then opts.withLimit else r.defaultLimit
    let res := r.reader.SearchWhere s.trace "auth_method_id = ?" [withAuthMethodId] limit
    let s1 := s.emit (.SearchWhere "auth_method_id = ?" [withAuthMethodId] limit)
    match res.1 with
    | some err =>
      { accounts := []
        err := some (.wrap "list: password account: %w" [] err)
        state := s1 }
    | none => { accounts := res.2, err := none, state := s1 }

/-- Modelled from the spec: `db.NoRowsAffected` is not part of the sources at hand; it is
the row count 0. -/
def NoRowsAffected : Int := 0

/-- What `DeleteAccount` returns: the row count, the error, and the state afterwards. -/
structure DeleteResult where
  rows : Int
  err : Option GoError
  state : State
  deriving DecidableEq, Repr

/-- The callback handed to `DoTx` by `DeleteAccount` (source lines 149-157); the captured
variable is `rowsDeleted`. -/
def DeleteAccount.txHandler (r : Repository) (ac : Account) (s : State) (_rowsDeleted : Int) :
    TxResult Int :=
  let metadata := ac.oplog .OP_TYPE_DELETE
  let dAc := ac.clone
  -- rowsDeleted, err = w.Delete(ctx, dAc, db.WithOplog(r.wrapper, metadata))
  let res := r.writer.Delete s.trace dAc (WithOplog r.wrapper metadata)
  let s1 := s.emit (.Delete (.account dAc) (WithOplog r.wrapper metadata))
  if res.2 = none ∧ res.1 > 1 then
    { err := some (.sentinel .ErrMultipleRecords), captured := res.1, state := s1 }
  else { err := res.2, captured := res.1, state := s1 }

/-- Source function `Repository.DeleteAccount`; all options are ignored. -/
def DeleteAccount (env : Env) (r : Repository) (s : State) (withPublicId : GoString) :
    DeleteResult :=
  if withPublicId = [] then
    { rows := NoRowsAffected
      err := some (.wrap "delete: password account: missing public id: %w" []
        (.sentinel .ErrInvalidParameter))
      state := s }
  else
    -- ac := allocAccount(); ac.PublicId = withPublicId; var rowsDeleted int
    let ac := allocAccount.setPublicId withPublicId
    let tx := DoTx r.writer env.StdRetryCnt (DeleteAccount.txHandler r ac) s 0
    match tx.err with
    | some err =>
      { rows := NoRowsAffected
        err := some (.wrap "delete: password account: %s: %w" [withPublicId] err)
        state := tx.state }
    | none => { rows := tx.captured, err := none, state := tx.state }

/-! ## Example collaborators -/

/-- The bytes of an ASCII literal. -/
def bytes (s : String) : GoString := s.toList.map Char.toNat

/-- An auth-method configuration with `MinUserNameLength = 5` and `MinPasswordLength = 8`. -/
def exampleConfig : currentConfig :=
  { MinUserNameLength := 5
    MinPasswordLength := 8
    argon2 := { Iterations := 3, Memory := 65536, Threads := 1, SaltLength := 32, KeyLength := 32 } }

/-- A store in which every read and write succeeds and nothing is retried. -/
def exampleWriter : Writer :=
  { CreateAccountRow := fun _ a _ => (none, a)
    CreateCredentialRow := fun _ _ _ => none
    Delete := fun _ _ _ => (1, none)
    commit := fun _ => none
    transient := fun _ => false }

/-- A repository over `exampleWriter` whose configuration is `exampleConfig`. -/
def exampleRepository : Repository :=
  { reader :=
      { LookupByPublicId := fun _ a => (none, a)
        SearchWhere := fun _ _ _ _ => (none, []) }
    writer := exampleWriter
    wrapper := 7
    defaultLimit := 100
    currentConfig := fun _ _ => .ok exampleConfig }

/-- Collaborators that always succeed: a fixed id, a credential keyed by the account id,
an encryption that moves salt and key into the blob. -/
def exampleEnv : Env :=
  { newAccountId := fun _ => .ok (bytes "apw_1234567890")
    newArgon2Credential := fun _ id pw conf =>
      .ok { PasswordAccountId := id, Salt := [1, 2], DerivedKey := pw.reverse, Params := conf,
            CtBlob := [] }
    encrypt := fun _ c _ => .ok { c with CtBlob := c.Salt ++ c.DerivedKey, Salt := [] }
    StdRetryCnt := 20 }

/-- The embedded message of an account of auth method `ampw_1` with the given user name. -/
def exampleStoreAccount (userName : String) : StoreAccount :=
  { PublicId := []
    AuthMethodId := bytes "ampw_1"
    UserName := bytes userName
    Name := []
    Description := []
    CreateTime := none
    UpdateTime := none }

/-- A state whose heap holds one account, at address 0, and whose trace is empty. -/
def exampleState (sa : StoreAccount) : State :=
  { heap := { objs := [{ embedded := some sa }] }, trace := [] }

/-- No option given. -/
def noOptions : options := { withPassword := false, password := [], withLimit := 0 }

/-- The option `WithPassword(pw)`. -/
def passwordOption (pw : String) : options :=
  { withPassword := true, password := bytes pw, withLimit := 0 }

/-- The working copy of the `alice.smith` account once it carries the generated id. -/
def exampleWorkingCopy : Account :=
  { embedded := some { exampleStoreAccount "alice.smith" with PublicId := bytes "apw_1234567890" } }

/-- The credential `exampleEnv` derives for the generated id and the given password. -/
def exampleCredential (pw : String) : Argon2Credential :=
  { PasswordAccountId := bytes "apw_1234567890"
    Salt := [1, 2]
    DerivedKey := (bytes pw).reverse
    Params := exampleConfig.argon2
    CtBlob := [] }

/-- The result of `exampleEnv.encrypt` on `exampleCredential pw`. -/
def exampleEncrypted (pw : String) : Argon2Credential :=
  { exampleCredential pw with CtBlob := [1, 2] ++ (bytes pw).reverse, Salt := [] }

/-- Collaborators as in `exampleEnv`, except that encryption always fails. -/
def failingEncryptEnv : Env :=
  { exampleEnv with encrypt := fun _ _ _ => .error (.leaf "kms unavailable") }

/-- A repository whose writer fails every account insert with the given error. -/
def failingInsertRepository (e : GoError) : Repository :=
  { exampleRepository with
    writer := { exampleWriter with CreateAccountRow := fun _ a _ => (some e, a) } }

/-- A repository whose reader fails every lookup with the given error. -/
def failingLookupRepository (e : GoError) : Repository :=
  { exampleRepository with
    reader := { exampleRepository.reader with LookupByPublicId := fun _ a => (some e, a) } }

/-- Three stored accounts of auth method `ampw_1`. -/
def threeAccounts : List Account :=
  [ { embedded := some { exampleStoreAccount "alice.smith" with PublicId := bytes "apw_1" } },
    { embedded := some { exampleStoreAccount "bob.jones" with PublicId := bytes "apw_2" } },
    { embedded := some { exampleStoreAccount "carol.king" with PublicId := bytes "apw_3" } } ]

/-- A repository with the given default limit whose reader holds `threeAccounts` and honours
the limit it is handed: a positive limit caps the result, any other limit is unbounded. -/
def limitedRepository (defaultLimit : Int) : Repository :=
  { exampleRepository with
    defaultLimit := defaultLimit
    reader :=
      { exampleRepository.reader with
        SearchWhere := fun _ _ _ limit =>
          (none, if limit > 0 then threeAccounts.take limit.toNat else threeAccounts) } }

/-- The option `WithLimit(n)`. -/
def limitOption (n : Int) : options := { withPassword := false, password := [], withLimit := n }

/-- A repository whose writer answers every `Delete` with the given row count and error. -/
def deletingRepository (rows : Int) (e : Option GoError) : Repository :=
  { exampleRepository with writer := { exampleWriter with Delete := fun _ _ _ => (rows, e) } }

/-! ## Verification of a password -/

/-- Modelled from the spec: the collaborators of verification (sections 4.2 and 6), which are
not part of the sources at hand: the memory-hard KDF over the password, the salt and the cost
parameters, and the `Decrypt` of the envelope-encryption wrapper. -/
structure Verifier where
  kdf : GoString → List Nat → Argon2Configuration → List Nat
  decrypt : Argon2Credential → Wrapper → Except GoError Argon2Credential

/-- Collaborators as in `exampleEnv`, except that the id generator returns the empty id,
without an error. -/
def emptyIdEnv : Env :=
  { exampleEnv with newAccountId := fun _ => .ok [] }

/-! ## Abbreviations used in the statements -/

/-- The state in which the working copy has been made and given its id: the heap is
extended by the copy of `sa` carrying `id`, the trace by the configuration read and the
id generation. -/
def afterId (s : State) (sa : StoreAccount) (id : GoString) : State :=
  { heap := { objs := s.heap.objs ++ [{ embedded := some { sa with PublicId := id } }] }
    trace := s.trace ++ [.currentConfig sa.AuthMethodId, .newAccountId] }

/-- The event of handing the account `wa` to the writer's `Create`. -/
abbrev createAccountEvent (r : Repository) (wa : Account) : Event :=
  .Create (.account wa) (WithOplog r.wrapper (wa.oplog .OP_TYPE_CREATE))

/-- The event of encrypting a clone of the credential `cr`. -/
abbrev encryptEvent (r : Repository) (cr : Argon2Credential) : Event :=
  .encrypt cr.clone r.wrapper

/-- The event of handing the encrypted clone `x` of `cr` to the writer's `Create`. -/
abbrev createCredentialEvent (r : Repository) (cr x : Argon2Credential) : Event :=
  .Create (.credential x) (WithOplog r.wrapper (cr.oplog .OP_TYPE_CREATE))

/-- The event of handing the clone of the account carrying `id` to the writer's `Delete`. -/
abbrev deleteEvent (r : Repository) (id : GoString) : Event :=
  .Delete (.account (allocAccount.setPublicId id).clone)
    (WithOplog r.wrapper ((allocAccount.setPublicId id).oplog .OP_TYPE_DELETE))

/-- What the writer's `Delete` answers in the first run of the transaction of
`DeleteAccount`. -/
abbrev deleteAnswer (r : Repository) (s : State) (id : GoString) : Int × Option GoError :=
  r.writer.Delete (s.trace ++ [.txBegin]) (allocAccount.setPublicId id).clone
    (WithOplog r.wrapper ((allocAccount.setPublicId id).oplog .OP_TYPE_DELETE))

/-- The query `ListAccounts` sends to the reader with the given limit. -/
abbrev searchEvent (id : GoString) (limit : Int) : Event :=
  .SearchWhere "auth_method_id = ?" [id] limit

end Password

namespace Iam

/-! ## The principal repository

The repository of principals (`iam.Repository`: `UpdateUser`, `DeleteUser`, `LookupUser`,
`AddUserAccounts`, `DeleteUserAccounts`, `SetUserAccounts`) is not part of the sources at
hand; only its test is. The definitions of this section follow the specification (section 4.4,
with the data model of section 3 and the error taxonomy of section 7), and the names the test
uses. Every operation is one atomic step on a store: it returns the store it leaves. -/

/-- Modelled from the spec: the error kinds of the taxonomy of section 7; the `errors`
package of the repository is missing. -/
inductive ErrorKind
  | InvalidParameter
  | NotUnique
  | RecordNotFound
  | MultipleRecords
  | VersionConflict
  | AccountAlreadyAssociated
  | TooShort
  | EmptyFieldMask
  | InvalidFieldMask
  deriving DecidableEq, Repr

/-- Modelled from the spec: a repository error, its kind and an ordered list of context
strings (the operation, the message, the offending value); the `errors` package is missing. -/
structure RepoError where
  kind : ErrorKind
  context : List String
  deriving DecidableEq, Repr

/-- Modelled from the spec: the principal of section 3 (`iam.User`, whose definition is
missing). An empty `Name` or `Description` is an unset one; `Version` starts at 1. -/
structure User where
  PublicId : String
  ScopeId : String
  Name : String
  Description : String
  Version : Nat
  CreateTime : Nat
  UpdateTime : Nat
  deriving DecidableEq, Repr

/-- Modelled from the spec: the account side of the ownership relation of section 3, a row of
the account table with the foreign key to its owning principal (`none` when it has no owner);
the account type the test creates is missing. -/
structure AuthAccount where
  PublicId : String
  IamUserId : Option String
  deriving DecidableEq, Repr

/-- Modelled from the spec: the operation type of an oplog record (section 3). -/
inductive OperationType
  | Create
  | Update
  | Delete
  deriving DecidableEq, Repr

/-- Modelled from the spec: an oplog record (section 3), the id of the entity written and
the operation type; the oplog package is missing. -/
structure OplogEntry where
  EntityPublicId : String
  OperationType : OperationType
  deriving DecidableEq, Repr

/-- Modelled from the spec: the persisted layout of section 6 as far as the principal
repository uses it: the principal table, the account table with the relationship as a
foreign key, the append-only oplog, and a clock for the update time. -/
structure Store where
  users : List User
  accounts : List AuthAccount
  oplog : List OplogEntry
  now : Nat
  deriving DecidableEq, Repr

/-- Modelled from the spec: the rows of the principal table with the given public id (the
reads of the missing repository functions). -/
def userRows (st : Store) (id : String) : List User :=
  st.users.filter (fun u => u.PublicId = id)

/-- Modelled from the spec: the ids of the accounts whose owner is the given principal, in
storage order (the listing of the accounts of a principal is missing). -/
def associatedAccountIds (st : Store) (userId : String) : List String :=
  (st.accounts.filter (fun a => a.IamUserId = some userId)).map (fun a => a.PublicId)

/-- Modelled from the spec: whether the account table has a row with the given id (part of
the missing ownership check). -/
def accountExists (st : Store) (accountId : String) : Bool :=
  st.accounts.any (fun a => a.PublicId = accountId)

/-- Modelled from the spec: whether a row with the given account id is owned by a principal
other than `userId` (part of the missing ownership check). -/
def ownedByOther (st : Store) (userId accountId : String) : Bool :=
  st.accounts.any (fun a => a.PublicId = accountId ∧ a.IamUserId ≠ none ∧
    a.IamUserId ≠ some userId)

/-- Modelled from the spec: the fields of a principal that an update may name (section 4.4:
every path must name a known, mutable field; the creation time and the scope id are
immutable). `UpdateUser` is missing; the test accepts `Name` and `Description` and has
`CreateTime`, `ScopeId` and `Alice` refused. -/
def mutableFields : List String := ["Name", "Description"]

/-- Modelled from the spec: what `UpdateUser`, which is missing, returns: the updated
principal (nil as `none`), the ids of its accounts, the rows updated, the error (nil as
`none`), and the store afterwards. -/
structure UpdateResult where
  user : Option User
  accountIds : List String
  rowsUpdated : Nat
  err : Option RepoError
  store : Store
  deriving DecidableEq, Repr

/-- Modelled from the spec: a failed `UpdateUser` (which is missing): nil principal, no rows,
the store as it was. -/
def UpdateResult.failure (st : Store) (e : RepoError) : UpdateResult :=
  { user := none, accountIds := [], rowsUpdated := 0, err := some e, store := st }

/-- Modelled from the spec: whether another principal of the scope carries the name (the
uniqueness of section 3; the constraint lives in the missing schema). -/
def nameTaken (st : Store) (scopeId name id : String) : Bool :=
  st.users.any (fun u => u.ScopeId = scopeId ∧ u.Name = name ∧ u.PublicId ≠ id)

/-- Modelled from the spec: the fields an update writes (section 4.4; `UpdateUser` is
missing): a field named by the mask takes the value of the caller, every other field keeps
its value, the version is incremented by one and the update time is set. -/
def applyFieldMask (user : User) (mask : List String) (now : Nat) (u : User) : User :=
  { u with
    Name := if "Name" ∈ mask then user.Name else u.Name
    Description := if "Description" ∈ mask then user.Description else u.Description
    Version := u.Version + 1
    UpdateTime := now }

/-- Modelled from the spec: the store after the write of an update (section 4.4; `UpdateUser`
is missing): the rows with the public id and the expected version are rewritten, and an
oplog record of the update is appended. -/
def writeUser (st : Store) (user : User) (version : Nat) (mask : List String) : Store :=
  { users := st.users.map (fun u =>
      if u.PublicId = user.PublicId ∧ u.Version = version then
        applyFieldMask user mask (st.now + 1) u
      else u)
    accounts := st.accounts
    oplog := st.oplog ++ [{ EntityPublicId := user.PublicId, OperationType := .Update }]
    now := st.now + 1 }

/-- Modelled from the spec: `UpdatePrincipal` of section 4.4 (`UpdateUser`, which is missing
from the sources; only its test is there). A nil mask is `none`. The mask must be non-empty
(`EmptyFieldMask`) and every path must name a mutable field (`InvalidFieldMask`, naming the
first offending path); the test adds that the public id must be present
(`InvalidParameter`). The spec does not order these checks: the two of the mask come first
here, and all three come before the store is touched. The write is
conditioned on the public id and the expected version: no row because the id is unknown is
`RecordNotFound`, no row because the version differs is `VersionConflict`, more than one row
is `MultipleRecords`, a name already used within the scope is `NotUnique`. On success the
store is the one of `writeUser`, one row is reported, and the updated principal and the ids
of its accounts are returned. -/
def UpdateUser (st : Store) (user : User) (version : Nat)
    (fieldMaskPaths : Option (List String)) : UpdateResult :=
  if fieldMaskPaths.getD [] = [] then
    UpdateResult.failure st
      { kind := .EmptyFieldMask, context := ["iam.(Repository).UpdateUser", "empty field mask"] }
  else
    match (fieldMaskPaths.getD []).find? (fun f => decide (f ∉ mutableFields)) with
    | some f =>
      UpdateResult.failure st
        { kind := .InvalidFieldMask
          context := ["iam.(Repository).UpdateUser", "invalid field mask", f] }
    | none =>
      if user.PublicId = "" then
        UpdateResult.failure st
          { kind := .InvalidParameter
            context := ["iam.(Repository).UpdateUser", "missing public id"] }
      else
        match (userRows st user.PublicId).filter (fun u => u.Version = version) with
        | [] =>
          if userRows st user.PublicId = [] then
            UpdateResult.failure st
              { kind := .RecordNotFound, context := ["iam.(Repository).UpdateUser", user.PublicId] }
          else
            UpdateResult.failure st
              { kind := .VersionConflict
                context := ["iam.(Repository).UpdateUser", user.PublicId] }
        | [cur] =>
          if "Name" ∈ fieldMaskPaths.getD [] ∧ user.Name ≠ "" ∧
              nameTaken st cur.ScopeId user.Name user.PublicId = true then
            UpdateResult.failure st
              { kind := .NotUnique, context := ["iam.(Repository).UpdateUser", user.Name] }
          else
            { user := some (applyFieldMask user (fieldMaskPaths.getD []) (st.now + 1) cur)
              accountIds := associatedAccountIds st user.PublicId
              rowsUpdated := 1
              err := none
              store := writeUser st user version (fieldMaskPaths.getD []) }
        | _ :: _ :: _ =>
          UpdateResult.failure st
            { kind := .MultipleRecords, context := ["iam.(Repository).UpdateUser", user.PublicId] }

/-- Modelled from the spec: what the operations on the accounts of a principal, which are
missing, return: a list of account ids, the error (nil as `none`), and the store
afterwards. -/
structure AccountsResult where
  accountIds : List String
  err : Option RepoError
  store : Store
  deriving DecidableEq, Repr

/-- Modelled from the spec: a failed operation on the accounts of a principal (the
operations are missing): no ids, the store as it was. -/
def AccountsResult.failure (st : Store) (e : RepoError) : AccountsResult :=
  { accountIds := [], err := some e, store := st }

/-- Modelled from the spec: the ownership rule of section 4.4 for a list of account ids (the
functions that apply it are missing): if one of them is owned by a different principal the
whole operation fails with `AccountAlreadyAssociated`, naming the first such id; otherwise
every id must resolve to an account (`RecordNotFound`). -/
def checkAccounts (st : Store) (op userId : String) (accountIds : List String) :
    Option RepoError :=
  match accountIds.find? (fun a => ownedByOther st userId a) with
  | some a => some { kind := .AccountAlreadyAssociated, context := [op, a] }
  | none =>
    match accountIds.find? (fun a => !accountExists st a) with
    | some a => some { kind := .RecordNotFound, context := [op, a] }
    | none => none

/-- Modelled from the spec: the store after a change of the accounts of a principal
(section 4.4; the functions that write it are missing): the version of the principal is
incremented by one, the owner of every added account becomes the principal, that of every
removed account is cleared, and an oplog record is appended for the principal and for every
affected account. -/
def writeAccountChanges (st : Store) (userId : String) (version : Nat)
    (adds removes : List String) : Store :=
  { users := st.users.map (fun u =>
      if u.PublicId = userId ∧ u.Version = version then
        { u with Version := u.Version + 1, UpdateTime := st.now + 1 }
      else u)
    accounts := st.accounts.map (fun a =>
      if a.PublicId ∈ adds then { a with IamUserId := some userId }
      else if a.PublicId ∈ removes then { a with IamUserId := none }
      else a)
    oplog := st.oplog ++ [{ EntityPublicId := userId, OperationType := .Update }] ++
      (adds ++ removes).map (fun a => { EntityPublicId := a, OperationType := .Update })
    now := st.now + 1 }

/-- Modelled from the spec: the write that the three operations on the accounts of a
principal share (section 4.4; the functions are missing). The write is conditioned on the
public id and the expected version, as in `UpdateUser`, and on success the store is the one of
`writeAccountChanges`. -/
def applyAccountChanges (st : Store) (op userId : String) (version : Nat)
    (adds removes : List String) : Option RepoError × Store :=
  match (userRows st userId).filter (fun u => u.Version = version) with
  | [] =>
    if userRows st userId = [] then
      (some { kind := .RecordNotFound, context := [op, userId] }, st)
    else (some { kind := .VersionConflict, context := [op, userId] }, st)
  | [_] => (none, writeAccountChanges st userId version adds removes)
  | _ :: _ :: _ => (some { kind := .MultipleRecords, context := [op, userId] }, st)

/-- Modelled from the spec: `AddPrincipalAccounts` of section 4.4 (`AddUserAccounts`, which
is missing from the sources; the test calls it). The principal id must be present, the
expected version at least 1 and the list of account ids non-empty (`InvalidParameter`); the
ownership rule of `checkAccounts` applies. A successful call writes the version of the
principal and makes the principal the owner of every id of the list, which changes nothing for
an account it already owns, and returns the ids of the list, each associated with the principal
by then: the commented-out test `TestRepository_AssociateAccounts` has its cases `valid` and
`already-associated` return every id of the list, with an oplog record for each, and leave the
principal at the next version. -/
def AddUserAccounts (st : Store) (userId : String) (version : Nat) (accountIds : List String) :
    AccountsResult :=
  if userId = "" then
    AccountsResult.failure st
      { kind := .InvalidParameter
        context := ["iam.(Repository).AddUserAccounts", "missing public id"] }
  else if version = 0 then
    AccountsResult.failure st
      { kind := .InvalidParameter
        context := ["iam.(Repository).AddUserAccounts", "missing version"] }
  else if accountIds = [] then
    AccountsResult.failure st
      { kind := .InvalidParameter
        context := ["iam.(Repository).AddUserAccounts", "missing account ids"] }
  else
    match checkAccounts st "iam.(Repository).AddUserAccounts" userId accountIds with
    | some e => AccountsResult.failure st e
    | none =>
      match applyAccountChanges st "iam.(Repository).AddUserAccounts" userId version
          accountIds.dedup [] with
      | (some e, _) => AccountsResult.failure st e
      | (none, st1) => { accountIds := accountIds.dedup, err := none, store := st1 }

/-- Modelled from the spec: `DeletePrincipalAccounts` of section 4.4 (`DeleteUserAccounts`,
which is missing from the sources). The same parameter, version and ownership rules as
`AddUserAccounts`: a successful call writes the version of the principal; an id not associated
with the principal is a no-op for that id. The ids removed are returned. -/
def DeleteUserAccounts (st : Store) (userId : String) (version : Nat)
    (accountIds : List String) : AccountsResult :=
  if userId = "" then
    AccountsResult.failure st
      { kind := .InvalidParameter
        context := ["iam.(Repository).DeleteUserAccounts", "missing public id"] }
  else if version = 0 then
    AccountsResult.failure st
      { kind := .InvalidParameter
        context := ["iam.(Repository).DeleteUserAccounts", "missing version"] }
  else if accountIds = [] then
    AccountsResult.failure st
      { kind := .InvalidParameter
        context := ["iam.(Repository).DeleteUserAccounts", "missing account ids"] }
  else
    match checkAccounts st "iam.(Repository).DeleteUserAccounts" userId accountIds with
    | some e => AccountsResult.failure st e
    | none =>
      match applyAccountChanges st "iam.(Repository).DeleteUserAccounts" userId version []
          (accountIds.filter (fun a => decide (a ∈ associatedAccountIds st userId))).dedup with
      | (some e, _) => AccountsResult.failure st e
      | (none, st1) =>
        { accountIds :=
            (accountIds.filter (fun a => decide (a ∈ associatedAccountIds st userId))).dedup
          err := none
          store := st1 }

/-- Modelled from the spec: `SetPrincipalAccounts` of section 4.4 (`SetUserAccounts`, which
is missing from the sources). The principal id must be present and the expected version at
least 1 (`InvalidParameter`); the list of account ids may be empty. The difference against
the current set is computed: the ids to add are those of the list not associated with the
principal, the ids to remove those associated with it and not in the list; adds and removes
are applied in one write, as in `AddUserAccounts` and `DeleteUserAccounts`, and an empty
difference is a no-op, with no version bump and no oplog record. The ids associated afterwards
are returned. -/
def SetUserAccounts (st : Store) (userId : String) (version : Nat) (accountIds : List String) :
    AccountsResult :=
  if userId = "" then
    AccountsResult.failure st
      { kind := .InvalidParameter
        context := ["iam.(Repository).SetUserAccounts", "missing public id"] }
  else if version = 0 then
    AccountsResult.failure st
      { kind := .InvalidParameter
        context := ["iam.(Repository).SetUserAccounts", "missing version"] }
  else
    match checkAccounts st "iam.(Repository).SetUserAccounts" userId accountIds with
    | some e => AccountsResult.failure st e
    | none =>
      if (accountIds.filter (fun a => decide (a ∉ associatedAccountIds st userId))).dedup = [] ∧
          ((associatedAccountIds st userId).filter (fun a => decide (a ∉ accountIds))).dedup = []
      then { accountIds := associatedAccountIds st userId, err := none, store := st }
      else
        match applyAccountChanges st "iam.(Repository).SetUserAccounts" userId version
            (accountIds.filter (fun a => decide (a ∉ associatedAccountIds st userId))).dedup
            ((associatedAccountIds st userId).filter
              (fun a => decide (a ∉ accountIds))).dedup with
        | (some e, _) => AccountsResult.failure st e
        | (none, st1) =>
          { accountIds := associatedAccountIds st1 userId, err := none, store := st1 }

/-- Modelled from the spec: what `DeleteUser`, which is missing, returns: the rows deleted,
the error (nil as `none`), and the store afterwards. -/
structure DeleteUserResult where
  rowsDeleted : Nat
  err : Option RepoError
  store : Store
  deriving DecidableEq, Repr

/-- Modelled from the spec: `DeletePrincipal` of section 4.4 (`DeleteUser`, which is missing
from the sources; only its test is there). The id must be present (`InvalidParameter`); a
missing row is `RecordNotFound`, from the lookup before the write; more than one row is
`MultipleRecords`. Otherwise the row is removed, the ownership of the accounts of the
principal is cleared (the cascade of section 3), an oplog record of the deletion is appended,
and one row is reported. Every failure reports no row and leaves the store as it was. -/
def DeleteUser (st : Store) (withPublicId : String) : DeleteUserResult :=
  if withPublicId = "" then
    { rowsDeleted := 0
      err := some
        { kind := .InvalidParameter, context := ["iam.(Repository).DeleteUser", "missing public id"] }
      store := st }
  else
    match userRows st withPublicId with
    | [] =>
      { rowsDeleted := 0
        err := some
          { kind := .RecordNotFound, context := ["iam.(Repository).DeleteUser", withPublicId] }
        store := st }
    | [_] =>
      { rowsDeleted := 1
        err := none
        store :=
          { users := st.users.filter (fun u => u.PublicId ≠ withPublicId)
            accounts := st.accounts.map (fun a =>
              if a.IamUserId = some withPublicId then { a with IamUserId := none } else a)
            oplog := st.oplog ++ [{ EntityPublicId := withPublicId, OperationType := .Delete }]
            now := st.now + 1 } }
    | _ :: _ :: _ =>
      { rowsDeleted := 0
        err := some
          { kind := .MultipleRecords, context := ["iam.(Repository).DeleteUser", withPublicId] }
        store := st }

/-- Modelled from the spec: what `LookupUser`, which is missing, returns: the principal (nil
as `none`), the ids of its accounts, and the error (nil as `none`). -/
structure LookupUserResult where
  user : Option User
  accountIds : List String
  err : Option RepoError
  deriving DecidableEq, Repr

/-- Modelled from the spec: the lookup of a principal by id (`LookupUser`, which is missing
from the sources; the test calls it). The id must be present; an id that resolves to no row
gives a nil principal and a nil error. -/
def LookupUser (st : Store) (withPublicId : String) : LookupUserResult :=
  if withPublicId = "" then
    { user := none
      accountIds := []
      err := some
        { kind := .InvalidParameter, context := ["iam.(Repository).LookupUser", "missing public id"] } }
  else
    match (userRows st withPublicId).head? with
    | none => { user := none, accountIds := [], err := none }
    | some u =>
      { user := some u, accountIds := associatedAccountIds st withPublicId, err := none }

/-- The account ids are keys of the account table: two rows with the same id are the same
row. -/
abbrev accountKeys (st : Store) : Prop :=
  ∀ a ∈ st.accounts, ∀ b ∈ st.accounts, a.PublicId = b.PublicId → a = b

/-- Modelled from the spec: a call of one of the operations of the principal repository
(section 4.4), which are missing from the sources, with its arguments. -/
inductive Op
  | UpdateUser (user : User) (version : Nat) (fieldMaskPaths : Option (List String))
  | AddUserAccounts (userId : String) (version : Nat) (accountIds : List String)
  | DeleteUserAccounts (userId : String) (version : Nat) (accountIds : List String)
  | SetUserAccounts (userId : String) (version : Nat) (accountIds : List String)
  | DeleteUser (withPublicId : String)
  deriving DecidableEq, Repr

/-- Modelled from the spec: the committed state a call leaves (section 5: the transaction is the
unit of atomicity, and no intermediate state is observable); a failed call leaves the store as
it was. The operations are missing from the sources. -/
def Op.apply (st : Store) (op : Op) : Store :=
  match op with
  | .UpdateUser user version fieldMaskPaths =>
    (Iam.UpdateUser st user version fieldMaskPaths).store
  | .AddUserAccounts userId version accountIds =>
    (Iam.AddUserAccounts st userId version accountIds).store
  | .DeleteUserAccounts userId version accountIds =>
    (Iam.DeleteUserAccounts st userId version accountIds).store
  | .SetUserAccounts userId version accountIds =>
    (Iam.SetUserAccounts st userId version accountIds).store
  | .DeleteUser withPublicId => (Iam.DeleteUser st withPublicId).store

/-- Modelled from the spec: the committed state reached from a store by a sequence of calls of
the operations of the principal repository, which are missing from the sources. -/
def run (st : Store) (ops : List Op) : Store := ops.foldl Op.apply st

/-! ## Example store -/

/-- A store with two principals of one scope and four accounts: `a_1` belongs to `u_1`,
`a_4` to `u_2`, the other two to nobody. -/
def exampleStore : Store :=
  { users :=
      [ { PublicId := "u_1", ScopeId := "o_1", Name := "alice", Description := "", Version := 1,
          CreateTime := 1, UpdateTime := 1 },
        { PublicId := "u_2", ScopeId := "o_1", Name := "bob", Description := "", Version := 3,
          CreateTime := 2, UpdateTime := 5 } ]
    accounts :=
      [ { PublicId := "a_1", IamUserId := some "u_1" },
        { PublicId := "a_2", IamUserId := none },
        { PublicId := "a_3", IamUserId := none },
        { PublicId := "a_4", IamUserId := some "u_2" } ]
    oplog := []
    now := 10 }

/-- An update of the name and description of `u_1`. -/
def exampleUpdate : User :=
  { PublicId := "u_1", ScopeId := "o_1", Name := "alice.smith", Description := "the first",
    Version := 0, CreateTime := 0, UpdateTime := 0 }

end Iam

namespace Metric

/-! ## The gRPC method name of the cluster metrics

Embedding of `splitMethodName` of `internal/daemon/controller/internal/metric/cluster.go`.
Go strings are byte sequences, as in the namespace `Password`; the byte of `/` is 47. -/

/-- Go `strings.HasPrefix`. -/
def HasPrefix (s pre : Password.GoString) : Bool :=
  match pre, s with
  | [], _ => true
  | _ :: _, [] => false
  | p :: ps, c :: cs => if p = c then HasPrefix cs ps else false

/-- Go `strings.TrimPrefix`: `s` without the leading `pre`, or `s` itself when it does not
start with `pre`. -/
def TrimPrefix (s pre : Password.GoString) : Password.GoString :=
  if HasPrefix s pre then s.drop pre.length else s

/-- The index of the first instance of `substr` in `s`, counted from `i`, or -1. -/
def indexFrom (s substr : Password.GoString) (i : Nat) : Int :=
  if HasPrefix s substr then i
  else
    match s with
    | [] => -1
    | _ :: rest => indexFrom rest substr (i + 1)

/-- Go `strings.Index`: the index of the first instance of `substr` in `s`, or -1. -/
def Index (s substr : Password.GoString) : Int := indexFrom s substr 0

/-- Source function `splitMethodName`: the service and the method of a full gRPC method
name. -/
def splitMethodName (fullMethodName : Password.GoString) :
    Password.GoString × Password.GoString :=
  -- remove leading slash
  let fullMethodName := TrimPrefix fullMethodName (Password.bytes "/")
  if Index fullMethodName (Password.bytes "/") ≥ 0 then
    (fullMethodName.take (Index fullMethodName (Password.bytes "/")).toNat,
      fullMethodName.drop ((Index fullMethodName (Password.bytes "/")).toNat + 1))
  else (Password.bytes "unknown", Password.bytes "unknown")

end Metric

namespace Password

/-! ## Lemmas: user names -/

theorem DecodeRune_ascii (b : Nat) (rest : List Nat) (h : b < 0x80) :
    DecodeRune (b :: rest) = (b, 1) := by
  simp [DecodeRune, h]

theorem DecodeRune_nonascii (b : Nat) (rest : List Nat) (h : 0x80 ≤ b) :
    0x80 ≤ (DecodeRune (b :: rest)).1 := by
  unfold DecodeRune
  simp only [RuneError]
  split_ifs <;> try omega
  all_goals (split <;> (try split_ifs) <;> (try simp only []) <;> omega)

theorem inClass_iff (r : Nat) :
    inClass r = true ↔ (0x61 ≤ r ∧ r ≤ 0x7A) ∨ (0x30 ≤ r ∧ r ≤ 0x39) ∨ r = 0x2E := by
  simp [inClass, or_assoc]

theorem inClass_lt (r : Nat) (h : inClass r = true) : r < 0x80 := by
  rw [inClass_iff] at h
  omega

theorem matchFrom_zero_eq_false_iff (u : List Nat) :
    matchFrom 0 u = false ↔ ∀ b ∈ u, inClass b = true := by
  induction u with
  | nil => simp [matchFrom]
  | cons b rest ih =>
    by_cases hb : b < 0x80
    · simp only [matchFrom, DecodeRune_ascii b rest hb, List.mem_cons, forall_eq_or_imp]
      by_cases hc : inClass b = true
      · simp [hc, ih]
      · simp [hc]
    · have h1 := DecodeRune_nonascii b rest (by omega)
      have h2 : inClass (DecodeRune (b :: rest)).1 = false := by
        cases hc : inClass (DecodeRune (b :: rest)).1 with
        | false => rfl
        | true => have := inClass_lt _ hc; omega
      have h3 : inClass b = false := by
        cases hc : inClass b with
        | false => rfl
        | true => have := inClass_lt _ hc; omega
      simp [matchFrom, h2, h3]

theorem validUserName_eq_true_iff (u : GoString) :
    validUserName u = true ↔ u ≠ [] ∧ ∀ b ∈ u, inClass b = true := by
  unfold validUserName reInvalidUserName.Match
  by_cases hu : u = []
  · simp [hu]
  · simp [hu, matchFrom_zero_eq_false_iff]

/-! ## Lemmas: heap and promoted fields -/

theorem read_eq_of_embedded {s : State} {p : Ptr} {sa : StoreAccount}
    (h : (s.heap.read p).embedded = some sa) : s.heap.read p = { embedded := some sa } := by
  cases hr : s.heap.read p with
  | mk e =>
    rw [hr] at h
    simp only at h
    rw [h]

theorem lt_length_of_embedded {s : State} {p : Ptr} {sa : StoreAccount}
    (h : (s.heap.read p).embedded = some sa) : p < s.heap.objs.length := by
  by_contra hlt
  have : s.heap.read p = { embedded := none } := by
    simp [Heap.read, List.getD, List.getElem?_eq_none (Nat.le_of_not_lt hlt)]
  rw [this] at h
  simp at h

theorem read_alloc_old (h : Heap) (v : Account) (q : Ptr) (hq : q < h.objs.length) :
    (h.alloc v).1.read q = h.read q := by
  simp [Heap.alloc, Heap.read, List.getD, List.getElem?_append_left hq]

theorem read_alloc_new (h : Heap) (v : Account) : (h.alloc v).1.read (h.alloc v).2 = v := by
  simp [Heap.alloc, Heap.read, List.getD]

theorem length_alloc (h : Heap) (v : Account) :
    (h.alloc v).1.objs.length = h.objs.length + 1 := by
  simp [Heap.alloc]

theorem read_write_ne (h : Heap) (p q : Ptr) (v : Account) (hpq : p ≠ q) :
    (h.write p v).read q = h.read q := by
  simp [Heap.write, Heap.read, List.getD, List.getElem?_set_ne hpq]

theorem read_write_eq (h : Heap) (p : Ptr) (v : Account) (hp : p < h.objs.length) :
    (h.write p v).read p = v := by
  simp [Heap.write, Heap.read, List.getD, List.getElem?_set_self, hp]

theorem length_write (h : Heap) (p : Ptr) (v : Account) :
    (h.write p v).objs.length = h.objs.length := by
  simp [Heap.write]

/-! ## Lemmas: the operations -/

theorem DoTx_eq_runTx_of_ok {γ : Type} (w : Writer) (n : Nat) (handler : State → γ → TxResult γ)
    (s : State) (c : γ) (h : (runTx w handler s c).err = none) :
    DoTx w n handler s c = runTx w handler s c := by
  cases n with
  | zero => rfl
  | succ n => simp [DoTx, h]

theorem CreateAccount_valid_eq (env : Env) (r : Repository) (s : State) (p : Ptr)
    (opts : options) (sa : StoreAccount) (cc : currentConfig) (id : GoString)
    (hsa : (s.heap.read p).embedded = some sa) (ham : sa.AuthMethodId ≠ [])
    (hpid : sa.PublicId = []) (hun : validUserName sa.UserName = true)
    (hcc : r.currentConfig s.trace sa.AuthMethodId = .ok cc)
    (hlen : ¬ cc.MinUserNameLength > (sa.UserName.length : Int))
    (hid : env.newAccountId (s.trace ++ [.currentConfig sa.AuthMethodId]) = .ok id) :
    CreateAccount env r s (some p) opts =
      if opts.withPassword then
        if cc.MinPasswordLength > (opts.password.length : Int) then
          { account := none
            err := some (.wrap "create: password account: password: %w" []
              (.sentinel .ErrTooShort))
            state := afterId s sa id }
        else
          match env.newArgon2Credential (afterId s sa id).trace id opts.password cc.argon2 with
          | .error err =>
            { account := none
              err := some (.wrap "create: password account: %w" [] err)
              state := (afterId s sa id).emit (.newArgon2Credential id opts.password cc.argon2) }
          | .ok cred =>
            CreateAccount.store env r s.heap.objs.length (some cred)
              ((afterId s sa id).emit (.newArgon2Credential id opts.password cc.argon2))
      else CreateAccount.store env r s.heap.objs.length none (afterId s sa id) := by
  have hr := read_eq_of_embedded hsa
  simp only [Heap.read, List.getD] at hr
  simp only [CreateAccount, Heap.read, List.getD, State.emit, hr, Account.AuthMethodId,
    Account.PublicId, Account.UserName, ham, hpid, hun, hcc, hlen, hid, afterId, Heap.alloc,
    Heap.write, Account.clone, Account.setPublicId]
  simp

theorem txHandler_eq (env : Env) (r : Repository) (a : Ptr) (cred : Option Argon2Credential)
    (t : State) (c : Option Ptr) (wa : Account) (hra : t.heap.read a = wa)
    (ha : a < t.heap.objs.length) :
    CreateAccount.txHandler env r a cred t c =
      match (r.writer.CreateAccountRow t.trace wa
          (WithOplog r.wrapper (wa.oplog .OP_TYPE_CREATE))).1 with
      | some e =>
        { err := some e
          captured := some t.heap.objs.length
          state :=
            { heap := { objs := t.heap.objs ++ [(r.writer.CreateAccountRow t.trace wa
                (WithOplog r.wrapper (wa.oplog .OP_TYPE_CREATE))).2] }
              trace := t.trace ++
                [.Create (.account wa) (WithOplog r.wrapper (wa.oplog .OP_TYPE_CREATE))] } }
      | none =>
        match cred with
        | none =>
          { err := none
            captured := some t.heap.objs.length
            state :=
              { heap := { objs := t.heap.objs ++ [(r.writer.CreateAccountRow t.trace wa
                  (WithOplog r.wrapper (wa.oplog .OP_TYPE_CREATE))).2] }
                trace := t.trace ++
                  [.Create (.account wa) (WithOplog r.wrapper (wa.oplog .OP_TYPE_CREATE))] } }
        | some cr =>
          match env.encrypt (t.trace ++
              [.Create (.account wa) (WithOplog r.wrapper (wa.oplog .OP_TYPE_CREATE))])
              cr.clone r.wrapper with
          | .error e =>
            { err := some e
              captured := some t.heap.objs.length
              state :=
                { heap := { objs := t.heap.objs ++ [(r.writer.CreateAccountRow t.trace wa
                    (WithOplog r.wrapper (wa.oplog .OP_TYPE_CREATE))).2] }
                  trace := t.trace ++
                    [.Create (.account wa) (WithOplog r.wrapper (wa.oplog .OP_TYPE_CREATE)),
                     .encrypt cr.clone r.wrapper] } }
          | .ok x =>
            { err := r.writer.CreateCredentialRow (t.trace ++
                  [.Create (.account wa) (WithOplog r.wrapper (wa.oplog .OP_TYPE_CREATE)),
                   .encrypt cr.clone r.wrapper]) x
                  (WithOplog r.wrapper (cr.oplog .OP_TYPE_CREATE))
              captured := some t.heap.objs.length
              state :=
                { heap := { objs := t.heap.objs ++ [(r.writer.CreateAccountRow t.trace wa
                    (WithOplog r.wrapper (wa.oplog .OP_TYPE_CREATE))).2] }
                  trace := t.trace ++
                    [.Create (.account wa) (WithOplog r.wrapper (wa.oplog .OP_TYPE_CREATE)),
                     .encrypt cr.clone r.wrapper,
                     .Create (.credential x) (WithOplog r.wrapper (cr.oplog .OP_TYPE_CREATE))] } } := by
  have h1 : (t.heap.alloc (t.heap.read a).clone).1.read a = wa := by
    rw [read_alloc_old _ _ _ ha, hra]
  have h2 : (t.heap.alloc (t.heap.read a).clone).1.read (t.heap.alloc (t.heap.read a).clone).2
      = wa := by
    rw [read_alloc_new, hra]; rfl
  have h3 : ∀ v, (t.heap.alloc (t.heap.read a).clone).1.write
      (t.heap.alloc (t.heap.read a).clone).2 v = { objs := t.heap.objs ++ [v] } := by
    intro v
    simp [Heap.alloc, Heap.write]
  have h4 : (t.heap.alloc (t.heap.read a).clone).2 = t.heap.objs.length := rfl
  simp only [CreateAccount.txHandler, h1, h2, h3, State.emit]
  simp only [h4, List.append_assoc, List.singleton_append, List.cons_append, List.nil_append]
  split
  · rfl
  · split
    · rfl
    · split
      · rfl
      · split <;> simp_all

theorem runTx_create_cases (env : Env) (r : Repository) (a : Ptr)
    (cred : Option Argon2Credential) (t : State) (c : Option Ptr) (wa : Account)
    (hra : t.heap.read a = wa) (ha : a < t.heap.objs.length) :
    (runTx r.writer (CreateAccount.txHandler env r a cred) t c).captured
        = some t.heap.objs.length ∧
    (runTx r.writer (CreateAccount.txHandler env r a cred) t c).state.heap
        = { objs := t.heap.objs ++ [(r.writer.CreateAccountRow (t.trace ++ [.txBegin]) wa
              (WithOplog r.wrapper (wa.oplog .OP_TYPE_CREATE))).2] } ∧
    ((∃ e, (r.writer.CreateAccountRow (t.trace ++ [.txBegin]) wa
              (WithOplog r.wrapper (wa.oplog .OP_TYPE_CREATE))).1 = some e ∧
        (runTx r.writer (CreateAccount.txHandler env r a cred) t c).err = some e ∧
        (runTx r.writer (CreateAccount.txHandler env r a cred) t c).state.trace
          = t.trace ++ [.txBegin, createAccountEvent r wa, .txRollback]) ∨
     ((r.writer.CreateAccountRow (t.trace ++ [.txBegin]) wa
              (WithOplog r.wrapper (wa.oplog .OP_TYPE_CREATE))).1 = none ∧ cred = none ∧
        ((∃ e, r.writer.commit (t.trace ++ [.txBegin, createAccountEvent r wa]) = some e ∧
            (runTx r.writer (CreateAccount.txHandler env r a cred) t c).err = some e ∧
            (runTx r.writer (CreateAccount.txHandler env r a cred) t c).state.trace
              = t.trace ++ [.txBegin, createAccountEvent r wa, .txRollback]) ∨
         (r.writer.commit (t.trace ++ [.txBegin, createAccountEvent r wa]) = none ∧
            (runTx r.writer (CreateAccount.txHandler env r a cred) t c).err = none ∧
            (runTx r.writer (CreateAccount.txHandler env r a cred) t c).state.trace
              = t.trace ++ [.txBegin, createAccountEvent r wa, .txCommit]))) ∨
     (∃ cr e, (r.writer.CreateAccountRow (t.trace ++ [.txBegin]) wa
              (WithOplog r.wrapper (wa.oplog .OP_TYPE_CREATE))).1 = none ∧ cred = some cr ∧
        env.encrypt (t.trace ++ [.txBegin, createAccountEvent r wa]) cr.clone r.wrapper
          = .error e ∧
        (runTx r.writer (CreateAccount.txHandler env r a cred) t c).err = some e ∧
        (runTx r.writer (CreateAccount.txHandler env r a cred) t c).state.trace
          = t.trace ++ [.txBegin, createAccountEvent r wa, encryptEvent r cr, .txRollback]) ∨
     (∃ cr x, (r.writer.CreateAccountRow (t.trace ++ [.txBegin]) wa
              (WithOplog r.wrapper (wa.oplog .OP_TYPE_CREATE))).1 = none ∧ cred = some cr ∧
        env.encrypt (t.trace ++ [.txBegin, createAccountEvent r wa]) cr.clone r.wrapper
          = .ok x ∧
        ((∃ e, (r.writer.CreateCredentialRow
                  (t.trace ++ [.txBegin, createAccountEvent r wa, encryptEvent r cr]) x
                  (WithOplog r.wrapper (cr.oplog .OP_TYPE_CREATE)) = some e ∨
                (r.writer.CreateCredentialRow
                  (t.trace ++ [.txBegin, createAccountEvent r wa, encryptEvent r cr]) x
                  (WithOplog r.wrapper (cr.oplog .OP_TYPE_CREATE)) = none ∧
                 r.writer.commit (t.trace ++ [.txBegin, createAccountEvent r wa,
                    encryptEvent r cr, createCredentialEvent r cr x]) = some e)) ∧
            (runTx r.writer (CreateAccount.txHandler env r a cred) t c).err = some e ∧
            (runTx r.writer (CreateAccount.txHandler env r a cred) t c).state.trace
              = t.trace ++ [.txBegin, createAccountEvent r wa, encryptEvent r cr,
                  createCredentialEvent r cr x, .txRollback]) ∨
         (r.writer.CreateCredentialRow
              (t.trace ++ [.txBegin, createAccountEvent r wa, encryptEvent r cr]) x
              (WithOplog r.wrapper (cr.oplog .OP_TYPE_CREATE)) = none ∧
            r.writer.commit (t.trace ++ [.txBegin, createAccountEvent r wa,
                encryptEvent r cr, createCredentialEvent r cr x]) = none ∧
            (runTx r.writer (CreateAccount.txHandler env r a cred) t c).err = none ∧
            (runTx r.writer (CreateAccount.txHandler env r a cred) t c).state.trace
              = t.trace ++ [.txBegin, createAccountEvent r wa, encryptEvent r cr,
                  createCredentialEvent r cr x, .txCommit])))) := by
  have hra2 : (t.emit .txBegin).heap.read a = wa := hra
  have ha2 : a < (t.emit .txBegin).heap.objs.length := ha
  have hT := txHandler_eq env r a cred (t.emit .txBegin) c wa hra2 ha2
  simp only [State.emit] at hT
  simp only [runTx, hT, State.emit, createAccountEvent, encryptEvent, createCredentialEvent]
  clear hT
  cases h1 : (r.writer.CreateAccountRow (t.trace ++ [.txBegin]) wa
              (WithOplog r.wrapper (wa.oplog .OP_TYPE_CREATE))).1 with
  | some e => simp
  | none =>
    cases cred with
    | none =>
      simp only [List.append_assoc, List.singleton_append, List.cons_append, List.nil_append]
      cases h2 : r.writer.commit (t.trace ++ [.txBegin, .Create (.account wa)
          (WithOplog r.wrapper (wa.oplog .OP_TYPE_CREATE))]) with
      | some e => simp
      | none => simp
    | some cr =>
      simp only [List.append_assoc, List.singleton_append, List.cons_append, List.nil_append]
      cases h2 : env.encrypt (t.trace ++ [.txBegin, .Create (.account wa)
          (WithOplog r.wrapper (wa.oplog .OP_TYPE_CREATE))]) cr.clone r.wrapper with
      | error e => simp [h2]
      | ok x =>
        simp only []
        cases h3 : r.writer.CreateCredentialRow (t.trace ++ [.txBegin, .Create (.account wa)
            (WithOplog r.wrapper (wa.oplog .OP_TYPE_CREATE)), .encrypt cr.clone r.wrapper]) x
            (WithOplog r.wrapper (cr.oplog .OP_TYPE_CREATE)) with
        | some e =>
          simp only [List.append_assoc, List.singleton_append, List.cons_append,
            List.nil_append] at h2 h3 ⊢
          simp [h2, h3]
        | none =>
          simp only []
          cases h4 : r.writer.commit (t.trace ++ [.txBegin, .Create (.account wa)
              (WithOplog r.wrapper (wa.oplog .OP_TYPE_CREATE)), .encrypt cr.clone r.wrapper,
              .Create (.credential x) (WithOplog r.wrapper (cr.oplog .OP_TYPE_CREATE))]) with
          | some e => simp [h2, h3, h4]
          | none => simp [h2, h3, h4]

theorem read_UserName {s : State} {p : Ptr} {sa : StoreAccount}
    (h : (s.heap.read p).embedded = some sa) : (s.heap.read p).UserName = sa.UserName := by
  simp [Account.UserName, h]

theorem store_eq_of_runTx_ok (env : Env) (r : Repository) (a : Ptr)
    (cred : Option Argon2Credential) (t : State)
    (h : (runTx r.writer (CreateAccount.txHandler env r a cred) t none).err = none) :
    CreateAccount.store env r a cred t =
      { account := (runTx r.writer (CreateAccount.txHandler env r a cred) t none).captured
        err := none
        state := (runTx r.writer (CreateAccount.txHandler env r a cred) t none).state } := by
  simp [CreateAccount.store, DoTx_eq_runTx_of_ok _ _ _ _ _ h, h]

theorem getD_append_two {α : Type} (l : List α) (v w d : α) :
    (l ++ [v, w]).getD (l.length + 1) d = w := by
  have h : (l ++ [v, w])[l.length + 1]? = some w := by
    rw [List.getElem?_append_right (by omega)]
    simp
  simp [List.getD, h]

theorem read_afterId (s : State) (sa : StoreAccount) (id : GoString) :
    (afterId s sa id).heap.read s.heap.objs.length
      = { embedded := some { sa with PublicId := id } } := by
  simp [afterId, Heap.read, List.getD]

theorem DoTx_inv {γ : Type} (w : Writer) (handler : State → γ → TxResult γ)
    (Inv : State → γ → Prop)
    (hstep : ∀ s c e, Inv s c → (runTx w handler s c).err = some e → w.transient e = true →
      Inv (runTx w handler s c).state (runTx w handler s c).captured) :
    ∀ (n : Nat) (s : State) (c : γ), Inv s c →
      ∃ s0 c0, Inv s0 c0 ∧ DoTx w n handler s c = runTx w handler s0 c0 := by
  intro n
  induction n with
  | zero => intro s c h; exact ⟨s, c, h, rfl⟩
  | succ n ih =>
    intro s c h
    unfold DoTx
    cases he : (runTx w handler s c).err with
    | none => exact ⟨s, c, h, rfl⟩
    | some e =>
      simp only []
      by_cases ht : w.transient e = true
      · simp only [ht, if_true]
        exact ih _ _ (hstep s c e h he ht)
      · simp only [ht]
        exact ⟨s, c, h, by simp⟩

theorem read_append_left (objs ext : List Account) (a : Ptr) (ha : a < objs.length) :
    Heap.read { objs := objs ++ ext } a = Heap.read { objs := objs } a := by
  simp [Heap.read, List.getD, List.getElem?_append_left ha]

/-- The transaction of `CreateAccount` ends with one run of the callback, started in a
state whose heap extends the initial heap and whose trace satisfies any property `Q` that
holds initially and is kept by every run. -/
theorem store_DoTx_inv (env : Env) (r : Repository) (a : Ptr) (cred : Option Argon2Credential)
    (t : State) (ha : a < t.heap.objs.length) (Q : List Event → Prop) (hQ0 : Q t.trace)
    (hQ : ∀ (t1 : State) (c : Option Ptr) (e : GoError),
      (∃ ext, t1.heap.objs = t.heap.objs ++ ext) → Q t1.trace →
      (runTx r.writer (CreateAccount.txHandler env r a cred) t1 c).err = some e →
      r.writer.transient e = true →
      Q (runTx r.writer (CreateAccount.txHandler env r a cred) t1 c).state.trace) :
    ∃ t0 c0, (∃ ext, t0.heap.objs = t.heap.objs ++ ext) ∧ Q t0.trace ∧
      DoTx r.writer env.StdRetryCnt (CreateAccount.txHandler env r a cred) t none
        = runTx r.writer (CreateAccount.txHandler env r a cred) t0 c0 := by
  have h := DoTx_inv r.writer (CreateAccount.txHandler env r a cred)
    (fun t1 _ => (∃ ext, t1.heap.objs = t.heap.objs ++ ext) ∧ Q t1.trace)
    (by
      rintro t1 c e ⟨⟨ext, hext⟩, hq⟩ he ht
      refine ⟨?_, hQ t1 c e ⟨ext, hext⟩ hq he ht⟩
      have ha1 : a < t1.heap.objs.length := by
        rw [hext, List.length_append]; exact Nat.lt_of_lt_of_le ha (Nat.le_add_right _ _)
      obtain ⟨-, hheap, -⟩ := runTx_create_cases env r a cred t1 c _ rfl ha1
      rw [hheap]
      exact ⟨ext ++ [(r.writer.CreateAccountRow (t1.trace ++ [Event.txBegin]) (t1.heap.read a)
        (WithOplog r.wrapper ((t1.heap.read a).oplog OpType.OP_TYPE_CREATE))).2], by
        simp only [hext, List.append_assoc]⟩)
    env.StdRetryCnt t none ⟨⟨[], by simp⟩, hQ0⟩
  obtain ⟨t0, c0, ⟨hext, hq⟩, heq⟩ := h
  exact ⟨t0, c0, hext, hq, heq⟩

theorem runTx_create_trace (env : Env) (r : Repository) (a : Ptr)
    (cred : Option Argon2Credential) (t : State) (c : Option Ptr)
    (ha : a < t.heap.objs.length) :
    ∃ l, (runTx r.writer (CreateAccount.txHandler env r a cred) t c).state.trace
      = t.trace ++ l := by
  obtain ⟨-, -, hc⟩ := runTx_create_cases env r a cred t c _ rfl ha
  rcases hc with ⟨e, -, -, h⟩ | ⟨-, -, ⟨e, -, -, h⟩ | ⟨-, -, h⟩⟩ | ⟨cr, e, -, -, -, -, h⟩ |
    ⟨cr, x, -, -, -, ⟨e, -, -, h⟩ | ⟨-, -, -, h⟩⟩ <;> exact ⟨_, h⟩

theorem store_trace (env : Env) (r : Repository) (a : Ptr) (cred : Option Argon2Credential)
    (t : State) (ha : a < t.heap.objs.length) :
    ∃ l, (CreateAccount.store env r a cred t).state.trace = t.trace ++ l := by
  obtain ⟨t0, c0, ⟨ext, hext⟩, ⟨l0, hl0⟩, heq⟩ := store_DoTx_inv env r a cred t ha
    (fun T => ∃ l, T = t.trace ++ l) ⟨[], by simp⟩
    (by
      rintro t1 c e ⟨ext, hext⟩ ⟨l, hl⟩ - -
      have ha1 : a < t1.heap.objs.length := by
        rw [hext, List.length_append]; exact Nat.lt_of_lt_of_le ha (Nat.le_add_right _ _)
      obtain ⟨l1, hl1⟩ := runTx_create_trace env r a cred t1 c ha1
      exact ⟨l ++ l1, by rw [hl1, hl, List.append_assoc]⟩)
  have ha0 : a < t0.heap.objs.length := by
        rw [hext, List.length_append]; exact Nat.lt_of_lt_of_le ha (Nat.le_add_right _ _)
  obtain ⟨l1, hl1⟩ := runTx_create_trace env r a cred t0 c0 ha0
  have hst : (CreateAccount.store env r a cred t).state
      = (runTx r.writer (CreateAccount.txHandler env r a cred) t0 c0).state := by
    simp only [CreateAccount.store, heq]
    split
    · split_ifs <;> rfl
    · rfl
  exact ⟨l0 ++ l1, by rw [hst, hl1, hl0, List.append_assoc]⟩

theorem store_err_ne_password_tooShort (env : Env) (r : Repository) (a : Ptr)
    (cred : Option Argon2Credential) (t : State) :
    (CreateAccount.store env r a cred t).err ≠
      some (.wrap "create: password account: password: %w" [] (.sentinel .ErrTooShort)) := by
  simp only [CreateAccount.store]
  split
  · split_ifs <;> simp
  · simp

theorem runTx_create_trace_noConfig (env : Env) (r : Repository) (a : Ptr)
    (cred : Option Argon2Credential) (t : State) (c : Option Ptr)
    (ha : a < t.heap.objs.length) :
    ∃ l, (runTx r.writer (CreateAccount.txHandler env r a cred) t c).state.trace
      = t.trace ++ l ∧ ∀ x, Event.currentConfig x ∉ l := by
  obtain ⟨-, -, hc⟩ := runTx_create_cases env r a cred t c _ rfl ha
  rcases hc with ⟨e, -, -, h⟩ | ⟨-, -, ⟨e, -, -, h⟩ | ⟨-, -, h⟩⟩ | ⟨cr, e, -, -, -, -, h⟩ |
    ⟨cr, x, -, -, -, ⟨e, -, -, h⟩ | ⟨-, -, -, h⟩⟩ <;> exact ⟨_, h, by simp⟩

theorem store_state_eq (env : Env) (r : Repository) (a : Ptr) (cred : Option Argon2Credential)
    (t : State) :
    (CreateAccount.store env r a cred t).state
      = (DoTx r.writer env.StdRetryCnt (CreateAccount.txHandler env r a cred) t none).state := by
  simp only [CreateAccount.store]
  split
  · split_ifs <;> rfl
  · rfl

theorem store_trace_noConfig (env : Env) (r : Repository) (a : Ptr)
    (cred : Option Argon2Credential) (t : State) (ha : a < t.heap.objs.length) :
    ∃ l, (CreateAccount.store env r a cred t).state.trace = t.trace ++ l ∧
      ∀ x, Event.currentConfig x ∉ l := by
  obtain ⟨t0, c0, ⟨ext, hext⟩, ⟨l0, hl0, hn0⟩, heq⟩ := store_DoTx_inv env r a cred t ha
    (fun T => ∃ l, T = t.trace ++ l ∧ ∀ x, Event.currentConfig x ∉ l) ⟨[], by simp⟩
    (by
      rintro t1 c e ⟨ext, hext⟩ ⟨l, hl, hn⟩ - -
      have ha1 : a < t1.heap.objs.length := by
        rw [hext, List.length_append]; exact Nat.lt_of_lt_of_le ha (Nat.le_add_right _ _)
      obtain ⟨l1, hl1, hn1⟩ := runTx_create_trace_noConfig env r a cred t1 c ha1
      refine ⟨l ++ l1, by rw [hl1, hl, List.append_assoc], ?_⟩
      intro x hx
      rcases List.mem_append.1 hx with h | h
      · exact hn x h
      · exact hn1 x h)
  have ha0 : a < t0.heap.objs.length := by
    rw [hext, List.length_append]; exact Nat.lt_of_lt_of_le ha (Nat.le_add_right _ _)
  obtain ⟨l1, hl1, hn1⟩ := runTx_create_trace_noConfig env r a cred t0 c0 ha0
  refine ⟨l0 ++ l1, by rw [store_state_eq, heq, hl1, hl0, List.append_assoc], ?_⟩
  intro x hx
  rcases List.mem_append.1 hx with h | h
  · exact hn0 x h
  · exact hn1 x h

theorem CreateAccount_invalid_or_valid (env : Env) (r : Repository) (s : State)
    (a : Option Ptr) (opts : options) :
    ((CreateAccount env r s a opts).state = s ∧ (CreateAccount env r s a opts).account = none ∧
      ∃ e, (CreateAccount env r s a opts).err = some e ∧
        (errorsIs e .ErrInvalidParameter = true ∨ errorsIs e .ErrNilParameter = true)) ∨
    ∃ p sa, a = some p ∧ (s.heap.read p).embedded = some sa ∧ sa.AuthMethodId ≠ [] ∧
      sa.PublicId = [] ∧ validUserName sa.UserName = true := by
  cases a with
  | none => left; simp [CreateAccount, errorsIs]
  | some p =>
    cases hsa : (s.heap.read p).embedded with
    | none => left; simp [CreateAccount, hsa, errorsIs]
    | some sa =>
      have hr := read_eq_of_embedded hsa
      simp only [Heap.read, List.getD] at hr
      by_cases ham : sa.AuthMethodId = []
      · left
        simp only [CreateAccount, Heap.read, List.getD, hr, Account.AuthMethodId, ham]
        simp [errorsIs]
      · by_cases hpid : sa.PublicId = []
        · cases hun : validUserName sa.UserName with
          | true => right; exact ⟨p, sa, rfl, hsa, ham, hpid, hun⟩
          | false =>
            left
            simp only [CreateAccount, Heap.read, List.getD, hr, Account.AuthMethodId,
              Account.PublicId, Account.UserName, ham, hpid, hun]
            simp [errorsIs, hpid, hun, ham]
        · left
          simp only [CreateAccount, Heap.read, List.getD, hr, Account.AuthMethodId,
            Account.PublicId, ham, hpid]
          simp [errorsIs, hpid]

theorem CreateAccount_config_error_eq (env : Env) (r : Repository) (s : State) (p : Ptr)
    (opts : options) (sa : StoreAccount) (e : GoError)
    (hsa : (s.heap.read p).embedded = some sa) (ham : sa.AuthMethodId ≠ [])
    (hpid : sa.PublicId = []) (hun : validUserName sa.UserName = true)
    (hcc : r.currentConfig s.trace sa.AuthMethodId = .error e) :
    CreateAccount env r s (some p) opts =
      { account := none
        err := some (.wrap "create: password account: retrieve current configuration: %w" [] e)
        state := s.emit (.currentConfig sa.AuthMethodId) } := by
  have hr := read_eq_of_embedded hsa
  simp only [Heap.read, List.getD] at hr
  simp only [CreateAccount, Heap.read, List.getD, State.emit, hr, Account.AuthMethodId,
    Account.PublicId, Account.UserName, ham, hpid, hun, hcc]
  simp

theorem CreateAccount_userName_short_eq (env : Env) (r : Repository) (s : State) (p : Ptr)
    (opts : options) (sa : StoreAccount) (cc : currentConfig)
    (hsa : (s.heap.read p).embedded = some sa) (ham : sa.AuthMethodId ≠ [])
    (hpid : sa.PublicId = []) (hun : validUserName sa.UserName = true)
    (hcc : r.currentConfig s.trace sa.AuthMethodId = .ok cc)
    (hlen : cc.MinUserNameLength > (sa.UserName.length : Int)) :
    CreateAccount env r s (some p) opts =
      { account := none
        err := some (.wrap "create: password account: user name %q: %w" [sa.UserName]
          (.sentinel .ErrTooShort))
        state := s.emit (.currentConfig sa.AuthMethodId) } := by
  have hr := read_eq_of_embedded hsa
  simp only [Heap.read, List.getD] at hr
  simp only [CreateAccount, Heap.read, List.getD, State.emit, hr, Account.AuthMethodId,
    Account.PublicId, Account.UserName, ham, hpid, hun, hcc, hlen]
  simp

theorem CreateAccount_id_error_eq (env : Env) (r : Repository) (s : State) (p : Ptr)
    (opts : options) (sa : StoreAccount) (cc : currentConfig) (e : GoError)
    (hsa : (s.heap.read p).embedded = some sa) (ham : sa.AuthMethodId ≠ [])
    (hpid : sa.PublicId = []) (hun : validUserName sa.UserName = true)
    (hcc : r.currentConfig s.trace sa.AuthMethodId = .ok cc)
    (hlen : ¬ cc.MinUserNameLength > (sa.UserName.length : Int))
    (hid : env.newAccountId (s.trace ++ [.currentConfig sa.AuthMethodId]) = .error e) :
    CreateAccount env r s (some p) opts =
      { account := none
        err := some (.wrap "create: password account: %w" [] e)
        state :=
          { heap := { objs := s.heap.objs ++ [{ embedded := some sa }] }
            trace := s.trace ++ [.currentConfig sa.AuthMethodId, .newAccountId] } } := by
  have hr := read_eq_of_embedded hsa
  simp only [Heap.read, List.getD] at hr
  simp only [CreateAccount, Heap.read, List.getD, State.emit, hr, Account.AuthMethodId,
    Account.PublicId, Account.UserName, ham, hpid, hun, hcc, hlen, hid, Heap.alloc,
    Account.clone]
  simp

theorem runTx_create_fail_trace (env : Env) (r : Repository) (a : Ptr)
    (cred : Option Argon2Credential) (t : State) (c : Option Ptr) (e : GoError)
    (ha : a < t.heap.objs.length)
    (he : (runTx r.writer (CreateAccount.txHandler env r a cred) t c).err = some e) :
    ∃ l, (runTx r.writer (CreateAccount.txHandler env r a cred) t c).state.trace
      = t.trace ++ l ∧ Event.txCommit ∉ l := by
  obtain ⟨-, -, hc⟩ := runTx_create_cases env r a cred t c _ rfl ha
  rcases hc with ⟨e, -, -, h⟩ | ⟨-, -, ⟨e, -, -, h⟩ | ⟨-, h1, h⟩⟩ | ⟨cr, e, -, -, -, -, h⟩ |
    ⟨cr, x, -, -, -, ⟨e, -, -, h⟩ | ⟨-, -, h1, h⟩⟩
  · exact ⟨_, h, by simp⟩
  · exact ⟨_, h, by simp⟩
  · rw [h1] at he; cases he
  · exact ⟨_, h, by simp⟩
  · exact ⟨_, h, by simp⟩
  · rw [h1] at he; cases he

theorem read_of_heap_ext (t t0 : State) (ext : List Account) (a : Ptr)
    (ha : a < t.heap.objs.length) (hext : t0.heap.objs = t.heap.objs ++ ext) :
    t0.heap.read a = t.heap.read a ∧ a < t0.heap.objs.length := by
  constructor
  · simp [Heap.read, List.getD, hext, List.getElem?_append_left ha]
  · rw [hext, List.length_append]; exact Nat.lt_of_lt_of_le ha (Nat.le_add_right _ _)

/-- The transaction of `CreateAccount` ends with one run of the callback; the runs before
it were rolled back. -/
theorem store_last_run (env : Env) (r : Repository) (a : Ptr) (cred : Option Argon2Credential)
    (t : State) (ha : a < t.heap.objs.length) :
    ∃ t0 c0 pre, t0.trace = t.trace ++ pre ∧ Event.txCommit ∉ pre ∧
      (∃ ext, t0.heap.objs = t.heap.objs ++ ext) ∧
      DoTx r.writer env.StdRetryCnt (CreateAccount.txHandler env r a cred) t none
        = runTx r.writer (CreateAccount.txHandler env r a cred) t0 c0 := by
  obtain ⟨t0, c0, hext, ⟨pre, hpre, hn⟩, heq⟩ := store_DoTx_inv env r a cred t ha
    (fun T => ∃ pre, T = t.trace ++ pre ∧ Event.txCommit ∉ pre) ⟨[], by simp⟩
    (by
      rintro t1 c e ⟨ext, hext⟩ ⟨l, hl, hn⟩ he -
      obtain ⟨l1, hl1, hn1⟩ := runTx_create_fail_trace env r a cred t1 c e
        (read_of_heap_ext t t1 ext a ha hext).2 he
      refine ⟨l ++ l1, by rw [hl1, hl, List.append_assoc], ?_⟩
      intro hx
      rcases List.mem_append.1 hx with h | h
      · exact hn h
      · exact hn1 h)
  exact ⟨t0, c0, pre, hpre, hn, hext, heq⟩

theorem store_err_eq_none_iff (env : Env) (r : Repository) (a : Ptr)
    (cred : Option Argon2Credential) (t : State) :
    (CreateAccount.store env r a cred t).err = none ↔
      (DoTx r.writer env.StdRetryCnt (CreateAccount.txHandler env r a cred) t none).err
        = none := by
  simp only [CreateAccount.store]
  split
  · rename_i e he
    split_ifs <;> simp [he]
  · rename_i he
    simp [he]

theorem store_account_eq (env : Env) (r : Repository) (a : Ptr)
    (cred : Option Argon2Credential) (t : State)
    (h : (CreateAccount.store env r a cred t).err = none) :
    (CreateAccount.store env r a cred t).account =
      (DoTx r.writer env.StdRetryCnt (CreateAccount.txHandler env r a cred) t none).captured := by
  have h2 := (store_err_eq_none_iff env r a cred t).1 h
  simp only [CreateAccount.store]
  split
  · rename_i e he
    rw [h2] at he; cases he
  · rfl

theorem read_append_length (objs : List Account) (v : Account) :
    Heap.read { objs := objs ++ [v] } objs.length = v := by
  simp [Heap.read, List.getD]

/-- A successful transaction of `CreateAccount`: after runs that were rolled back (`pre`),
the last run hands the working copy to the writer, then (with a credential) encrypts a
clone and hands the result to the writer, and commits. -/
theorem store_success_cases (env : Env) (r : Repository) (a : Ptr)
    (cred : Option Argon2Credential) (t : State) (wa : Account)
    (hra : t.heap.read a = wa) (ha : a < t.heap.objs.length)
    (herr : (CreateAccount.store env r a cred t).err = none) :
    ∃ pre q, Event.txCommit ∉ pre ∧
      (CreateAccount.store env r a cred t).account = some q ∧ t.heap.objs.length ≤ q ∧
      (∃ ext, (CreateAccount.store env r a cred t).state.heap.objs = t.heap.objs ++ ext) ∧
      (CreateAccount.store env r a cred t).state.heap.read q =
        (r.writer.CreateAccountRow (t.trace ++ pre ++ [.txBegin]) wa
          (WithOplog r.wrapper (wa.oplog .OP_TYPE_CREATE))).2 ∧
      ((cred = none ∧
          (CreateAccount.store env r a cred t).state.trace =
            t.trace ++ pre ++ [.txBegin, createAccountEvent r wa, .txCommit]) ∨
       (∃ cr x, cred = some cr ∧
          env.encrypt (t.trace ++ pre ++ [.txBegin, createAccountEvent r wa]) cr.clone
            r.wrapper = .ok x ∧
          (CreateAccount.store env r a cred t).state.trace =
            t.trace ++ pre ++ [.txBegin, createAccountEvent r wa, encryptEvent r cr,
              createCredentialEvent r cr x, .txCommit])) := by
  obtain ⟨t0, c0, pre, hpre, hn, ⟨ext, hext⟩, heq⟩ := store_last_run env r a cred t ha
  obtain ⟨hr0, ha0⟩ := read_of_heap_ext t t0 ext a ha hext
  have herr0 := (store_err_eq_none_iff env r a cred t).1 herr
  have hacc := store_account_eq env r a cred t herr
  have hst := store_state_eq env r a cred t
  rw [heq] at herr0 hacc hst
  obtain ⟨hcap, hheap, hc⟩ := runTx_create_cases env r a cred t0 c0 wa (by rw [hr0, hra]) ha0
  refine ⟨pre, t0.heap.objs.length, hn, by rw [hacc, hcap], ?_, ?_, ?_, ?_⟩
  · rw [hext, List.length_append]; exact Nat.le_add_right _ _
  · rw [hst, hheap]
    exact ⟨ext ++ [(r.writer.CreateAccountRow (t0.trace ++ [Event.txBegin]) wa
      (WithOplog r.wrapper (wa.oplog OpType.OP_TYPE_CREATE))).2], by
      simp only [hext, List.append_assoc]⟩
  · rw [hst, hheap, read_append_length, hpre]
  · rw [hst]
    rcases hc with ⟨e, -, h, -⟩ | ⟨-, hcr, ⟨e, -, h, -⟩ | ⟨-, -, h⟩⟩ | ⟨cr, e, -, -, -, h, -⟩ |
      ⟨cr, x, -, hcr, henc, ⟨e, -, h, -⟩ | ⟨-, -, -, h⟩⟩
    · rw [herr0] at h; cases h
    · rw [herr0] at h; cases h
    · left
      exact ⟨hcr, by rw [h, hpre]⟩
    · rw [herr0] at h; cases h
    · rw [herr0] at h; cases h
    · right
      refine ⟨cr, x, hcr, ?_, by rw [h, hpre]⟩
      rw [← hpre]; exact henc

theorem split_nil_iff {α : Type} (P : List α → α → List α → Prop) :
    (∀ pre ev post, ([] : List α) = pre ++ ev :: post → P pre ev post) ↔ True := by
  simp

theorem split_cons_iff {α : Type} (a : α) (L : List α) (P : List α → α → List α → Prop) :
    (∀ pre ev post, a :: L = pre ++ ev :: post → P pre ev post) ↔
      (P [] a L ∧ ∀ pre ev post, L = pre ++ ev :: post → P (a :: pre) ev post) := by
  constructor
  · intro h
    refine ⟨h [] a L rfl, ?_⟩
    intro pre ev post hL
    exact h (a :: pre) ev post (by rw [hL]; rfl)
  · rintro ⟨h0, h1⟩ pre ev post hL
    cases pre with
    | nil =>
      simp only [List.nil_append, List.cons.injEq] at hL
      obtain ⟨rfl, rfl⟩ := hL
      exact h0
    | cons b pre =>
      simp only [List.cons_append, List.cons.injEq] at hL
      obtain ⟨rfl, hL⟩ := hL
      exact h1 pre ev post hL

theorem split_append_iff {α : Type} (l1 l2 : List α) (P : List α → α → List α → Prop) :
    (∀ pre ev post, l1 ++ l2 = pre ++ ev :: post → P pre ev post) ↔
      ((∀ pre ev post, l1 = pre ++ ev :: post → P pre ev (post ++ l2)) ∧
       (∀ pre ev post, l2 = pre ++ ev :: post → P (l1 ++ pre) ev post)) := by
  induction l1 generalizing P with
  | nil =>
    simp
  | cons a l1 ih =>
    rw [List.cons_append, split_cons_iff, split_cons_iff, ih]
    simp only [List.cons_append, and_assoc]

/-- One run of the callback of `CreateAccount`, event by event: a credential is handed to
the writer only right after a successful encryption of the clone, whose result it is; a
failed encryption is followed by the rollback alone and is the error of the run. -/
theorem runTx_create_encrypt (env : Env) (r : Repository) (a : Ptr)
    (cred : Option Argon2Credential) (t : State) (c : Option Ptr)
    (ha : a < t.heap.objs.length) :
    ∃ lr, (runTx r.writer (CreateAccount.txHandler env r a cred) t c).state.trace
        = t.trace ++ lr ∧ lr ≠ [] ∧
      ∀ pre ev post, lr = pre ++ ev :: post →
        (∀ x o, ev = Event.Create (.credential x) o →
          ∃ pre' cr, cred = some cr ∧ pre = pre' ++ [encryptEvent r cr] ∧
            env.encrypt (t.trace ++ pre') cr.clone r.wrapper = .ok x) ∧
        (∀ cl w e, ev = Event.encrypt cl w → env.encrypt (t.trace ++ pre) cl w = .error e →
          post = [.txRollback] ∧
          (runTx r.writer (CreateAccount.txHandler env r a cred) t c).err = some e) := by
  obtain ⟨-, -, hc⟩ := runTx_create_cases env r a cred t c _ rfl ha
  rcases hc with ⟨e, -, -, h⟩ | ⟨-, -, ⟨e, -, -, h⟩ | ⟨-, -, h⟩⟩ | ⟨cr, e, -, hcr, henc, herr, h⟩ |
    ⟨cr, x, -, hcr, henc, ⟨e, -, -, h⟩ | ⟨-, -, -, h⟩⟩
  · refine ⟨_, h, by simp, ?_⟩
    simp [split_cons_iff, createAccountEvent]
  · refine ⟨_, h, by simp, ?_⟩
    simp [split_cons_iff, createAccountEvent]
  · refine ⟨_, h, by simp, ?_⟩
    simp [split_cons_iff, createAccountEvent]
  · refine ⟨_, h, by simp, ?_⟩
    simp only [split_cons_iff, split_nil_iff, createAccountEvent, encryptEvent]
    simp only [createAccountEvent, encryptEvent] at henc
    simp [henc, herr]
    rintro cl w e1 rfl rfl h1
    rw [henc] at h1
    exact Except.error.inj h1
  · refine ⟨_, h, by simp, ?_⟩
    simp only [split_cons_iff, split_nil_iff, createAccountEvent, encryptEvent,
      createCredentialEvent]
    simp only [createAccountEvent, encryptEvent] at henc
    simp [henc, hcr]
    refine ⟨?_, [.txBegin, createAccountEvent r (t.heap.read a)], by simp, henc⟩
    rintro cl w e1 rfl rfl h1
    rw [henc] at h1
    cases h1
  · refine ⟨_, h, by simp, ?_⟩
    simp only [split_cons_iff, split_nil_iff, createAccountEvent, encryptEvent,
      createCredentialEvent]
    simp only [createAccountEvent, encryptEvent] at henc
    simp [henc, hcr]
    refine ⟨?_, [.txBegin, createAccountEvent r (t.heap.read a)], by simp, henc⟩
    rintro cl w e1 rfl rfl h1
    rw [henc] at h1
    cases h1

theorem wraps_self (e : GoError) : wraps e e = true := by
  cases e <;> simp [wraps]

theorem wraps_wrap (f : String) (as : List GoString) (e : GoError) :
    wraps (.wrap f as e) e = true := by
  simp [wraps, wraps_self]

theorem store_of_DoTx_err (env : Env) (r : Repository) (a : Ptr)
    (cred : Option Argon2Credential) (t : State) (e : GoError)
    (he : (DoTx r.writer env.StdRetryCnt (CreateAccount.txHandler env r a cred) t none).err
      = some e) :
    (CreateAccount.store env r a cred t).account = none ∧
    ∃ err, (CreateAccount.store env r a cred t).err = some err ∧
      ((IsUniqueError (some e) = false ∧ wraps err e = true ∧
          errorsIs err .ErrNotUnique = false) ∨
       (IsUniqueError (some e) = true ∧ errorsIs err .ErrNotUnique = true)) := by
  simp only [CreateAccount.store, he]
  by_cases hu : IsUniqueError (some e) = true
  · simp [hu, errorsIs]
  · have hu2 : IsUniqueError (some e) = false := by simpa using hu
    have hn : errorsIs e .ErrNotUnique = false := by
      simp only [IsUniqueError, Bool.or_eq_false_iff] at hu2
      exact hu2.1
    simp [hu2, wraps_wrap, errorsIs, hn]

/-- The transaction of `CreateAccount`, event by event. -/
theorem store_encrypt (env : Env) (r : Repository) (a : Ptr)
    (cred : Option Argon2Credential) (t : State) (ha : a < t.heap.objs.length) :
    ∃ l, (CreateAccount.store env r a cred t).state.trace = t.trace ++ l ∧
      ∀ pre ev post, l = pre ++ ev :: post →
        (∀ x o, ev = Event.Create (.credential x) o →
          ∃ pre' cr, cred = some cr ∧ pre = pre' ++ [encryptEvent r cr] ∧
            env.encrypt (t.trace ++ pre') cr.clone r.wrapper = .ok x) ∧
        (∀ cl w e, ev = Event.encrypt cl w → env.encrypt (t.trace ++ pre) cl w = .error e →
          (∃ post', post = .txRollback :: post') ∧
          (r.writer.transient e = false → post = [.txRollback]) ∧
          (post = [.txRollback] →
            (CreateAccount.store env r a cred t).account = none ∧
            ∃ err, (CreateAccount.store env r a cred t).err = some err ∧
              ((IsUniqueError (some e) = false ∧ wraps err e = true ∧
                  errorsIs err .ErrNotUnique = false) ∨
               (IsUniqueError (some e) = true ∧ errorsIs err .ErrNotUnique = true)))) := by
  obtain ⟨t0, c0, ⟨ext, hext⟩, ⟨l0, hl0, hinv⟩, heq⟩ := store_DoTx_inv env r a cred t ha
    (fun T => ∃ l, T = t.trace ++ l ∧ ∀ pre ev post, l = pre ++ ev :: post →
      (∀ x o, ev = Event.Create (.credential x) o →
        ∃ pre' cr, cred = some cr ∧ pre = pre' ++ [encryptEvent r cr] ∧
          env.encrypt (t.trace ++ pre') cr.clone r.wrapper = .ok x) ∧
      (∀ cl w e, ev = Event.encrypt cl w → env.encrypt (t.trace ++ pre) cl w = .error e →
        r.writer.transient e = true ∧ ∃ post', post = .txRollback :: post'))
    ⟨[], by simp, by simp⟩
    (by
      rintro t1 c e0 ⟨ext, hext⟩ ⟨l, hl, hinv⟩ he ht
      obtain ⟨lr, hlr, -, hrun⟩ := runTx_create_encrypt env r a cred t1 c
        (read_of_heap_ext t t1 ext a ha hext).2
      refine ⟨l ++ lr, by rw [hlr, hl, List.append_assoc], ?_⟩
      rw [split_append_iff]
      constructor
      · intro pre ev post hsplit
        obtain ⟨hA, hB⟩ := hinv pre ev post hsplit
        refine ⟨hA, ?_⟩
        intro cl w e hev henc
        obtain ⟨htr, post', hpost⟩ := hB cl w e hev henc
        exact ⟨htr, post' ++ lr, by rw [hpost]; rfl⟩
      · intro pre ev post hsplit
        obtain ⟨hA, hB⟩ := hrun pre ev post hsplit
        constructor
        · intro x o hev
          obtain ⟨pre', cr, hcr, hpre, henc⟩ := hA x o hev
          refine ⟨l ++ pre', cr, hcr, by rw [hpre, List.append_assoc], ?_⟩
          rw [← List.append_assoc, ← hl]; exact henc
        · intro cl w e hev henc
          rw [← List.append_assoc, ← hl] at henc
          obtain ⟨hpost, herr⟩ := hB cl w e hev henc
          rw [he] at herr
          cases herr
          exact ⟨ht, [], hpost⟩)
  obtain ⟨lr, hlr, hne, hrun⟩ := runTx_create_encrypt env r a cred t0 c0
    (read_of_heap_ext t t0 ext a ha hext).2
  refine ⟨l0 ++ lr, by rw [store_state_eq, heq, hlr, hl0, List.append_assoc], ?_⟩
  rw [split_append_iff]
  constructor
  · intro pre ev post hsplit
    obtain ⟨hA, hB⟩ := hinv pre ev post hsplit
    refine ⟨hA, ?_⟩
    intro cl w e hev henc
    obtain ⟨htr, post', hpost⟩ := hB cl w e hev henc
    refine ⟨⟨post' ++ lr, by rw [hpost]; rfl⟩, ?_, ?_⟩
    · intro hnt; rw [hnt] at htr; cases htr
    · intro hlast
      exfalso
      rw [hpost] at hlast
      simp only [List.cons_append, List.cons.injEq, true_and, List.append_eq_nil] at hlast
      exact hne hlast.2
  · intro pre ev post hsplit
    obtain ⟨hA, hB⟩ := hrun pre ev post hsplit
    constructor
    · intro x o hev
      obtain ⟨pre', cr, hcr, hpre, henc⟩ := hA x o hev
      refine ⟨l0 ++ pre', cr, hcr, by rw [hpre, List.append_assoc], ?_⟩
      rw [← List.append_assoc, ← hl0]; exact henc
    · intro cl w e hev henc
      rw [← List.append_assoc, ← hl0] at henc
      obtain ⟨hpost, herr⟩ := hB cl w e hev henc
      refine ⟨⟨[], hpost⟩, fun _ => hpost, fun _ => ?_⟩
      rw [← heq] at herr
      exact store_of_DoTx_err env r a cred t e herr

theorem DoTx_create_heap_ext (env : Env) (r : Repository) (a : Ptr)
    (cred : Option Argon2Credential) (t : State) (ha : a < t.heap.objs.length) :
    ∃ ext, (DoTx r.writer env.StdRetryCnt (CreateAccount.txHandler env r a cred) t none).state.heap.objs
      = t.heap.objs ++ ext := by
  obtain ⟨t0, c0, pre, -, -, ⟨ext, hext⟩, heq⟩ := store_last_run env r a cred t ha
  obtain ⟨-, hheap, -⟩ := runTx_create_cases env r a cred t0 c0 _ rfl
    (read_of_heap_ext t t0 ext a ha hext).2
  rw [heq, hheap]
  exact ⟨ext ++ [(r.writer.CreateAccountRow (t0.trace ++ [Event.txBegin]) (t0.heap.read a)
    (WithOplog r.wrapper ((t0.heap.read a).oplog OpType.OP_TYPE_CREATE))).2], by
    simp only [hext, List.append_assoc]⟩

theorem CreateAccount_eq_store (env : Env) (r : Repository) (s : State) (p : Ptr)
    (opts : options) (sa : StoreAccount) (cc : currentConfig) (id : GoString)
    (cred : Option Argon2Credential) (t : State)
    (hsa : (s.heap.read p).embedded = some sa) (ham : sa.AuthMethodId ≠ [])
    (hpid : sa.PublicId = []) (hun : validUserName sa.UserName = true)
    (hcc : r.currentConfig s.trace sa.AuthMethodId = .ok cc)
    (hlen : ¬ (sa.UserName.length : Int) < cc.MinUserNameLength)
    (hid : env.newAccountId (s.trace ++ [.currentConfig sa.AuthMethodId]) = .ok id)
    (hct : (opts.withPassword = false ∧ cred = none ∧ t = afterId s sa id) ∨
      (opts.withPassword = true ∧ ¬ (opts.password.length : Int) < cc.MinPasswordLength ∧
        ∃ c, env.newArgon2Credential (afterId s sa id).trace id opts.password cc.argon2
            = .ok c ∧ cred = some c ∧
          t = (afterId s sa id).emit (.newArgon2Credential id opts.password cc.argon2))) :
    CreateAccount env r s (some p) opts = CreateAccount.store env r s.heap.objs.length cred t ∧
    t.heap.read s.heap.objs.length = { embedded := some { sa with PublicId := id } } ∧
    s.heap.objs.length < t.heap.objs.length := by
  have hlen2 : ¬ cc.MinUserNameLength > (sa.UserName.length : Int) := hlen
  rw [CreateAccount_valid_eq env r s p opts sa cc id hsa ham hpid hun hcc hlen2 hid]
  rcases hct with ⟨hpw, rfl, rfl⟩ | ⟨hpw, hshort, c, hc, rfl, rfl⟩
  · refine ⟨by simp [hpw], read_afterId s sa id, by simp [afterId]⟩
  · have hshort2 : ¬ cc.MinPasswordLength > (opts.password.length : Int) := hshort
    refine ⟨by simp [hpw, hshort2, hc], read_afterId s sa id, by simp [afterId, State.emit]⟩

theorem CreateAccount_heap_ext (env : Env) (r : Repository) (s : State) (a : Option Ptr)
    (opts : options) :
    ∃ ext, (CreateAccount env r s a opts).state.heap.objs = s.heap.objs ++ ext := by
  have key : ∀ (cred : Option Argon2Credential) (t : State) (e1 : List Account),
      t.heap.objs = s.heap.objs ++ e1 → s.heap.objs.length < t.heap.objs.length →
      ∃ ext, (CreateAccount.store env r s.heap.objs.length cred t).state.heap.objs
        = s.heap.objs ++ ext := by
    intro cred t e1 he1 hlt
    obtain ⟨ext, hext⟩ := DoTx_create_heap_ext env r s.heap.objs.length cred t hlt
    exact ⟨e1 ++ ext, by rw [store_state_eq, hext, he1, List.append_assoc]⟩
  rcases CreateAccount_invalid_or_valid env r s a opts with
    ⟨hs, -, -⟩ | ⟨p, sa, rfl, hsa, ham, hpid, hun⟩
  · exact ⟨[], by rw [hs]; simp⟩
  cases hcc : r.currentConfig s.trace sa.AuthMethodId with
  | error e =>
    rw [CreateAccount_config_error_eq env r s p opts sa e hsa ham hpid hun hcc]
    exact ⟨[], by simp [State.emit]⟩
  | ok cc =>
    by_cases hlen : cc.MinUserNameLength > (sa.UserName.length : Int)
    · rw [CreateAccount_userName_short_eq env r s p opts sa cc hsa ham hpid hun hcc hlen]
      exact ⟨[], by simp [State.emit]⟩
    cases hid : env.newAccountId (s.trace ++ [.currentConfig sa.AuthMethodId]) with
    | error e =>
      rw [CreateAccount_id_error_eq env r s p opts sa cc e hsa ham hpid hun hcc hlen hid]
      exact ⟨[{ embedded := some sa }], rfl⟩
    | ok id =>
      rw [CreateAccount_valid_eq env r s p opts sa cc id hsa ham hpid hun hcc hlen hid]
      have hlt : s.heap.objs.length < (afterId s sa id).heap.objs.length := by
        simp [afterId]
      split_ifs with hpw hshort
      · exact ⟨[{ embedded := some { sa with PublicId := id } }], rfl⟩
      · split
        · exact ⟨[{ embedded := some { sa with PublicId := id } }], rfl⟩
        · exact key _ _ [{ embedded := some { sa with PublicId := id } }] rfl hlt
      · exact key _ _ [{ embedded := some { sa with PublicId := id } }] rfl hlt

theorem LookupAccount_eq (r : Repository) (s : State) (id : GoString) (hid : id ≠ []) :
    LookupAccount r s id =
      match (r.reader.LookupByPublicId s.trace (allocAccount.setPublicId id)).1 with
      | some err =>
        if errorsIs err .ErrRecordNotFound then
          { account := none
            err := none
            state :=
              { heap := { objs := s.heap.objs ++
                  [(r.reader.LookupByPublicId s.trace (allocAccount.setPublicId id)).2] }
                trace := s.trace ++ [.LookupByPublicId (allocAccount.setPublicId id)] } }
        else
          { account := none
            err := some (.wrap "lookup: password account: failed %w for %s" [id] err)
            state :=
              { heap := { objs := s.heap.objs ++
                  [(r.reader.LookupByPublicId s.trace (allocAccount.setPublicId id)).2] }
                trace := s.trace ++ [.LookupByPublicId (allocAccount.setPublicId id)] } }
      | none =>
        { account := some s.heap.objs.length
          err := none
          state :=
            { heap := { objs := s.heap.objs ++
                [(r.reader.LookupByPublicId s.trace (allocAccount.setPublicId id)).2] }
              trace := s.trace ++ [.LookupByPublicId (allocAccount.setPublicId id)] } } := by
  have h1 : (s.heap.alloc (allocAccount.setPublicId id)).1.read
      (s.heap.alloc (allocAccount.setPublicId id)).2 = allocAccount.setPublicId id :=
    read_alloc_new _ _
  have h2 : ∀ v, (s.heap.alloc (allocAccount.setPublicId id)).1.write
      (s.heap.alloc (allocAccount.setPublicId id)).2 v = { objs := s.heap.objs ++ [v] } := by
    intro v
    simp [Heap.alloc, Heap.write]
  simp only [LookupAccount, hid, if_false, h1, h2]
  rfl

theorem ListAccounts_eq (r : Repository) (s : State) (id : GoString) (opts : options)
    (hid : id ≠ []) (limit : Int)
    (hl : (if opts.withLimit ≠ 0 then opts.withLimit else r.defaultLimit) = limit) :
    ListAccounts r s id opts =
      match (r.reader.SearchWhere s.trace "auth_method_id = ?" [id] limit).1 with
      | some err =>
        { accounts := []
          err := some (.wrap "list: password account: %w" [] err)
          state := s.emit (searchEvent id limit) }
      | none =>
        { accounts := (r.reader.SearchWhere s.trace "auth_method_id = ?" [id] limit).2
          err := none
          state := s.emit (searchEvent id limit) } := by
  subst hl
  simp only [ListAccounts, hid, if_false]

theorem ListAccounts_accounts_sublist (r : Repository) (s : State) (id : GoString)
    (opts : options) (hid : id ≠ []) (limit : Int)
    (hl : (if opts.withLimit ≠ 0 then opts.withLimit else r.defaultLimit) = limit) :
    (ListAccounts r s id opts).state.trace = s.trace ++ [searchEvent id limit] ∧
    ((ListAccounts r s id opts).err = none →
      (ListAccounts r s id opts).accounts =
        (r.reader.SearchWhere s.trace "auth_method_id = ?" [id] limit).2) ∧
    (ListAccounts r s id opts).accounts.length ≤
      (r.reader.SearchWhere s.trace "auth_method_id = ?" [id] limit).2.length := by
  rw [ListAccounts_eq r s id opts hid limit hl]
  cases h : (r.reader.SearchWhere s.trace "auth_method_id = ?" [id] limit).1 with
  | none => simp [State.emit]
  | some e => simp [State.emit]

theorem DeleteAccount_eq (env : Env) (r : Repository) (s : State) (id : GoString)
    (hid : id ≠ []) :
    DeleteAccount env r s id =
      match (DoTx r.writer env.StdRetryCnt
          (DeleteAccount.txHandler r (allocAccount.setPublicId id)) s 0).err with
      | some err =>
        { rows := NoRowsAffected
          err := some (.wrap "delete: password account: %s: %w" [id] err)
          state := (DoTx r.writer env.StdRetryCnt
            (DeleteAccount.txHandler r (allocAccount.setPublicId id)) s 0).state }
      | none =>
        { rows := (DoTx r.writer env.StdRetryCnt
            (DeleteAccount.txHandler r (allocAccount.setPublicId id)) s 0).captured
          err := none
          state := (DoTx r.writer env.StdRetryCnt
            (DeleteAccount.txHandler r (allocAccount.setPublicId id)) s 0).state } := by
  simp only [DeleteAccount, hid, if_false]

theorem DeleteAccount_txHandler_eq (r : Repository) (s : State) (id : GoString) (c : Int) :
    DeleteAccount.txHandler r (allocAccount.setPublicId id) s c =
      if (r.writer.Delete s.trace (allocAccount.setPublicId id).clone
            (WithOplog r.wrapper ((allocAccount.setPublicId id).oplog .OP_TYPE_DELETE))).2 = none ∧
          (r.writer.Delete s.trace (allocAccount.setPublicId id).clone
            (WithOplog r.wrapper ((allocAccount.setPublicId id).oplog .OP_TYPE_DELETE))).1 > 1 then
        { err := some (.sentinel .ErrMultipleRecords)
          captured := (r.writer.Delete s.trace (allocAccount.setPublicId id).clone
            (WithOplog r.wrapper ((allocAccount.setPublicId id).oplog .OP_TYPE_DELETE))).1
          state := s.emit (deleteEvent r id) }
      else
        { err := (r.writer.Delete s.trace (allocAccount.setPublicId id).clone
            (WithOplog r.wrapper ((allocAccount.setPublicId id).oplog .OP_TYPE_DELETE))).2
          captured := (r.writer.Delete s.trace (allocAccount.setPublicId id).clone
            (WithOplog r.wrapper ((allocAccount.setPublicId id).oplog .OP_TYPE_DELETE))).1
          state := s.emit (deleteEvent r id) } := rfl

/-- The first run of the transaction of `DeleteAccount` when the writer deletes at most one
row without error and the commit succeeds. -/
theorem runTx_delete_ok (r : Repository) (s : State) (id : GoString) (c n : Int)
    (hn : n ≤ 1) (hdel : deleteAnswer r s id = (n, none))
    (hcommit : r.writer.commit (s.trace ++ [.txBegin, deleteEvent r id]) = none) :
    runTx r.writer (DeleteAccount.txHandler r (allocAccount.setPublicId id)) s c =
      { err := none
        captured := n
        state := { s with trace := s.trace ++ [.txBegin, deleteEvent r id, .txCommit] } } := by
  have hd : r.writer.Delete (s.emit .txBegin).trace (allocAccount.setPublicId id).clone
      (WithOplog r.wrapper ((allocAccount.setPublicId id).oplog .OP_TYPE_DELETE)) = (n, none) :=
    hdel
  have hc : r.writer.commit ((s.emit .txBegin).emit (deleteEvent r id)).trace = none := by
    simpa [State.emit] using hcommit
  have hn2 : ¬ n > 1 := by omega
  simp only [runTx, DeleteAccount_txHandler_eq, hd, hn2, and_false, if_false, hc]
  simp [State.emit]

/-- The first run of the transaction of `DeleteAccount` when the writer reports more than one
row without error: the callback returns `db.ErrMultipleRecords` and the run is rolled back. -/
theorem runTx_delete_multiple (r : Repository) (s : State) (id : GoString) (c n : Int)
    (hn : 1 < n) (hdel : deleteAnswer r s id = (n, none)) :
    runTx r.writer (DeleteAccount.txHandler r (allocAccount.setPublicId id)) s c =
      { err := some (.sentinel .ErrMultipleRecords)
        captured := n
        state := { s with trace := s.trace ++ [.txBegin, deleteEvent r id, .txRollback] } } := by
  have hd : r.writer.Delete (s.emit .txBegin).trace (allocAccount.setPublicId id).clone
      (WithOplog r.wrapper ((allocAccount.setPublicId id).oplog .OP_TYPE_DELETE)) = (n, none) :=
    hdel
  have hn2 : n > 1 := hn
  simp only [runTx, DeleteAccount_txHandler_eq, hd, hn2, and_self, if_true]
  simp [State.emit]

theorem DoTx_eq_runTx_of_not_transient {γ : Type} (w : Writer) (n : Nat)
    (handler : State → γ → TxResult γ) (s : State) (c : γ) (e : GoError)
    (h : (runTx w handler s c).err = some e) (ht : w.transient e = false) :
    DoTx w n handler s c = runTx w handler s c := by
  cases n with
  | zero => rfl
  | succ n => simp [DoTx, h, ht]

/-- The paths of `CreateAccount`: a return before the transaction, with a nil account and an
error, or the transaction on the working copy that carries the generated id. -/
theorem CreateAccount_paths (env : Env) (r : Repository) (s : State) (a : Option Ptr)
    (opts : options) :
    ((CreateAccount env r s a opts).account = none ∧
      (CreateAccount env r s a opts).err ≠ none) ∨
    ∃ p sa cc id cred t, a = some p ∧ (s.heap.read p).embedded = some sa ∧
      r.currentConfig s.trace sa.AuthMethodId = .ok cc ∧
      env.newAccountId (s.trace ++ [.currentConfig sa.AuthMethodId]) = .ok id ∧
      ((opts.withPassword = false ∧ cred = none ∧ t = afterId s sa id) ∨
        (opts.withPassword = true ∧ ¬ (opts.password.length : Int) < cc.MinPasswordLength ∧
          ∃ c, env.newArgon2Credential (afterId s sa id).trace id opts.password cc.argon2
              = .ok c ∧ cred = some c ∧
            t = (afterId s sa id).emit (.newArgon2Credential id opts.password cc.argon2))) ∧
      CreateAccount env r s a opts = CreateAccount.store env r s.heap.objs.length cred t ∧
      t.heap.read s.heap.objs.length = { embedded := some { sa with PublicId := id } } ∧
      s.heap.objs.length < t.heap.objs.length := by
  rcases CreateAccount_invalid_or_valid env r s a opts with
    ⟨-, hacc, e, he, -⟩ | ⟨p, sa, rfl, hsa, ham, hpid, hun⟩
  · left
    exact ⟨hacc, by rw [he]; simp⟩
  cases hcc : r.currentConfig s.trace sa.AuthMethodId with
  | error e =>
    left
    rw [CreateAccount_config_error_eq env r s p opts sa e hsa ham hpid hun hcc]
    simp
  | ok cc =>
    by_cases hlen : cc.MinUserNameLength > (sa.UserName.length : Int)
    · left
      rw [CreateAccount_userName_short_eq env r s p opts sa cc hsa ham hpid hun hcc hlen]
      simp
    cases hid : env.newAccountId (s.trace ++ [.currentConfig sa.AuthMethodId]) with
    | error e =>
      left
      rw [CreateAccount_id_error_eq env r s p opts sa cc e hsa ham hpid hun hcc hlen hid]
      simp
    | ok id =>
      have heq := CreateAccount_valid_eq env r s p opts sa cc id hsa ham hpid hun hcc hlen hid
      have hlen2 : ¬ (sa.UserName.length : Int) < cc.MinUserNameLength := hlen
      cases hpw : opts.withPassword with
      | false =>
        right
        have hct : (opts.withPassword = false ∧ (none : Option Argon2Credential) = none ∧
              afterId s sa id = afterId s sa id) ∨
            (opts.withPassword = true ∧
              ¬ (opts.password.length : Int) < cc.MinPasswordLength ∧
              ∃ c, env.newArgon2Credential (afterId s sa id).trace id opts.password cc.argon2
                  = .ok c ∧ (none : Option Argon2Credential) = some c ∧
                afterId s sa id =
                  (afterId s sa id).emit (.newArgon2Credential id opts.password cc.argon2)) :=
          Or.inl ⟨hpw, rfl, rfl⟩
        obtain ⟨h1, h2, h3⟩ := CreateAccount_eq_store env r s p opts sa cc id none
          (afterId s sa id) hsa ham hpid hun hcc hlen2 hid hct
        exact ⟨p, sa, cc, id, none, afterId s sa id, rfl, hsa, hcc, hid,
          Or.inl ⟨rfl, rfl, rfl⟩, h1, h2, h3⟩
      | true =>
        by_cases hshort : cc.MinPasswordLength > (opts.password.length : Int)
        · left
          rw [heq]
          simp only [hpw, if_true, hshort]
          simp
        cases hcred : env.newArgon2Credential (afterId s sa id).trace id opts.password
            cc.argon2 with
        | error e =>
          left
          rw [heq]
          simp only [hpw, if_true, hshort, if_false, hcred]
          simp
        | ok c =>
          right
          have hshort2 : ¬ (opts.password.length : Int) < cc.MinPasswordLength := hshort
          have hct : (opts.withPassword = false ∧ some c = none ∧
                (afterId s sa id).emit (.newArgon2Credential id opts.password cc.argon2) =
                  afterId s sa id) ∨
              (opts.withPassword = true ∧
                ¬ (opts.password.length : Int) < cc.MinPasswordLength ∧
                ∃ c0, env.newArgon2Credential (afterId s sa id).trace id opts.password
                    cc.argon2 = .ok c0 ∧ some c = some c0 ∧
                  (afterId s sa id).emit (.newArgon2Credential id opts.password cc.argon2) =
                    (afterId s sa id).emit
                      (.newArgon2Credential id opts.password cc.argon2)) :=
            Or.inr ⟨hpw, hshort2, c, hcred, rfl, rfl⟩
          obtain ⟨h1, h2, h3⟩ := CreateAccount_eq_store env r s p opts sa cc id (some c)
            ((afterId s sa id).emit (.newArgon2Credential id opts.password cc.argon2))
            hsa ham hpid hun hcc hlen2 hid hct
          exact ⟨p, sa, cc, id, some c, _, rfl, hsa, hcc, hid,
            Or.inr ⟨rfl, hshort2, c, hcred, rfl, rfl⟩, h1, h2, h3⟩

theorem store_account_none_of_err (env : Env) (r : Repository) (a : Ptr)
    (cred : Option Argon2Credential) (t : State)
    (h : (CreateAccount.store env r a cred t).err ≠ none) :
    (CreateAccount.store env r a cred t).account = none := by
  have h2 : (DoTx r.writer env.StdRetryCnt (CreateAccount.txHandler env r a cred) t none).err
      ≠ none := fun h3 => h ((store_err_eq_none_iff env r a cred t).2 h3)
  simp only [CreateAccount.store]
  split
  · split_ifs <;> rfl
  · rename_i he
    exact absurd he h2

/-- Two passwords share their key under any KDF whose keys are byte sequences of one fixed
length. -/
theorem kdf_fixed_length_collides (v : Verifier) (salt : List Nat)
    (params : Argon2Configuration) (L : Nat)
    (h : ∀ pw, (v.kdf pw salt params).length = L ∧ ∀ b ∈ v.kdf pw salt params, b < 256) :
    ∃ p1 p2, p1 ≠ p2 ∧ v.kdf p1 salt params = v.kdf p2 salt params := by
  have hfin : ∃ x y : GoString, x ≠ y ∧
      (fun (pw : GoString) (i : Fin L) =>
        (⟨(v.kdf pw salt params).getD i 0 % 256, Nat.mod_lt _ (by decide)⟩ : Fin 256)) x =
      (fun (pw : GoString) (i : Fin L) =>
        (⟨(v.kdf pw salt params).getD i 0 % 256, Nat.mod_lt _ (by decide)⟩ : Fin 256)) y :=
    Finite.exists_ne_map_eq_of_infinite _
  obtain ⟨x, y, hne, hxy⟩ := hfin
  refine ⟨x, y, hne, ?_⟩
  apply List.ext_getElem
  · rw [(h x).1, (h y).1]
  · intro i h1 h2
    have hi : i < L := by rw [← (h x).1]; exact h1
    have h3 := congrFun hxy ⟨i, hi⟩
    simp only [Fin.mk.injEq, List.getD_eq_getElem?_getD, List.getElem?_eq_getElem h1,
      List.getElem?_eq_getElem h2, Option.getD_some] at h3
    have hx := (h x).2 _ (List.getElem_mem h1)
    have hy := (h y).2 _ (List.getElem_mem h2)
    rw [Nat.mod_eq_of_lt hx, Nat.mod_eq_of_lt hy] at h3
    exact h3

/-! ## Claims C1 to C4: validation in CreateAccount -/

/-- Claim C1: `validUserName u` holds exactly when `u` is non-empty and each of its bytes is
a lowercase ASCII letter, a digit or `.`; it fails for the empty name and for a name with an
uppercase letter, a space, `@`, `-` or a non-ASCII byte; and `CreateAccount` fails with
`InvalidParameter` for every account whose `UserName` is not of that form. -/
theorem validUserName_iff_and_CreateAccount_rejects_invalid :
    (∀ u : GoString, validUserName u = true ↔
      (u ≠ [] ∧ ∀ b ∈ u, (0x61 ≤ b ∧ b ≤ 0x7A) ∨ (0x30 ≤ b ∧ b ≤ 0x39) ∨ b = 0x2E)) ∧
    (∀ u : GoString,
      (u = [] ∨ ∃ b ∈ u, (0x41 ≤ b ∧ b ≤ 0x5A) ∨ b = 0x20 ∨ b = 0x40 ∨ b = 0x2D ∨ 0x80 ≤ b) →
      validUserName u = false) ∧
    (∀ (env : Env) (r : Repository) (s : State) (p : Ptr) (opts : options) (sa : StoreAccount),
      (s.heap.read p).embedded = some sa →
      ¬ (sa.UserName ≠ [] ∧
          ∀ b ∈ sa.UserName, (0x61 ≤ b ∧ b ≤ 0x7A) ∨ (0x30 ≤ b ∧ b ≤ 0x39) ∨ b = 0x2E) →
      (CreateAccount env r s (some p) opts).account = none ∧
      ∃ e, (CreateAccount env r s (some p) opts).err = some e ∧
        errorsIs e .ErrInvalidParameter = true) := by
  have key : ∀ u : GoString, validUserName u = true ↔
      (u ≠ [] ∧ ∀ b ∈ u, (0x61 ≤ b ∧ b ≤ 0x7A) ∨ (0x30 ≤ b ∧ b ≤ 0x39) ∨ b = 0x2E) := by
    intro u
    rw [validUserName_eq_true_iff]
    simp only [inClass_iff]
  refine ⟨key, ?_, ?_⟩
  · intro u hu
    cases hv : validUserName u with
    | false => rfl
    | true =>
      exfalso
      obtain ⟨hne, hall⟩ := (key u).1 hv
      rcases hu with hu | ⟨b, hb, hbad⟩
      · exact hne hu
      · have := hall b hb
        omega
  · intro env r s p opts sa hsa hbad
    have hv : validUserName (s.heap.read p).UserName = false := by
      rw [read_UserName hsa]
      cases hv : validUserName sa.UserName with
      | false => rfl
      | true => exact absurd ((key _).1 hv) hbad
    simp only [CreateAccount, hsa, hv]
    split_ifs <;> simp_all [errorsIs]

/-- Witness for C1: `Alice` is not a valid user name, and an account named `a b` is
rejected with `InvalidParameter`. -/
theorem validUserName_iff_and_CreateAccount_rejects_invalid_witness :
    validUserName (bytes "Alice") = false ∧
    (CreateAccount exampleEnv exampleRepository (exampleState (exampleStoreAccount "a b"))
      (some 0) noOptions).account = none ∧
    ∃ e, (CreateAccount exampleEnv exampleRepository (exampleState (exampleStoreAccount "a b"))
      (some 0) noOptions).err = some e ∧ errorsIs e .ErrInvalidParameter = true :=
  ⟨validUserName_iff_and_CreateAccount_rejects_invalid.2.1 (bytes "Alice") (Or.inr ⟨0x41, by decide, by decide⟩),
   validUserName_iff_and_CreateAccount_rejects_invalid.2.2 exampleEnv exampleRepository (exampleState (exampleStoreAccount "a b")) 0 noOptions
    (exampleStoreAccount "a b") rfl (by decide)⟩

/-- Claim C2: for an account that passes the nil, `AuthMethodId`, `PublicId` and character
checks and whose configuration is read successfully, a `UserName` shorter than
`MinUserNameLength` makes `CreateAccount` fail with `TooShort`; and when no password option
is given and id generation and the store succeed, it fails with `TooShort` exactly in that
case, and otherwise succeeds, the row handed to the writer carrying the generated id. -/
theorem CreateAccount_tooShort_iff_userName_short (env : Env) (r : Repository) (s : State)
    (p : Ptr) (opts : options) (sa : StoreAccount) (cc : currentConfig)
    (hsa : (s.heap.read p).embedded = some sa) (ham : sa.AuthMethodId ≠ [])
    (hpid : sa.PublicId = []) (hun : validUserName sa.UserName = true)
    (hcc : r.currentConfig s.trace sa.AuthMethodId = .ok cc) :
    ((sa.UserName.length : Int) < cc.MinUserNameLength →
      (CreateAccount env r s (some p) opts).account = none ∧
      ∃ e, (CreateAccount env r s (some p) opts).err = some e ∧
        errorsIs e .ErrTooShort = true) ∧
    (∀ id : GoString, opts.withPassword = false →
      env.newAccountId (s.trace ++ [.currentConfig sa.AuthMethodId]) = .ok id →
      (∀ hist a o, (r.writer.CreateAccountRow hist a o).1 = none) →
      (∀ hist, r.writer.commit hist = none) →
      ((∃ e, (CreateAccount env r s (some p) opts).err = some e ∧
          errorsIs e .ErrTooShort = true) ↔
        (sa.UserName.length : Int) < cc.MinUserNameLength) ∧
      (¬ (sa.UserName.length : Int) < cc.MinUserNameLength →
        (CreateAccount env r s (some p) opts).err = none ∧
        (CreateAccount env r s (some p) opts).account = some (s.heap.objs.length + 1) ∧
        (CreateAccount env r s (some p) opts).state.trace =
          s.trace ++ [.currentConfig sa.AuthMethodId, .newAccountId, .txBegin,
            createAccountEvent r { embedded := some { sa with PublicId := id } }, .txCommit] ∧
        (CreateAccount env r s (some p) opts).state.heap.read (s.heap.objs.length + 1) =
          (r.writer.CreateAccountRow
            (s.trace ++ [.currentConfig sa.AuthMethodId, .newAccountId, .txBegin])
            { embedded := some { sa with PublicId := id } }
            (WithOplog r.wrapper (Account.oplog { embedded := some { sa with PublicId := id } }
              .OP_TYPE_CREATE))).2)) := by
  have hshort : (sa.UserName.length : Int) < cc.MinUserNameLength →
      (CreateAccount env r s (some p) opts).account = none ∧
      ∃ e, (CreateAccount env r s (some p) opts).err = some e ∧
        errorsIs e .ErrTooShort = true := by
    intro hlt
    have hr := read_eq_of_embedded hsa
    simp only [Heap.read, List.getD] at hr
    simp only [CreateAccount, Heap.read, List.getD, State.emit, hr, Account.AuthMethodId,
      Account.PublicId, Account.UserName, ham, hpid, hun, hcc]
    simp [hlt, errorsIs]
  refine ⟨hshort, ?_⟩
  intro id hopt hid hcreate hcommit
  have hok : ¬ (sa.UserName.length : Int) < cc.MinUserNameLength →
      (CreateAccount env r s (some p) opts).err = none ∧
      (CreateAccount env r s (some p) opts).account = some (s.heap.objs.length + 1) ∧
      (CreateAccount env r s (some p) opts).state.trace =
        s.trace ++ [.currentConfig sa.AuthMethodId, .newAccountId, .txBegin,
          createAccountEvent r { embedded := some { sa with PublicId := id } }, .txCommit] ∧
      (CreateAccount env r s (some p) opts).state.heap.read (s.heap.objs.length + 1) =
        (r.writer.CreateAccountRow
          (s.trace ++ [.currentConfig sa.AuthMethodId, .newAccountId, .txBegin])
          { embedded := some { sa with PublicId := id } }
          (WithOplog r.wrapper (Account.oplog { embedded := some { sa with PublicId := id } }
            .OP_TYPE_CREATE))).2 := by
    intro hge
    have hlen : ¬ cc.MinUserNameLength > (sa.UserName.length : Int) := hge
    rw [CreateAccount_valid_eq env r s p opts sa cc id hsa ham hpid hun hcc hlen hid]
    simp only [hopt, Bool.false_eq_true, if_false]
    obtain ⟨hcap, hheap, hcases⟩ := runTx_create_cases env r s.heap.objs.length none
      (afterId s sa id) none _ (read_afterId s sa id) (by simp [afterId])
    rcases hcases with ⟨e, h1, -⟩ | ⟨-, -, h2⟩ | ⟨cr, e, -, h, -⟩ | ⟨cr, x, -, h, -⟩
    · rw [hcreate] at h1; cases h1
    · rcases h2 with ⟨e, h3, -⟩ | ⟨-, herr, htr⟩
      · rw [hcommit] at h3; cases h3
      · rw [store_eq_of_runTx_ok _ _ _ _ _ herr]
        refine ⟨rfl, ?_, ?_, ?_⟩
        · simp only [hcap]; simp [afterId]
        · simp only [htr]; simp [afterId]
        · simp only [hheap]
          simp only [afterId, Heap.read, List.append_assoc, List.singleton_append,
            List.cons_append, List.nil_append]
          exact getD_append_two _ _ _ _
    · cases h
    · cases h
  refine ⟨⟨?_, fun h => (hshort h).2⟩, hok⟩
  rintro ⟨e, he, hts⟩
  by_contra hge
  rw [(hok hge).1] at he
  cases he

/-- Witness for C2: with `MinUserNameLength = 5`, `al` fails with `TooShort` and `alice.smith`
succeeds, the returned account carrying the generated id. -/
theorem CreateAccount_tooShort_iff_userName_short_witness :
    ((CreateAccount exampleEnv exampleRepository (exampleState (exampleStoreAccount "al"))
        (some 0) noOptions).account = none ∧
      ∃ e, (CreateAccount exampleEnv exampleRepository (exampleState (exampleStoreAccount "al"))
        (some 0) noOptions).err = some e ∧ errorsIs e .ErrTooShort = true) ∧
    ((CreateAccount exampleEnv exampleRepository
        (exampleState (exampleStoreAccount "alice.smith")) (some 0) noOptions).err = none ∧
      (CreateAccount exampleEnv exampleRepository
        (exampleState (exampleStoreAccount "alice.smith")) (some 0) noOptions).account
          = some 2 ∧
      (CreateAccount exampleEnv exampleRepository
        (exampleState (exampleStoreAccount "alice.smith")) (some 0) noOptions).state.trace =
        [.currentConfig (bytes "ampw_1"), .newAccountId, .txBegin,
          createAccountEvent exampleRepository
            { embedded := some { exampleStoreAccount "alice.smith" with
                PublicId := bytes "apw_1234567890" } },
          .txCommit] ∧
      ((CreateAccount exampleEnv exampleRepository
        (exampleState (exampleStoreAccount "alice.smith")) (some 0) noOptions).state.heap.read
          2).PublicId = bytes "apw_1234567890") :=
  ⟨(CreateAccount_tooShort_iff_userName_short exampleEnv exampleRepository
      (exampleState (exampleStoreAccount "al")) 0 noOptions (exampleStoreAccount "al")
      exampleConfig rfl (by decide) rfl (by decide) rfl).1 (by decide),
   ((CreateAccount_tooShort_iff_userName_short exampleEnv exampleRepository
      (exampleState (exampleStoreAccount "alice.smith")) 0 noOptions
      (exampleStoreAccount "alice.smith") exampleConfig rfl (by decide) rfl (by decide) rfl).2
      (bytes "apw_1234567890") rfl rfl (fun _ _ _ => rfl) (fun _ => rfl)).2 (by decide)
    |> fun h => ⟨h.1, h.2.1, h.2.2.1, congrArg Account.PublicId h.2.2.2⟩⟩

/-- Claim C3: for a non-nil account with a non-nil embedded `Account` whose `PublicId` is
non-empty or whose `AuthMethodId` is empty, `CreateAccount` returns a nil account and an
error classified as `InvalidParameter`, whatever the other fields and the options are. -/
theorem CreateAccount_rejects_publicId_or_missing_authMethodId (env : Env) (r : Repository)
    (s : State) (p : Ptr) (opts : options) (sa : StoreAccount)
    (hsa : (s.heap.read p).embedded = some sa)
    (h : sa.PublicId ≠ [] ∨ sa.AuthMethodId = []) :
    (CreateAccount env r s (some p) opts).account = none ∧
    ∃ e, (CreateAccount env r s (some p) opts).err = some e ∧
      errorsIs e .ErrInvalidParameter = true := by
  have hr := read_eq_of_embedded hsa
  simp only [Heap.read, List.getD] at hr
  simp only [CreateAccount, Heap.read, List.getD, hr, Account.AuthMethodId, Account.PublicId]
  rcases h with h | h
  · split_ifs <;> simp_all [errorsIs]
  · simp [h, errorsIs]

/-- Witness for C3: an account that already carries a `PublicId` is rejected. -/
theorem CreateAccount_rejects_publicId_or_missing_authMethodId_witness :
    (CreateAccount exampleEnv exampleRepository
      (exampleState { exampleStoreAccount "alice.smith" with PublicId := bytes "apw_1" })
      (some 0) (passwordOption "12345678")).account = none ∧
    ∃ e, (CreateAccount exampleEnv exampleRepository
      (exampleState { exampleStoreAccount "alice.smith" with PublicId := bytes "apw_1" })
      (some 0) (passwordOption "12345678")).err = some e ∧
      errorsIs e .ErrInvalidParameter = true :=
  CreateAccount_rejects_publicId_or_missing_authMethodId exampleEnv exampleRepository
    (exampleState { exampleStoreAccount "alice.smith" with PublicId := bytes "apw_1" }) 0
    (passwordOption "12345678")
    { exampleStoreAccount "alice.smith" with PublicId := bytes "apw_1" } rfl
    (Or.inl (by decide))

/-- Claim C4: in an otherwise valid call with the password option, a password shorter than
`MinPasswordLength` makes `CreateAccount` fail with `TooShort` and a nil account, after the
configuration read and the id generation only: no transaction is opened and nothing is
written. With a password of at least `MinPasswordLength` bytes that failure does not occur:
the call goes on to derive the credential. -/
theorem CreateAccount_password_tooShort (env : Env) (r : Repository) (s : State)
    (p : Ptr) (opts : options) (sa : StoreAccount) (cc : currentConfig) (id : GoString)
    (hsa : (s.heap.read p).embedded = some sa) (ham : sa.AuthMethodId ≠ [])
    (hpid : sa.PublicId = []) (hun : validUserName sa.UserName = true)
    (hcc : r.currentConfig s.trace sa.AuthMethodId = .ok cc)
    (hlen : ¬ (sa.UserName.length : Int) < cc.MinUserNameLength)
    (hid : env.newAccountId (s.trace ++ [.currentConfig sa.AuthMethodId]) = .ok id)
    (hpw : opts.withPassword = true) :
    ((opts.password.length : Int) < cc.MinPasswordLength →
      (CreateAccount env r s (some p) opts).account = none ∧
      (∃ e, (CreateAccount env r s (some p) opts).err = some e ∧
        errorsIs e .ErrTooShort = true) ∧
      (CreateAccount env r s (some p) opts).state.trace =
        s.trace ++ [.currentConfig sa.AuthMethodId, .newAccountId]) ∧
    (¬ (opts.password.length : Int) < cc.MinPasswordLength →
      (CreateAccount env r s (some p) opts).err ≠
        some (.wrap "create: password account: password: %w" [] (.sentinel .ErrTooShort)) ∧
      ∃ rest, (CreateAccount env r s (some p) opts).state.trace =
        s.trace ++ [.currentConfig sa.AuthMethodId, .newAccountId,
          .newArgon2Credential id opts.password cc.argon2] ++ rest) := by
  have hlen2 : ¬ cc.MinUserNameLength > (sa.UserName.length : Int) := hlen
  rw [CreateAccount_valid_eq env r s p opts sa cc id hsa ham hpid hun hcc hlen2 hid]
  simp only [hpw, if_true]
  constructor
  · intro hshort
    have : cc.MinPasswordLength > (opts.password.length : Int) := hshort
    simp [this, errorsIs, afterId]
  · intro hge
    have : ¬ cc.MinPasswordLength > (opts.password.length : Int) := hge
    simp only [this, if_false]
    cases hc : env.newArgon2Credential (afterId s sa id).trace id opts.password cc.argon2 with
    | error e =>
      refine ⟨by simp, [], ?_⟩
      simp [afterId, State.emit]
    | ok cred =>
      simp only []
      refine ⟨store_err_ne_password_tooShort _ _ _ _ _, ?_⟩
      obtain ⟨l, hl⟩ := store_trace env r s.heap.objs.length (some cred)
        ((afterId s sa id).emit (.newArgon2Credential id opts.password cc.argon2))
        (by simp [afterId, State.emit])
      exact ⟨l, by rw [hl]; simp [afterId, State.emit]⟩

/-- Witness for C4: with `MinPasswordLength = 8`, the password `short` fails with `TooShort`
before any transaction, and `long.enough` goes on to the credential derivation. -/
theorem CreateAccount_password_tooShort_witness :
    ((CreateAccount exampleEnv exampleRepository
        (exampleState (exampleStoreAccount "alice.smith")) (some 0)
        (passwordOption "short")).account = none ∧
      (∃ e, (CreateAccount exampleEnv exampleRepository
        (exampleState (exampleStoreAccount "alice.smith")) (some 0)
        (passwordOption "short")).err = some e ∧ errorsIs e .ErrTooShort = true) ∧
      (CreateAccount exampleEnv exampleRepository
        (exampleState (exampleStoreAccount "alice.smith")) (some 0)
        (passwordOption "short")).state.trace =
          [.currentConfig (bytes "ampw_1"), .newAccountId]) ∧
    ((CreateAccount exampleEnv exampleRepository
        (exampleState (exampleStoreAccount "alice.smith")) (some 0)
        (passwordOption "long.enough")).err ≠
        some (.wrap "create: password account: password: %w" [] (.sentinel .ErrTooShort)) ∧
      ∃ rest, (CreateAccount exampleEnv exampleRepository
        (exampleState (exampleStoreAccount "alice.smith")) (some 0)
        (passwordOption "long.enough")).state.trace =
          [] ++ [.currentConfig (bytes "ampw_1"), .newAccountId,
            .newArgon2Credential (bytes "apw_1234567890") (bytes "long.enough")
              exampleConfig.argon2] ++ rest) :=
  ⟨(CreateAccount_password_tooShort exampleEnv exampleRepository
      (exampleState (exampleStoreAccount "alice.smith")) 0 (passwordOption "short")
      (exampleStoreAccount "alice.smith") exampleConfig (bytes "apw_1234567890")
      rfl (by decide) rfl (by decide) rfl (by decide) rfl rfl).1 (by decide),
   (CreateAccount_password_tooShort exampleEnv exampleRepository
      (exampleState (exampleStoreAccount "alice.smith")) 0 (passwordOption "long.enough")
      (exampleStoreAccount "alice.smith") exampleConfig (bytes "apw_1234567890")
      rfl (by decide) rfl (by decide) rfl (by decide) rfl rfl).2 (by decide)⟩

/-! ## Claim C5: where the configuration is read -/

/-- Claim C5, as amended: the configuration is read by `r.currentConfig` before the
transaction is opened. In every execution of `CreateAccount` the configuration read, when
there is one, is the first collaborator call and the only configuration read: every
transaction begin, insert and encryption comes after it, and none is made inside the
`DoTx` callback. -/
theorem CreateAccount_config_read_precedes_tx (env : Env) (r : Repository) (s : State)
    (a : Option Ptr) (opts : options) :
    ∃ emitted, (CreateAccount env r s a opts).state.trace = s.trace ++ emitted ∧
      (emitted = [] ∨
        ∃ am rest, emitted = Event.currentConfig am :: rest ∧
          ∀ x, Event.currentConfig x ∉ rest) := by
  rcases CreateAccount_invalid_or_valid env r s a opts with
    ⟨hs, -, -⟩ | ⟨p, sa, rfl, hsa, ham, hpid, hun⟩
  · exact ⟨[], by rw [hs]; simp, Or.inl rfl⟩
  cases hcc : r.currentConfig s.trace sa.AuthMethodId with
  | error e =>
    rw [CreateAccount_config_error_eq env r s p opts sa e hsa ham hpid hun hcc]
    exact ⟨[.currentConfig sa.AuthMethodId], rfl, Or.inr ⟨_, [], rfl, by simp⟩⟩
  | ok cc =>
    by_cases hlen : cc.MinUserNameLength > (sa.UserName.length : Int)
    · rw [CreateAccount_userName_short_eq env r s p opts sa cc hsa ham hpid hun hcc hlen]
      exact ⟨[.currentConfig sa.AuthMethodId], rfl, Or.inr ⟨_, [], rfl, by simp⟩⟩
    cases hid : env.newAccountId (s.trace ++ [.currentConfig sa.AuthMethodId]) with
    | error e =>
      rw [CreateAccount_id_error_eq env r s p opts sa cc e hsa ham hpid hun hcc hlen hid]
      exact ⟨[.currentConfig sa.AuthMethodId, .newAccountId], rfl,
        Or.inr ⟨_, [.newAccountId], rfl, by simp⟩⟩
    | ok id =>
      rw [CreateAccount_valid_eq env r s p opts sa cc id hsa ham hpid hun hcc hlen hid]
      have hlt : s.heap.objs.length < (afterId s sa id).heap.objs.length := by
        simp [afterId]
      split_ifs with hpw hshort
      · exact ⟨[.currentConfig sa.AuthMethodId, .newAccountId], rfl,
          Or.inr ⟨_, [.newAccountId], rfl, by simp⟩⟩
      · split
        · exact ⟨[.currentConfig sa.AuthMethodId, .newAccountId,
            .newArgon2Credential id opts.password cc.argon2], by simp [afterId, State.emit],
            Or.inr ⟨_, [.newAccountId, .newArgon2Credential id opts.password cc.argon2],
              rfl, by simp⟩⟩
        · rename_i cred hcred
          obtain ⟨l, hl, hn⟩ := store_trace_noConfig env r s.heap.objs.length (some cred)
            ((afterId s sa id).emit (.newArgon2Credential id opts.password cc.argon2)) hlt
          refine ⟨[.currentConfig sa.AuthMethodId, .newAccountId,
            .newArgon2Credential id opts.password cc.argon2] ++ l, ?_,
            Or.inr ⟨_, [.newAccountId, .newArgon2Credential id opts.password cc.argon2] ++ l,
              rfl, ?_⟩⟩
          · rw [hl]; simp [afterId, State.emit]
          · intro x hx
            simp only [List.cons_append, List.nil_append, List.mem_cons, reduceCtorEq,
              false_or] at hx
            exact hn x hx
      · obtain ⟨l, hl, hn⟩ := store_trace_noConfig env r s.heap.objs.length none
          (afterId s sa id) hlt
        refine ⟨[.currentConfig sa.AuthMethodId, .newAccountId] ++ l, ?_,
          Or.inr ⟨_, [.newAccountId] ++ l, rfl, ?_⟩⟩
        · rw [hl]; simp [afterId]
        · intro x hx
          simp only [List.cons_append, List.nil_append, List.mem_cons, reduceCtorEq,
            false_or] at hx
          exact hn x hx

/-- Claim C5 fails as stated: in the successful call on `alice.smith` the configuration is
read first, with no transaction open; the transaction begins two calls later. -/
theorem CreateAccount_config_read_outside_tx :
    (CreateAccount exampleEnv exampleRepository (exampleState (exampleStoreAccount "alice.smith"))
        (some 0) noOptions).err = none ∧
    (CreateAccount exampleEnv exampleRepository (exampleState (exampleStoreAccount "alice.smith"))
        (some 0) noOptions).state.trace =
      [.currentConfig (bytes "ampw_1"), .newAccountId, .txBegin,
        createAccountEvent exampleRepository
          { embedded := some { exampleStoreAccount "alice.smith" with
              PublicId := bytes "apw_1234567890" } },
        .txCommit] ∧
    ¬ (∀ pre x post,
        (CreateAccount exampleEnv exampleRepository
          (exampleState (exampleStoreAccount "alice.smith")) (some 0) noOptions).state.trace
            = pre ++ Event.currentConfig x :: post →
        Event.txBegin ∈ pre) := by
  have htr : (CreateAccount exampleEnv exampleRepository
      (exampleState (exampleStoreAccount "alice.smith")) (some 0) noOptions).state.trace =
      [.currentConfig (bytes "ampw_1"), .newAccountId, .txBegin,
        createAccountEvent exampleRepository
          { embedded := some { exampleStoreAccount "alice.smith" with
              PublicId := bytes "apw_1234567890" } },
        .txCommit] := by decide
  refine ⟨by decide, htr, ?_⟩
  intro h
  have := h [] _ _ (by rw [htr]; rfl)
  simp at this

/-! ## Claim C6: the writes of a successful call -/

/-- Claim C6: a successful `CreateAccount` with the password option ends with one run of the
`DoTx` callback that is committed and issues exactly two `Create` writes, first the account
row and then the credential, each with its own oplog option of type `OP_TYPE_CREATE`; the
credential is the encrypted clone of the one derived for the generated account id. Without
the password option the committed run issues exactly one `Create`, of the account, and no
credential is written. The runs before it (`pre`) were all rolled back. -/
theorem CreateAccount_success_writes (env : Env) (r : Repository) (s : State)
    (a : Option Ptr) (opts : options)
    (herr : (CreateAccount env r s a opts).err = none) :
    ∃ p sa cc id pre, a = some p ∧ (s.heap.read p).embedded = some sa ∧
      r.currentConfig s.trace sa.AuthMethodId = .ok cc ∧
      env.newAccountId (s.trace ++ [.currentConfig sa.AuthMethodId]) = .ok id ∧
      Event.txCommit ∉ pre ∧
      (opts.withPassword = false →
        (CreateAccount env r s a opts).state.trace =
          s.trace ++ [.currentConfig sa.AuthMethodId, .newAccountId] ++ pre ++
            [.txBegin,
             .Create (.account { embedded := some { sa with PublicId := id } })
               (WithOplog r.wrapper
                 (Account.oplog { embedded := some { sa with PublicId := id } }
                   .OP_TYPE_CREATE)),
             .txCommit]) ∧
      (opts.withPassword = true →
        ∃ cred x,
          env.newArgon2Credential
            (s.trace ++ [.currentConfig sa.AuthMethodId, .newAccountId])
            id opts.password cc.argon2 = .ok cred ∧
          env.encrypt
            (s.trace ++ [.currentConfig sa.AuthMethodId, .newAccountId,
                .newArgon2Credential id opts.password cc.argon2] ++ pre ++
              [.txBegin,
               .Create (.account { embedded := some { sa with PublicId := id } })
                 (WithOplog r.wrapper
                   (Account.oplog { embedded := some { sa with PublicId := id } }
                     .OP_TYPE_CREATE))])
            cred.clone r.wrapper = .ok x ∧
          (CreateAccount env r s a opts).state.trace =
            s.trace ++ [.currentConfig sa.AuthMethodId, .newAccountId,
                .newArgon2Credential id opts.password cc.argon2] ++ pre ++
              [.txBegin,
               .Create (.account { embedded := some { sa with PublicId := id } })
                 (WithOplog r.wrapper
                   (Account.oplog { embedded := some { sa with PublicId := id } }
                     .OP_TYPE_CREATE)),
               .encrypt cred.clone r.wrapper,
               .Create (.credential x) (WithOplog r.wrapper (cred.oplog .OP_TYPE_CREATE)),
               .txCommit] ∧
          ((∀ hist i pw conf c, env.newArgon2Credential hist i pw conf = .ok c →
              c.PasswordAccountId = i) →
            (∀ hist c w y, env.encrypt hist c w = .ok y →
              y.PasswordAccountId = c.PasswordAccountId) →
            x.PasswordAccountId = id)) := by
  rcases CreateAccount_invalid_or_valid env r s a opts with
    ⟨-, -, e, he, -⟩ | ⟨p, sa, rfl, hsa, ham, hpid, hun⟩
  · rw [herr] at he; cases he
  cases hcc : r.currentConfig s.trace sa.AuthMethodId with
  | error e =>
    rw [CreateAccount_config_error_eq env r s p opts sa e hsa ham hpid hun hcc] at herr
    cases herr
  | ok cc =>
    by_cases hlen : cc.MinUserNameLength > (sa.UserName.length : Int)
    · rw [CreateAccount_userName_short_eq env r s p opts sa cc hsa ham hpid hun hcc hlen] at herr
      cases herr
    cases hid : env.newAccountId (s.trace ++ [.currentConfig sa.AuthMethodId]) with
    | error e =>
      rw [CreateAccount_id_error_eq env r s p opts sa cc e hsa ham hpid hun hcc hlen hid] at herr
      cases herr
    | ok id =>
      have heq := CreateAccount_valid_eq env r s p opts sa cc id hsa ham hpid hun hcc hlen hid
      rw [heq] at herr ⊢
      have hlt : s.heap.objs.length < (afterId s sa id).heap.objs.length := by
        simp [afterId]
      cases hpw : opts.withPassword with
      | false =>
        simp only [hpw, Bool.false_eq_true, if_false] at herr ⊢
        obtain ⟨pre, q, hn, -, -, -, -, hc⟩ := store_success_cases env r s.heap.objs.length none
          (afterId s sa id) _ (read_afterId s sa id) hlt herr
        refine ⟨p, sa, cc, id, pre, rfl, hsa, hcc, hid, hn, ?_, by simp⟩
        intro _
        rcases hc with ⟨-, h⟩ | ⟨cr, x, h, -⟩
        · rw [h]; simp [afterId, createAccountEvent]
        · cases h
      | true =>
        simp only [hpw, if_true] at herr ⊢
        by_cases hshort : cc.MinPasswordLength > (opts.password.length : Int)
        · simp only [hshort, if_true] at herr
          cases herr
        simp only [hshort, if_false] at herr ⊢
        cases hcred : env.newArgon2Credential (afterId s sa id).trace id opts.password
            cc.argon2 with
        | error e =>
          simp only [hcred] at herr
          cases herr
        | ok cred =>
          simp only [hcred] at herr ⊢
          obtain ⟨pre, q, hn, -, -, -, -, hc⟩ := store_success_cases env r s.heap.objs.length
            (some cred) ((afterId s sa id).emit (.newArgon2Credential id opts.password cc.argon2))
            _ (read_afterId s sa id) hlt herr
          refine ⟨p, sa, cc, id, pre, rfl, hsa, hcc, hid, hn, by simp, ?_⟩
          intro _
          rcases hc with ⟨h, -⟩ | ⟨cr, x, hcr, henc, h⟩
          · cases h
          · cases hcr
            refine ⟨cred, x, hcred, ?_, ?_, ?_⟩
            · simpa [afterId, State.emit, createAccountEvent] using henc
            · rw [h]; simp [afterId, State.emit, createAccountEvent, encryptEvent,
                createCredentialEvent]
            · intro h1 h2
              rw [h2 _ _ _ _ henc]
              exact h1 _ _ _ _ _ hcred

/-- Witness for C6: the successful call with a password ends with the committed run of two
writes, the credential keyed by the generated id. -/
theorem CreateAccount_success_writes_witness :
    (CreateAccount exampleEnv exampleRepository (exampleState (exampleStoreAccount "alice.smith"))
        (some 0) (passwordOption "long.enough")).err = none ∧
    ∃ pre cred x, Event.txCommit ∉ pre ∧
      (CreateAccount exampleEnv exampleRepository
        (exampleState (exampleStoreAccount "alice.smith")) (some 0)
        (passwordOption "long.enough")).state.trace =
        [.currentConfig (bytes "ampw_1"), .newAccountId,
          .newArgon2Credential (bytes "apw_1234567890") (bytes "long.enough")
            exampleConfig.argon2] ++ pre ++
        [.txBegin,
         createAccountEvent exampleRepository
           { embedded := some { exampleStoreAccount "alice.smith" with
               PublicId := bytes "apw_1234567890" } },
         encryptEvent exampleRepository cred,
         createCredentialEvent exampleRepository cred x,
         .txCommit] ∧
      x.PasswordAccountId = bytes "apw_1234567890" := by
  refine ⟨by decide, ?_⟩
  obtain ⟨p, sa, cc, id, pre, hp, hsa, hcc, hid, hn, -, h⟩ :=
    CreateAccount_success_writes exampleEnv exampleRepository
      (exampleState (exampleStoreAccount "alice.smith")) (some 0)
      (passwordOption "long.enough") (by decide)
  obtain ⟨cred, x, -, -, htr, hkey⟩ := h rfl
  cases hp
  have hsa2 : sa = exampleStoreAccount "alice.smith" := by
    have : (some (exampleStoreAccount "alice.smith") : Option StoreAccount) = some sa := hsa
    exact (Option.some.inj this).symm
  subst hsa2
  have hcc2 : cc = exampleConfig := by
    have : (Except.ok exampleConfig : Except GoError currentConfig) = .ok cc := hcc
    exact (Except.ok.inj this).symm
  subst hcc2
  have hid2 : id = bytes "apw_1234567890" := by
    have : (Except.ok (bytes "apw_1234567890") : Except GoError GoString) = .ok id := hid
    exact (Except.ok.inj this).symm
  subst hid2
  refine ⟨pre, cred, x, hn, htr, hkey ?_ ?_⟩
  · intro hist i pw conf c hc
    simp only [exampleEnv, Except.ok.injEq] at hc
    rw [← hc]
  · intro hist c w y hy
    simp only [exampleEnv, Except.ok.injEq] at hy
    rw [← hy]

/-! ## Claim C7: the credential is encrypted before it is written -/

/-- Claim C7: in every execution of `CreateAccount` a credential is handed to the writer's
`Create` only right after `encrypt` has returned successfully on a clone of the derived
credential, and what is handed over is the result of that encryption. When `encrypt` fails,
the next event is the rollback of that run: the credential is not written and the account
insert of the run is rolled back; the run is the last one unless the executor takes the
error for a transient conflict, and then `CreateAccount` returns a nil account and an error
made from that error. -/
theorem CreateAccount_credential_written_encrypted (env : Env) (r : Repository) (s : State)
    (a : Option Ptr) (opts : options) :
    ∀ pre ev post, (CreateAccount env r s a opts).state.trace = s.trace ++ (pre ++ ev :: post) →
      (∀ x o, ev = Event.Create (.credential x) o →
        ∃ pre' cred, pre = pre' ++ [.encrypt cred.clone r.wrapper] ∧
          env.encrypt (s.trace ++ pre') cred.clone r.wrapper = .ok x ∧
          ∃ hist id conf, env.newArgon2Credential hist id opts.password conf = .ok cred) ∧
      (∀ cl w e, ev = Event.encrypt cl w → env.encrypt (s.trace ++ pre) cl w = .error e →
        (∃ post', post = .txRollback :: post') ∧
        (r.writer.transient e = false → post = [.txRollback]) ∧
        (post = [.txRollback] →
          (CreateAccount env r s a opts).account = none ∧
          ∃ err, (CreateAccount env r s a opts).err = some err ∧
            ((IsUniqueError (some e) = false ∧ wraps err e = true ∧
                errorsIs err .ErrNotUnique = false) ∨
             (IsUniqueError (some e) = true ∧ errorsIs err .ErrNotUnique = true)))) := by
  -- the events before the transaction are neither writes nor encryptions
  have key : ∀ (pfx : List Event) (cred : Option Argon2Credential) (t : State) (q : Ptr),
      t.trace = s.trace ++ pfx →
      (∀ ev ∈ pfx, (∀ x o, ev ≠ Event.Create (.credential x) o) ∧
        ∀ cl w, ev ≠ Event.encrypt cl w) →
      q < t.heap.objs.length →
      (∀ cr, cred = some cr →
        ∃ hist id conf, env.newArgon2Credential hist id opts.password conf = .ok cr) →
      ∀ pre ev post,
        (CreateAccount.store env r q cred t).state.trace = s.trace ++ (pre ++ ev :: post) →
        (∀ x o, ev = Event.Create (.credential x) o →
          ∃ pre' cred, pre = pre' ++ [.encrypt cred.clone r.wrapper] ∧
            env.encrypt (s.trace ++ pre') cred.clone r.wrapper = .ok x ∧
            ∃ hist id conf, env.newArgon2Credential hist id opts.password conf = .ok cred) ∧
        (∀ cl w e, ev = Event.encrypt cl w → env.encrypt (s.trace ++ pre) cl w = .error e →
          (∃ post', post = .txRollback :: post') ∧
          (r.writer.transient e = false → post = [.txRollback]) ∧
          (post = [.txRollback] →
            (CreateAccount.store env r q cred t).account = none ∧
            ∃ err, (CreateAccount.store env r q cred t).err = some err ∧
              ((IsUniqueError (some e) = false ∧ wraps err e = true ∧
                  errorsIs err .ErrNotUnique = false) ∨
               (IsUniqueError (some e) = true ∧ errorsIs err .ErrNotUnique = true)))) := by
    intro pfx cred t q ht hpfx hq hcred pre ev post htr
    obtain ⟨l, hl, hprop⟩ := store_encrypt env r q cred t hq
    rw [hl, ht, List.append_assoc] at htr
    have hsplit := List.append_cancel_left htr
    clear htr
    revert pre ev post
    rw [split_append_iff]
    constructor
    · intro pre ev post hp
      have hmem : ev ∈ pfx := by rw [hp]; simp
      obtain ⟨h1, h2⟩ := hpfx ev hmem
      exact ⟨fun x o h => absurd h (h1 x o), fun cl w e h => absurd h (h2 cl w)⟩
    · intro pre ev post hp
      obtain ⟨hA, hB⟩ := hprop pre ev post hp
      constructor
      · intro x o hev
        obtain ⟨pre', cr, hcr, hpre, henc⟩ := hA x o hev
        refine ⟨pfx ++ pre', cr, by rw [hpre, List.append_assoc], ?_, hcred cr hcr⟩
        rw [← List.append_assoc, ← ht]; exact henc
      · intro cl w e hev henc
        rw [← List.append_assoc, ← ht] at henc
        exact hB cl w e hev henc
  -- an execution that stops before the transaction
  have early : ∀ (l : List Event),
      (∀ ev ∈ l, (∀ x o, ev ≠ Event.Create (.credential x) o) ∧
        ∀ cl w, ev ≠ Event.encrypt cl w) →
      (CreateAccount env r s a opts).state.trace = s.trace ++ l →
      ∀ pre ev post,
        (CreateAccount env r s a opts).state.trace = s.trace ++ (pre ++ ev :: post) →
        (∀ x o, ev = Event.Create (.credential x) o →
          ∃ pre' cred, pre = pre' ++ [.encrypt cred.clone r.wrapper] ∧
            env.encrypt (s.trace ++ pre') cred.clone r.wrapper = .ok x ∧
            ∃ hist id conf, env.newArgon2Credential hist id opts.password conf = .ok cred) ∧
        (∀ cl w e, ev = Event.encrypt cl w → env.encrypt (s.trace ++ pre) cl w = .error e →
          (∃ post', post = .txRollback :: post') ∧
          (r.writer.transient e = false → post = [.txRollback]) ∧
          (post = [.txRollback] →
            (CreateAccount env r s a opts).account = none ∧
            ∃ err, (CreateAccount env r s a opts).err = some err ∧
              ((IsUniqueError (some e) = false ∧ wraps err e = true ∧
                  errorsIs err .ErrNotUnique = false) ∨
               (IsUniqueError (some e) = true ∧ errorsIs err .ErrNotUnique = true)))) := by
    intro l hl htr pre ev post hsplit
    rw [htr] at hsplit
    have hmem : ev ∈ l := by rw [List.append_cancel_left hsplit]; simp
    obtain ⟨h1, h2⟩ := hl ev hmem
    exact ⟨fun x o h => absurd h (h1 x o), fun cl w e h => absurd h (h2 cl w)⟩
  rcases CreateAccount_invalid_or_valid env r s a opts with
    ⟨hs, -, -⟩ | ⟨p, sa, rfl, hsa, ham, hpid, hun⟩
  · exact early [] (by simp) (by rw [hs]; simp)
  cases hcc : r.currentConfig s.trace sa.AuthMethodId with
  | error e =>
    refine early [.currentConfig sa.AuthMethodId] (by simp) ?_
    rw [CreateAccount_config_error_eq env r s p opts sa e hsa ham hpid hun hcc]; rfl
  | ok cc =>
    by_cases hlen : cc.MinUserNameLength > (sa.UserName.length : Int)
    · refine early [.currentConfig sa.AuthMethodId] (by simp) ?_
      rw [CreateAccount_userName_short_eq env r s p opts sa cc hsa ham hpid hun hcc hlen]; rfl
    cases hid : env.newAccountId (s.trace ++ [.currentConfig sa.AuthMethodId]) with
    | error e =>
      refine early [.currentConfig sa.AuthMethodId, .newAccountId] (by simp) ?_
      rw [CreateAccount_id_error_eq env r s p opts sa cc e hsa ham hpid hun hcc hlen hid]
    | ok id =>
      have heq := CreateAccount_valid_eq env r s p opts sa cc id hsa ham hpid hun hcc hlen hid
      have hlt : s.heap.objs.length < (afterId s sa id).heap.objs.length := by
        simp [afterId]
      cases hpw : opts.withPassword with
      | false =>
        simp only [hpw, Bool.false_eq_true, if_false] at heq
        rw [heq]
        exact key [.currentConfig sa.AuthMethodId, .newAccountId] none (afterId s sa id)
          s.heap.objs.length rfl (by simp) hlt (by simp)
      | true =>
        simp only [hpw, if_true] at heq
        by_cases hshort : cc.MinPasswordLength > (opts.password.length : Int)
        · refine early [.currentConfig sa.AuthMethodId, .newAccountId] (by simp) ?_
          rw [heq]; simp [hshort, afterId]
        simp only [hshort, if_false] at heq
        cases hcred : env.newArgon2Credential (afterId s sa id).trace id opts.password
            cc.argon2 with
        | error e =>
          simp only [hcred] at heq
          refine early [.currentConfig sa.AuthMethodId, .newAccountId,
            .newArgon2Credential id opts.password cc.argon2] (by simp) ?_
          rw [heq]; simp [afterId, State.emit]
        | ok cred =>
          simp only [hcred] at heq
          rw [heq]
          exact key [.currentConfig sa.AuthMethodId, .newAccountId,
              .newArgon2Credential id opts.password cc.argon2] (some cred)
            ((afterId s sa id).emit (.newArgon2Credential id opts.password cc.argon2))
            s.heap.objs.length (by simp [afterId, State.emit]) (by simp) hlt
            (by
              intro cr hcr
              cases hcr
              exact ⟨_, _, _, hcred⟩)

/-- Witness for C7: in the successful call the credential written is the encrypted clone; with
a failing encryption the call returns a nil account and an error wrapping the failure. -/
theorem CreateAccount_credential_written_encrypted_witness :
    (∃ pre' cred,
      [.currentConfig (bytes "ampw_1"), .newAccountId,
        .newArgon2Credential (bytes "apw_1234567890") (bytes "long.enough") exampleConfig.argon2,
        .txBegin, createAccountEvent exampleRepository exampleWorkingCopy,
        encryptEvent exampleRepository (exampleCredential "long.enough")]
        = pre' ++ [Event.encrypt cred.clone exampleRepository.wrapper] ∧
      exampleEnv.encrypt ((exampleState (exampleStoreAccount "alice.smith")).trace ++ pre')
        cred.clone exampleRepository.wrapper = .ok (exampleEncrypted "long.enough") ∧
      ∃ hist id conf, exampleEnv.newArgon2Credential hist id
        (passwordOption "long.enough").password conf = .ok cred) ∧
    ((CreateAccount failingEncryptEnv exampleRepository
        (exampleState (exampleStoreAccount "alice.smith")) (some 0)
        (passwordOption "long.enough")).account = none ∧
      ∃ err, (CreateAccount failingEncryptEnv exampleRepository
        (exampleState (exampleStoreAccount "alice.smith")) (some 0)
        (passwordOption "long.enough")).err = some err ∧
        ((IsUniqueError (some (GoError.leaf "kms unavailable")) = false ∧
            wraps err (.leaf "kms unavailable") = true ∧
            errorsIs err .ErrNotUnique = false) ∨
         (IsUniqueError (some (GoError.leaf "kms unavailable")) = true ∧
            errorsIs err .ErrNotUnique = true))) :=
  ⟨(CreateAccount_credential_written_encrypted exampleEnv exampleRepository
      (exampleState (exampleStoreAccount "alice.smith")) (some 0) (passwordOption "long.enough")
      [.currentConfig (bytes "ampw_1"), .newAccountId,
        .newArgon2Credential (bytes "apw_1234567890") (bytes "long.enough") exampleConfig.argon2,
        .txBegin, createAccountEvent exampleRepository exampleWorkingCopy,
        encryptEvent exampleRepository (exampleCredential "long.enough")]
      (createCredentialEvent exampleRepository (exampleCredential "long.enough")
        (exampleEncrypted "long.enough"))
      [.txCommit] (by decide)).1 _ _ rfl,
   ((CreateAccount_credential_written_encrypted failingEncryptEnv exampleRepository
      (exampleState (exampleStoreAccount "alice.smith")) (some 0) (passwordOption "long.enough")
      [.currentConfig (bytes "ampw_1"), .newAccountId,
        .newArgon2Credential (bytes "apw_1234567890") (bytes "long.enough") exampleConfig.argon2,
        .txBegin, createAccountEvent exampleRepository exampleWorkingCopy]
      (encryptEvent exampleRepository (exampleCredential "long.enough"))
      [.txRollback] (by decide)).2 _ _ (.leaf "kms unavailable") rfl rfl).2.2 rfl⟩

/-! ## Claim C8: the error of a failed transaction -/

/-- Claim C8: when the transaction of `CreateAccount` fails with a storage uniqueness
violation, the call returns a nil account and an error that wraps `db.ErrNotUnique`, so it
is classified as `NotUnique`; when the transaction fails with any other error, the call
returns a nil account and an error that wraps that error and is not classified as
`NotUnique`. Here `cred` and `t` are the credential and the state with which the call
reaches the transaction, without or with the password option. -/
theorem CreateAccount_tx_error_classified (env : Env) (r : Repository) (s : State) (p : Ptr)
    (opts : options) (sa : StoreAccount) (cc : currentConfig) (id : GoString)
    (cred : Option Argon2Credential) (t : State) (e : GoError)
    (hsa : (s.heap.read p).embedded = some sa) (ham : sa.AuthMethodId ≠ [])
    (hpid : sa.PublicId = []) (hun : validUserName sa.UserName = true)
    (hcc : r.currentConfig s.trace sa.AuthMethodId = .ok cc)
    (hlen : ¬ (sa.UserName.length : Int) < cc.MinUserNameLength)
    (hid : env.newAccountId (s.trace ++ [.currentConfig sa.AuthMethodId]) = .ok id)
    (hct : (opts.withPassword = false ∧ cred = none ∧ t = afterId s sa id) ∨
      (opts.withPassword = true ∧ ¬ (opts.password.length : Int) < cc.MinPasswordLength ∧
        ∃ c, env.newArgon2Credential (afterId s sa id).trace id opts.password cc.argon2
            = .ok c ∧ cred = some c ∧
          t = (afterId s sa id).emit (.newArgon2Credential id opts.password cc.argon2)))
    (htx : (DoTx r.writer env.StdRetryCnt
      (CreateAccount.txHandler env r s.heap.objs.length cred) t none).err = some e) :
    (CreateAccount env r s (some p) opts).account = none ∧
    (IsUniqueError (some e) = true →
      (CreateAccount env r s (some p) opts).err = some (.wrap
        "create: password account: in auth method: %s: name %s already exists: %w"
        [sa.AuthMethodId, sa.Name] (.sentinel .ErrNotUnique)) ∧
      ∃ err, (CreateAccount env r s (some p) opts).err = some err ∧
        errorsIs err .ErrNotUnique = true) ∧
    (IsUniqueError (some e) = false →
      (CreateAccount env r s (some p) opts).err = some (.wrap
        "create: password account: in auth method: %s: %w" [sa.AuthMethodId] e) ∧
      ∃ err, (CreateAccount env r s (some p) opts).err = some err ∧
        wraps err e = true ∧ errorsIs err .ErrNotUnique = false) := by
  obtain ⟨heq, hread, hlt⟩ := CreateAccount_eq_store env r s p opts sa cc id cred t hsa ham hpid
    hun hcc hlen hid hct
  obtain ⟨ext, hext⟩ := DoTx_create_heap_ext env r s.heap.objs.length cred t hlt
  have hfin : (DoTx r.writer env.StdRetryCnt
      (CreateAccount.txHandler env r s.heap.objs.length cred) t none).state.heap.read
        s.heap.objs.length = { embedded := some { sa with PublicId := id } } := by
    rw [← hread]
    simp [Heap.read, List.getD, hext, List.getElem?_append_left hlt]
  rw [heq]
  simp only [CreateAccount.store, htx, hfin, Account.AuthMethodId, Account.Name]
  refine ⟨by split_ifs <;> rfl, ?_, ?_⟩
  · intro hu
    simp [hu, errorsIs]
  · intro hu
    have hn : errorsIs e .ErrNotUnique = false := by
      simp only [IsUniqueError, Bool.or_eq_false_iff] at hu
      exact hu.1
    simp [hu, errorsIs, hn, wraps_wrap]

/-- Witness for C8: a `unique_violation` of the driver comes back as `NotUnique`, a connection
error comes back wrapped. -/
theorem CreateAccount_tx_error_classified_witness :
    (CreateAccount exampleEnv (failingInsertRepository (.pq "unique_violation"))
        (exampleState (exampleStoreAccount "alice.smith")) (some 0) noOptions).err =
      some (.wrap "create: password account: in auth method: %s: name %s already exists: %w"
        [bytes "ampw_1", []] (.sentinel .ErrNotUnique)) ∧
    (CreateAccount exampleEnv (failingInsertRepository (.leaf "connection reset"))
        (exampleState (exampleStoreAccount "alice.smith")) (some 0)
        (passwordOption "long.enough")).err =
      some (.wrap "create: password account: in auth method: %s: %w"
        [bytes "ampw_1"] (.leaf "connection reset")) :=
  ⟨((CreateAccount_tx_error_classified exampleEnv
        (failingInsertRepository (.pq "unique_violation"))
        (exampleState (exampleStoreAccount "alice.smith")) 0 noOptions
        (exampleStoreAccount "alice.smith") exampleConfig (bytes "apw_1234567890") none
        (afterId (exampleState (exampleStoreAccount "alice.smith"))
          (exampleStoreAccount "alice.smith") (bytes "apw_1234567890"))
        (.pq "unique_violation") rfl (by decide) rfl (by decide) rfl (by decide) rfl
        (Or.inl ⟨rfl, rfl, rfl⟩) (by decide)).2.1 (by decide)).1,
   ((CreateAccount_tx_error_classified exampleEnv
        (failingInsertRepository (.leaf "connection reset"))
        (exampleState (exampleStoreAccount "alice.smith")) 0 (passwordOption "long.enough")
        (exampleStoreAccount "alice.smith") exampleConfig (bytes "apw_1234567890")
        (some (exampleCredential "long.enough"))
        ((afterId (exampleState (exampleStoreAccount "alice.smith"))
          (exampleStoreAccount "alice.smith") (bytes "apw_1234567890")).emit
          (.newArgon2Credential (bytes "apw_1234567890") (bytes "long.enough")
            exampleConfig.argon2))
        (.leaf "connection reset") rfl (by decide) rfl (by decide) rfl (by decide) rfl
        (Or.inr ⟨rfl, by decide, exampleCredential "long.enough", rfl, rfl, rfl⟩)
        (by decide)).2.2 (by decide)).1⟩

/-! ## Claim C9: the caller account is not modified -/

/-- Claim C9: `CreateAccount` changes no account object that existed before the call, so the
caller's account has the same field values after every call, successful or not, and still
an empty `PublicId` after a successful one. On success the account returned is a separate,
newly allocated object; the row handed to the writer in the committed run carries the
freshly generated `PublicId` and the input's `AuthMethodId`, `UserName`, `Name` and
`Description`, and the returned object is that row as the writer left it. -/
theorem CreateAccount_caller_account_unchanged (env : Env) (r : Repository) (s : State)
    (a : Option Ptr) (opts : options) :
    (∀ q, q < s.heap.objs.length →
      (CreateAccount env r s a opts).state.heap.read q = s.heap.read q) ∧
    ((CreateAccount env r s a opts).err = none →
      ∃ p sa id q pre post, a = some p ∧ (s.heap.read p).embedded = some sa ∧
        sa.PublicId = [] ∧
        ((CreateAccount env r s a opts).state.heap.read p).PublicId = [] ∧
        env.newAccountId (s.trace ++ [.currentConfig sa.AuthMethodId]) = .ok id ∧
        (CreateAccount env r s a opts).account = some q ∧ p < q ∧ s.heap.objs.length ≤ q ∧
        (CreateAccount env r s a opts).state.trace =
          pre ++
            Event.Create (.account { embedded := some { sa with PublicId := id } })
              (WithOplog r.wrapper
                (Account.oplog { embedded := some { sa with PublicId := id } }
                  .OP_TYPE_CREATE)) :: post ∧
        Event.txBegin ∉ post ∧ Event.txRollback ∉ post ∧
        (CreateAccount env r s a opts).state.heap.read q =
          (r.writer.CreateAccountRow pre { embedded := some { sa with PublicId := id } }
            (WithOplog r.wrapper
              (Account.oplog { embedded := some { sa with PublicId := id } }
                .OP_TYPE_CREATE))).2 ∧
        Account.PublicId { embedded := some { sa with PublicId := id } } = id ∧
        Account.AuthMethodId { embedded := some { sa with PublicId := id } }
          = sa.AuthMethodId ∧
        Account.UserName { embedded := some { sa with PublicId := id } } = sa.UserName ∧
        Account.Name { embedded := some { sa with PublicId := id } } = sa.Name ∧
        Account.Description { embedded := some { sa with PublicId := id } }
          = sa.Description) := by
  have hframe : ∀ q, q < s.heap.objs.length →
      (CreateAccount env r s a opts).state.heap.read q = s.heap.read q := by
    intro q hq
    obtain ⟨ext, hext⟩ := CreateAccount_heap_ext env r s a opts
    simp [Heap.read, List.getD, hext, List.getElem?_append_left hq]
  refine ⟨hframe, ?_⟩
  intro herr
  rcases CreateAccount_invalid_or_valid env r s a opts with
    ⟨-, -, e, he, -⟩ | ⟨p, sa, rfl, hsa, ham, hpid, hun⟩
  · rw [herr] at he; cases he
  have hp := lt_length_of_embedded hsa
  have hpub : ((CreateAccount env r s (some p) opts).state.heap.read p).PublicId = [] := by
    rw [hframe p hp, read_eq_of_embedded hsa]
    simpa [Account.PublicId] using hpid
  cases hcc : r.currentConfig s.trace sa.AuthMethodId with
  | error e =>
    rw [CreateAccount_config_error_eq env r s p opts sa e hsa ham hpid hun hcc] at herr
    cases herr
  | ok cc =>
    by_cases hlen : cc.MinUserNameLength > (sa.UserName.length : Int)
    · rw [CreateAccount_userName_short_eq env r s p opts sa cc hsa ham hpid hun hcc hlen] at herr
      cases herr
    cases hid : env.newAccountId (s.trace ++ [.currentConfig sa.AuthMethodId]) with
    | error e =>
      rw [CreateAccount_id_error_eq env r s p opts sa cc e hsa ham hpid hun hcc hlen hid] at herr
      cases herr
    | ok id =>
      have heq := CreateAccount_valid_eq env r s p opts sa cc id hsa ham hpid hun hcc hlen hid
      have hlt : s.heap.objs.length < (afterId s sa id).heap.objs.length := by
        simp [afterId]
      -- the call reaches the transaction with some credential and state
      have hstore : ∃ cred t, CreateAccount env r s (some p) opts
            = CreateAccount.store env r s.heap.objs.length cred t ∧
          t.heap.read s.heap.objs.length = { embedded := some { sa with PublicId := id } } ∧
          s.heap.objs.length < t.heap.objs.length := by
        rw [heq] at herr ⊢
        cases hpw : opts.withPassword with
        | false =>
          exact ⟨none, afterId s sa id, by simp, read_afterId s sa id, hlt⟩
        | true =>
          simp only [hpw, if_true] at herr ⊢
          by_cases hshort : cc.MinPasswordLength > (opts.password.length : Int)
          · simp only [hshort, if_true] at herr
            cases herr
          simp only [hshort, if_false] at herr ⊢
          cases hcred : env.newArgon2Credential (afterId s sa id).trace id opts.password
              cc.argon2 with
          | error e =>
            simp only [hcred] at herr
            cases herr
          | ok cred =>
            exact ⟨some cred, _, rfl, read_afterId s sa id, by simp [afterId, State.emit]⟩
      obtain ⟨cred, t, hst, hread, hlt2⟩ := hstore
      rw [hst] at herr ⊢
      obtain ⟨pre, q, -, hacc, hq, -, hheap, hc⟩ := store_success_cases env r
        s.heap.objs.length cred t _ hread hlt2 herr
      have hq2 : s.heap.objs.length ≤ q := Nat.le_trans (Nat.le_of_lt hlt2) hq
      rw [← hst]
      rw [← hst] at hacc hheap hc
      rcases hc with ⟨-, htr⟩ | ⟨cr, x, -, -, htr⟩
      · refine ⟨p, sa, id, q, t.trace ++ pre ++ [.txBegin], [.txCommit], rfl, hsa, hpid, hpub,
          hid, hacc, Nat.lt_of_lt_of_le hp hq2, hq2, ?_, by simp, by simp, hheap,
          rfl, rfl, rfl, rfl, rfl⟩
        rw [htr]; simp [createAccountEvent]
      · refine ⟨p, sa, id, q, t.trace ++ pre ++ [.txBegin],
          [encryptEvent r cr, createCredentialEvent r cr x, .txCommit], rfl, hsa, hpid, hpub,
          hid, hacc, Nat.lt_of_lt_of_le hp hq2, hq2, ?_, by simp, by simp, hheap,
          rfl, rfl, rfl, rfl, rfl⟩
        rw [htr]; simp [createAccountEvent]

/-- Witness for C9: after the successful call the caller account at address 0 is as before and
the returned account is another object. -/
theorem CreateAccount_caller_account_unchanged_witness :
    (CreateAccount exampleEnv exampleRepository (exampleState (exampleStoreAccount "alice.smith"))
        (some 0) (passwordOption "long.enough")).state.heap.read 0 =
      { embedded := some (exampleStoreAccount "alice.smith") } ∧
    ∃ q, (CreateAccount exampleEnv exampleRepository
        (exampleState (exampleStoreAccount "alice.smith")) (some 0)
        (passwordOption "long.enough")).account = some q ∧ 0 < q ∧
      ((CreateAccount exampleEnv exampleRepository
        (exampleState (exampleStoreAccount "alice.smith")) (some 0)
        (passwordOption "long.enough")).state.heap.read 0).PublicId = [] := by
  have h := CreateAccount_caller_account_unchanged exampleEnv exampleRepository
    (exampleState (exampleStoreAccount "alice.smith")) (some 0) (passwordOption "long.enough")
  refine ⟨h.1 0 (by decide), ?_⟩
  obtain ⟨p, sa, id, q, pre, post, hp, -, -, hpub, -, hacc, hlt, -⟩ := h.2 (by decide)
  cases hp
  exact ⟨q, hacc, hlt, hpub⟩

/-! ## Claim C10: LookupAccount -/

/-- Claim C10: for a non-empty id, `LookupAccount` returns a nil account and a nil error when
the reader's error is, or wraps, `db.ErrRecordNotFound`; a nil account and an error wrapping
the reader's error for every other reader failure; and a non-nil account with a nil error
exactly when the reader succeeds, the account being the struct the reader filled. -/
theorem LookupAccount_results (r : Repository) (s : State) (id : GoString) (hid : id ≠ []) :
    (∀ e, (r.reader.LookupByPublicId s.trace (allocAccount.setPublicId id)).1 = some e →
      errorsIs e .ErrRecordNotFound = true →
      (LookupAccount r s id).account = none ∧ (LookupAccount r s id).err = none) ∧
    (∀ e, (r.reader.LookupByPublicId s.trace (allocAccount.setPublicId id)).1 = some e →
      errorsIs e .ErrRecordNotFound = false →
      (LookupAccount r s id).account = none ∧
      (LookupAccount r s id).err =
        some (.wrap "lookup: password account: failed %w for %s" [id] e) ∧
      ∃ err, (LookupAccount r s id).err = some err ∧ wraps err e = true) ∧
    ((r.reader.LookupByPublicId s.trace (allocAccount.setPublicId id)).1 = none →
      ∃ q, (LookupAccount r s id).account = some q ∧ (LookupAccount r s id).err = none ∧
        (LookupAccount r s id).state.heap.read q =
          (r.reader.LookupByPublicId s.trace (allocAccount.setPublicId id)).2) ∧
    (((LookupAccount r s id).account ≠ none ∧ (LookupAccount r s id).err = none) ↔
      (r.reader.LookupByPublicId s.trace (allocAccount.setPublicId id)).1 = none) ∧
    (allocAccount.setPublicId id).PublicId = id := by
  rw [LookupAccount_eq r s id hid]
  refine ⟨?_, ?_, ?_, ?_, rfl⟩
  · intro e he hnf
    simp [he, hnf]
  · intro e he hnf
    simp [he, hnf, wraps_wrap]
  · intro he
    simp only [he]
    refine ⟨s.heap.objs.length, ?_⟩
    simp [Heap.read, List.getD]
  · cases he : (r.reader.LookupByPublicId s.trace (allocAccount.setPublicId id)).1 with
    | none => simp
    | some e =>
      simp only []
      split_ifs <;> simp

/-- Witness for C10: a wrapped record-not-found gives nil and nil, a connection error comes
back wrapped, a successful read gives an account. -/
theorem LookupAccount_results_witness :
    ((LookupAccount
        (failingLookupRepository (.wrap "db.lookup: %w" [] (.sentinel .ErrRecordNotFound)))
        (exampleState (exampleStoreAccount "alice.smith")) (bytes "apw_404")).account = none ∧
      (LookupAccount
        (failingLookupRepository (.wrap "db.lookup: %w" [] (.sentinel .ErrRecordNotFound)))
        (exampleState (exampleStoreAccount "alice.smith")) (bytes "apw_404")).err = none) ∧
    ((LookupAccount (failingLookupRepository (.leaf "connection reset"))
        (exampleState (exampleStoreAccount "alice.smith")) (bytes "apw_404")).account = none ∧
      (LookupAccount (failingLookupRepository (.leaf "connection reset"))
        (exampleState (exampleStoreAccount "alice.smith")) (bytes "apw_404")).err =
        some (.wrap "lookup: password account: failed %w for %s" [bytes "apw_404"]
          (.leaf "connection reset"))) ∧
    (∃ q, (LookupAccount exampleRepository (exampleState (exampleStoreAccount "alice.smith"))
        (bytes "apw_1")).account = some q ∧
      (LookupAccount exampleRepository (exampleState (exampleStoreAccount "alice.smith"))
        (bytes "apw_1")).err = none) :=
  ⟨(LookupAccount_results
      (failingLookupRepository (.wrap "db.lookup: %w" [] (.sentinel .ErrRecordNotFound)))
      (exampleState (exampleStoreAccount "alice.smith")) (bytes "apw_404") (by decide)).1
      _ rfl (by decide),
   ((LookupAccount_results (failingLookupRepository (.leaf "connection reset"))
      (exampleState (exampleStoreAccount "alice.smith")) (bytes "apw_404") (by decide)).2.1
      _ rfl (by decide)) |> fun h => ⟨h.1, h.2.1⟩,
   ((LookupAccount_results exampleRepository
      (exampleState (exampleStoreAccount "alice.smith")) (bytes "apw_1") (by decide)).2.2.1 rfl)
      |> fun ⟨q, h1, h2, _⟩ => ⟨q, h1, h2⟩⟩

/-! ## Claims C11 and C12: the limit of ListAccounts -/

/-- Claim C11: for a non-empty auth method id, `ListAccounts` without a limit option (the
option value 0) hands the repository's default limit to the reader, and with a positive limit
option `n` it hands exactly `n`; the accounts of a successful call are the ones the
reader returned for that limit, so a reader that returns at most `n` rows for the limit `n`
caps the result at `n`. -/
theorem ListAccounts_limit_passed (r : Repository) (s : State) (id : GoString) (opts : options)
    (hid : id ≠ []) :
    (opts.withLimit = 0 →
      (ListAccounts r s id opts).state.trace = s.trace ++ [searchEvent id r.defaultLimit] ∧
      ((ListAccounts r s id opts).err = none →
        (ListAccounts r s id opts).accounts =
          (r.reader.SearchWhere s.trace "auth_method_id = ?" [id] r.defaultLimit).2)) ∧
    (∀ n : Int, 0 < n → opts.withLimit = n →
      (ListAccounts r s id opts).state.trace = s.trace ++ [searchEvent id n] ∧
      ((ListAccounts r s id opts).err = none →
        (ListAccounts r s id opts).accounts =
          (r.reader.SearchWhere s.trace "auth_method_id = ?" [id] n).2) ∧
      (((r.reader.SearchWhere s.trace "auth_method_id = ?" [id] n).2.length : Int) ≤ n →
        ((ListAccounts r s id opts).accounts.length : Int) ≤ n)) := by
  refine ⟨?_, ?_⟩
  · intro h0
    have h := ListAccounts_accounts_sublist r s id opts hid r.defaultLimit (by simp [h0])
    exact ⟨h.1, h.2.1⟩
  · intro n hn hopt
    have h := ListAccounts_accounts_sublist r s id opts hid n
      (by rw [hopt]; simp; intro h0; omega)
    refine ⟨h.1, h.2.1, ?_⟩
    intro hcap
    have h3 := h.2.2
    omega

/-- Witness for C11: over a reader holding three accounts and a default limit of 2, no option
gives two accounts and `WithLimit(1)` gives one. -/
theorem ListAccounts_limit_passed_witness :
    (ListAccounts (limitedRepository 2) (exampleState (exampleStoreAccount "alice.smith"))
        (bytes "ampw_1") noOptions).state.trace = [searchEvent (bytes "ampw_1") 2] ∧
    (ListAccounts (limitedRepository 2) (exampleState (exampleStoreAccount "alice.smith"))
        (bytes "ampw_1") (limitOption 1)).state.trace = [searchEvent (bytes "ampw_1") 1] ∧
    ((ListAccounts (limitedRepository 2) (exampleState (exampleStoreAccount "alice.smith"))
        (bytes "ampw_1") (limitOption 1)).accounts.length : Int) ≤ 1 :=
  ⟨((ListAccounts_limit_passed (limitedRepository 2)
      (exampleState (exampleStoreAccount "alice.smith")) (bytes "ampw_1") noOptions
      (by decide)).1 rfl).1,
   ((ListAccounts_limit_passed (limitedRepository 2)
      (exampleState (exampleStoreAccount "alice.smith")) (bytes "ampw_1") (limitOption 1)
      (by decide)).2 1 (by decide) rfl).1,
   ((ListAccounts_limit_passed (limitedRepository 2)
      (exampleState (exampleStoreAccount "alice.smith")) (bytes "ampw_1") (limitOption 1)
      (by decide)).2 1 (by decide) rfl).2.2 (by decide)⟩

/-- Counterexample for C12: with the limit option 0 and a default limit of 2, `ListAccounts`
hands the default limit 2 to a reader that holds three accounts, and returns two of them,
while the limit option -1 returns all three. -/
theorem ListAccounts_zero_limit_applies_default :
    (ListAccounts (limitedRepository 2) (exampleState (exampleStoreAccount "alice.smith"))
        (bytes "ampw_1") (limitOption 0)).state.trace = [searchEvent (bytes "ampw_1") 2] ∧
    (ListAccounts (limitedRepository 2) (exampleState (exampleStoreAccount "alice.smith"))
        (bytes "ampw_1") (limitOption 0)).accounts = threeAccounts.take 2 ∧
    (ListAccounts (limitedRepository 2) (exampleState (exampleStoreAccount "alice.smith"))
        (bytes "ampw_1") (limitOption 0)).err = none ∧
    (ListAccounts (limitedRepository 2) (exampleState (exampleStoreAccount "alice.smith"))
        (bytes "ampw_1") (limitOption (-1))).accounts = threeAccounts := by
  decide

/-- Claim C12, amended: for a non-empty auth method id and every negative limit option,
`ListAccounts` hands that negative value to the reader, whatever the repository's default
limit is, and a successful call returns every account the reader returns for it; the limit
option 0 is no override, and the repository's default limit is handed to the reader. -/
theorem ListAccounts_nonpositive_limit (r : Repository) (s : State) (id : GoString)
    (opts : options) (hid : id ≠ []) :
    (opts.withLimit < 0 →
      (ListAccounts r s id opts).state.trace = s.trace ++ [searchEvent id opts.withLimit] ∧
      ((ListAccounts r s id opts).err = none →
        (ListAccounts r s id opts).accounts =
          (r.reader.SearchWhere s.trace "auth_method_id = ?" [id] opts.withLimit).2) ∧
      ((r.reader.SearchWhere s.trace "auth_method_id = ?" [id] opts.withLimit).1 = none →
        (ListAccounts r s id opts).err = none)) ∧
    (opts.withLimit = 0 →
      (ListAccounts r s id opts).state.trace = s.trace ++ [searchEvent id r.defaultLimit] ∧
      ((ListAccounts r s id opts).err = none →
        (ListAccounts r s id opts).accounts =
          (r.reader.SearchWhere s.trace "auth_method_id = ?" [id] r.defaultLimit).2)) := by
  refine ⟨?_, ?_⟩
  · intro hneg
    have h := ListAccounts_accounts_sublist r s id opts hid opts.withLimit
      (by simp; intro h0; omega)
    refine ⟨h.1, h.2.1, ?_⟩
    intro hok
    rw [ListAccounts_eq r s id opts hid opts.withLimit (by simp; intro h0; omega)]
    simp [hok]
  · intro h0
    have h := ListAccounts_accounts_sublist r s id opts hid r.defaultLimit (by simp [h0])
    exact ⟨h.1, h.2.1⟩

/-- Witness for C12, amended: over a reader holding three accounts and a default limit of 2,
`WithLimit(-1)` hands -1 to the reader. -/
theorem ListAccounts_nonpositive_limit_witness :
    (ListAccounts (limitedRepository 2) (exampleState (exampleStoreAccount "alice.smith"))
        (bytes "ampw_1") (limitOption (-1))).state.trace = [searchEvent (bytes "ampw_1") (-1)] :=
  ((ListAccounts_nonpositive_limit (limitedRepository 2)
      (exampleState (exampleStoreAccount "alice.smith")) (bytes "ampw_1") (limitOption (-1))
      (by decide)).1 (by decide)).1

/-! ## Claims C13 and C14: DeleteAccount -/

/-- Claim C13: for a non-empty id, when the writer's `Delete` reports `n <= 1` rows without
error and the transaction commits, `DeleteAccount` returns `(n, nil)`; in particular
`(0, nil)` when no row is affected. -/
theorem DeleteAccount_at_most_one_row (env : Env) (r : Repository) (s : State) (id : GoString)
    (n : Int) (hid : id ≠ []) (hn : n ≤ 1) (hdel : deleteAnswer r s id = (n, none))
    (hcommit : r.writer.commit (s.trace ++ [.txBegin, deleteEvent r id]) = none) :
    (DeleteAccount env r s id).rows = n ∧ (DeleteAccount env r s id).err = none ∧
    (DeleteAccount env r s id).state.trace =
      s.trace ++ [.txBegin, deleteEvent r id, .txCommit] ∧
    (n = 0 → (DeleteAccount env r s id).rows = 0) := by
  have hrun := runTx_delete_ok r s id 0 n hn hdel hcommit
  have hdo := DoTx_eq_runTx_of_ok r.writer env.StdRetryCnt
    (DeleteAccount.txHandler r (allocAccount.setPublicId id)) s 0 (by rw [hrun])
  rw [DeleteAccount_eq env r s id hid, hdo, hrun]
  refine ⟨rfl, rfl, rfl, ?_⟩
  intro h0
  exact h0

/-- Witness for C13: a writer that deletes no row makes `DeleteAccount` return `(0, nil)`. -/
theorem DeleteAccount_at_most_one_row_witness :
    (DeleteAccount exampleEnv (deletingRepository 0 none)
        (exampleState (exampleStoreAccount "alice.smith")) (bytes "apw_404")).rows = 0 ∧
    (DeleteAccount exampleEnv (deletingRepository 0 none)
        (exampleState (exampleStoreAccount "alice.smith")) (bytes "apw_404")).err = none :=
  (DeleteAccount_at_most_one_row exampleEnv (deletingRepository 0 none)
      (exampleState (exampleStoreAccount "alice.smith")) (bytes "apw_404") 0 (by decide)
      (by decide) rfl rfl) |> fun h => ⟨h.1, h.2.1⟩

/-- Claim C14: when the writer's `Delete` reports more than one row without error, the
callback of `DeleteAccount` returns `db.ErrMultipleRecords` and the run is rolled back, not
committed; the executor not retrying that error, `DeleteAccount` returns the row count 0 and
an error that wraps `db.ErrMultipleRecords`. On every error return of `DeleteAccount`, for
every input, the row count is 0. -/
theorem DeleteAccount_multiple_records (env : Env) (r : Repository) (s : State)
    (id : GoString) :
    (∀ n : Int, id ≠ [] → 1 < n → deleteAnswer r s id = (n, none) →
      (DeleteAccount.txHandler r (allocAccount.setPublicId id) (s.emit .txBegin) 0).err =
        some (.sentinel .ErrMultipleRecords) ∧
      (runTx r.writer (DeleteAccount.txHandler r (allocAccount.setPublicId id)) s 0).state.trace =
        s.trace ++ [.txBegin, deleteEvent r id, .txRollback] ∧
      (r.writer.transient (.sentinel .ErrMultipleRecords) = false →
        (DeleteAccount env r s id).rows = 0 ∧
        (DeleteAccount env r s id).err =
          some (.wrap "delete: password account: %s: %w" [id]
            (.sentinel .ErrMultipleRecords)) ∧
        (∃ e, (DeleteAccount env r s id).err = some e ∧
          errorsIs e .ErrMultipleRecords = true) ∧
        (DeleteAccount env r s id).state.trace =
          s.trace ++ [.txBegin, deleteEvent r id, .txRollback])) ∧
    ((DeleteAccount env r s id).err ≠ none → (DeleteAccount env r s id).rows = 0) := by
  refine ⟨?_, ?_⟩
  · intro n hid hn hdel
    have hrun := runTx_delete_multiple r s id 0 n hn hdel
    have hd : r.writer.Delete (s.emit .txBegin).trace (allocAccount.setPublicId id).clone
        (WithOplog r.wrapper ((allocAccount.setPublicId id).oplog .OP_TYPE_DELETE)) =
        (n, none) := hdel
    have hn2 : n > 1 := hn
    refine ⟨?_, ?_, ?_⟩
    · simp only [DeleteAccount_txHandler_eq, hd, hn2, and_self, if_true]
    · rw [hrun]
    · intro ht
      have hdo := DoTx_eq_runTx_of_not_transient r.writer env.StdRetryCnt
        (DeleteAccount.txHandler r (allocAccount.setPublicId id)) s 0 _ (by rw [hrun]) ht
      rw [DeleteAccount_eq env r s id hid, hdo, hrun]
      simp [NoRowsAffected, errorsIs]
  · intro herr
    by_cases hid : id = []
    · simp [DeleteAccount, hid, NoRowsAffected]
    · rw [DeleteAccount_eq env r s id hid] at herr ⊢
      cases h : (DoTx r.writer env.StdRetryCnt
          (DeleteAccount.txHandler r (allocAccount.setPublicId id)) s 0).err with
      | none => simp [h] at herr
      | some e => simp [NoRowsAffected]

/-- Witness for C14: a writer that reports two deleted rows makes `DeleteAccount` return 0 rows
and an error wrapping `db.ErrMultipleRecords`, after a rollback. -/
theorem DeleteAccount_multiple_records_witness :
    (DeleteAccount exampleEnv (deletingRepository 2 none)
        (exampleState (exampleStoreAccount "alice.smith")) (bytes "apw_1")).rows = 0 ∧
    (DeleteAccount exampleEnv (deletingRepository 2 none)
        (exampleState (exampleStoreAccount "alice.smith")) (bytes "apw_1")).err =
      some (.wrap "delete: password account: %s: %w" [bytes "apw_1"]
        (.sentinel .ErrMultipleRecords)) :=
  (((DeleteAccount_multiple_records exampleEnv (deletingRepository 2 none)
      (exampleState (exampleStoreAccount "alice.smith")) (bytes "apw_1")).1 2 (by decide)
      (by decide) rfl).2.2 rfl) |> fun h => ⟨h.1, h.2.1⟩

/-! ## Claim C15: parameter errors come before any call -/

/-- Claim C15: when `CreateAccount` is handed a nil account, an account with a nil embedded
message, an empty `AuthMethodId`, a non-empty `PublicId` or a user name with an invalid
character, when `LookupAccount` or `DeleteAccount` is handed an empty id, and when
`ListAccounts` is handed an empty auth method id, the call fails with a parameter error and
the state it returns is the state it was given: the trace holds no configuration read, no
reader call, no id generation and no transaction event of that execution. -/
theorem parameter_rejection_before_any_call (env : Env) (r : Repository) (s : State)
    (opts : options) :
    (∀ a : Option Ptr,
      (a = none ∨ ∃ p, a = some p ∧ ((s.heap.read p).embedded = none ∨
        ∃ sa, (s.heap.read p).embedded = some sa ∧
          (sa.AuthMethodId = [] ∨ sa.PublicId ≠ [] ∨ validUserName sa.UserName = false))) →
      (CreateAccount env r s a opts).state = s ∧
      (CreateAccount env r s a opts).account = none ∧
      ∃ e, (CreateAccount env r s a opts).err = some e ∧
        (errorsIs e .ErrInvalidParameter = true ∨ errorsIs e .ErrNilParameter = true)) ∧
    ((LookupAccount r s []).state = s ∧ (LookupAccount r s []).account = none ∧
      ∃ e, (LookupAccount r s []).err = some e ∧ errorsIs e .ErrInvalidParameter = true) ∧
    ((ListAccounts r s [] opts).state = s ∧ (ListAccounts r s [] opts).accounts = [] ∧
      ∃ e, (ListAccounts r s [] opts).err = some e ∧ errorsIs e .ErrInvalidParameter = true) ∧
    ((DeleteAccount env r s []).state = s ∧ (DeleteAccount env r s []).rows = 0 ∧
      ∃ e, (DeleteAccount env r s []).err = some e ∧
        errorsIs e .ErrInvalidParameter = true) := by
  refine ⟨?_, ?_, ?_, ?_⟩
  · intro a ha
    rcases CreateAccount_invalid_or_valid env r s a opts with h | ⟨p, sa, hp, hsa, ham, hpid, hun⟩
    · exact h
    · exfalso
      rcases ha with ha | ⟨q, hq, hbad⟩
      · rw [ha] at hp; cases hp
      · rw [hq] at hp
        cases hp
        rcases hbad with hnil | ⟨sb, hsb, hbad⟩
        · rw [hnil] at hsa; cases hsa
        · rw [hsb] at hsa
          cases hsa
          rcases hbad with h1 | h1 | h1
          · exact ham h1
          · exact h1 hpid
          · rw [h1] at hun; cases hun
  · simp [LookupAccount, errorsIs]
  · simp [ListAccounts, errorsIs]
  · simp [DeleteAccount, errorsIs, NoRowsAffected]

/-- Witness for C15: an account that already carries a public id is rejected by
`CreateAccount` in the state it was given. -/
theorem parameter_rejection_before_any_call_witness :
    (CreateAccount exampleEnv exampleRepository
      (exampleState { exampleStoreAccount "alice.smith" with PublicId := bytes "apw_1" })
      (some 0) noOptions).state =
      exampleState { exampleStoreAccount "alice.smith" with PublicId := bytes "apw_1" } :=
  ((parameter_rejection_before_any_call exampleEnv exampleRepository
      (exampleState { exampleStoreAccount "alice.smith" with PublicId := bytes "apw_1" })
      noOptions).1 (some 0)
      (Or.inr ⟨0, rfl, Or.inr ⟨_, rfl, Or.inr (Or.inl (by decide))⟩⟩)).1

/-! ## Claim C22: the password verifies after CreateAccount -/

/-- Counterexample for C24: with an id generator that returns the empty id without an error,
`CreateAccount` succeeds and the account it returns has an empty `PublicId`. -/
theorem CreateAccount_returns_empty_generated_id :
    (CreateAccount emptyIdEnv exampleRepository
      (exampleState (exampleStoreAccount "alice.smith")) (some 0) noOptions).err = none ∧
    (CreateAccount emptyIdEnv exampleRepository
      (exampleState (exampleStoreAccount "alice.smith")) (some 0) noOptions).account = some 2 ∧
    ((CreateAccount emptyIdEnv exampleRepository
      (exampleState (exampleStoreAccount "alice.smith")) (some 0)
      noOptions).state.heap.read 2).PublicId = [] := by
  decide

/-- Claim C24, amended: for every input and all collaborators, `CreateAccount` returns a non-nil
account exactly when it returns a nil error. A returned account is the working copy that was
given the id the generator returned, as the writer's `Create` left it: with a writer that
leaves the `PublicId` as it is, its `PublicId` is the generated id, which is non-empty when
the generator returns no empty id. An account whose user name has an invalid character is rejected with an
error that wraps `db.ErrInvalidParameter` and not `ErrTooShort`, in the state the call was
given, so before the configuration and its `MinUserNameLength` are read. -/
theorem CreateAccount_account_iff_no_error (env : Env) (r : Repository) (s : State)
    (a : Option Ptr) (opts : options) :
    ((CreateAccount env r s a opts).account ≠ none ↔
      (CreateAccount env r s a opts).err = none) ∧
    (∀ q, (CreateAccount env r s a opts).account = some q →
      ∃ p sa id hist, a = some p ∧ (s.heap.read p).embedded = some sa ∧
        env.newAccountId (s.trace ++ [.currentConfig sa.AuthMethodId]) = .ok id ∧
        (CreateAccount env r s a opts).state.heap.read q =
          (r.writer.CreateAccountRow hist { embedded := some { sa with PublicId := id } }
            (WithOplog r.wrapper
              (Account.oplog { embedded := some { sa with PublicId := id } }
                .OP_TYPE_CREATE))).2 ∧
        Account.PublicId { embedded := some { sa with PublicId := id } } = id ∧
        ((∀ h acct opt, (r.writer.CreateAccountRow h acct opt).2.PublicId = acct.PublicId) →
          ((CreateAccount env r s a opts).state.heap.read q).PublicId = id ∧
          ((∀ h i, env.newAccountId h = .ok i → i ≠ []) →
            ((CreateAccount env r s a opts).state.heap.read q).PublicId ≠ []))) ∧
    (∀ p sa, a = some p → (s.heap.read p).embedded = some sa →
      validUserName sa.UserName = false →
      (CreateAccount env r s a opts).account = none ∧
      (CreateAccount env r s a opts).state = s ∧
      ∃ e, (CreateAccount env r s a opts).err = some e ∧
        errorsIs e .ErrInvalidParameter = true ∧ errorsIs e .ErrTooShort = false) := by
  have hsucc : (CreateAccount env r s a opts).err = none →
      ∃ q p sa id hist, (CreateAccount env r s a opts).account = some q ∧ a = some p ∧
        (s.heap.read p).embedded = some sa ∧
        env.newAccountId (s.trace ++ [.currentConfig sa.AuthMethodId]) = .ok id ∧
        (CreateAccount env r s a opts).state.heap.read q =
          (r.writer.CreateAccountRow hist { embedded := some { sa with PublicId := id } }
            (WithOplog r.wrapper
              (Account.oplog { embedded := some { sa with PublicId := id } }
                .OP_TYPE_CREATE))).2 := by
    intro herr
    rcases CreateAccount_paths env r s a opts with ⟨-, h⟩ |
      ⟨p, sa, cc, id, cred, t, hp, hsa, -, hid, -, hst, hread, hlt⟩
    · exact absurd herr h
    · rw [hst] at herr ⊢
      obtain ⟨pre, q, -, hacc, -, -, hheap, -⟩ := store_success_cases env r
        s.heap.objs.length cred t _ hread hlt herr
      exact ⟨q, p, sa, id, t.trace ++ pre ++ [.txBegin], hacc, hp, hsa, hid, hheap⟩
  have hfail : (CreateAccount env r s a opts).err ≠ none →
      (CreateAccount env r s a opts).account = none := by
    intro herr
    rcases CreateAccount_paths env r s a opts with ⟨h, -⟩ |
      ⟨p, sa, cc, id, cred, t, -, -, -, -, -, hst, -, -⟩
    · exact h
    · rw [hst] at herr ⊢
      exact store_account_none_of_err env r _ cred t herr
  refine ⟨⟨?_, ?_⟩, ?_, ?_⟩
  · intro hacc
    by_contra herr
    exact hacc (hfail herr)
  · intro herr
    obtain ⟨q, -, -, -, -, hacc, -⟩ := hsucc herr
    rw [hacc]
    simp
  · intro q hq
    have herr : (CreateAccount env r s a opts).err = none := by
      by_contra herr
      rw [hfail herr] at hq
      cases hq
    obtain ⟨q2, p, sa, id, hist, hacc, hp, hsa, hid, hheap⟩ := hsucc herr
    rw [hacc] at hq
    cases hq
    refine ⟨p, sa, id, hist, hp, hsa, hid, hheap, rfl, ?_⟩
    intro hkeep
    have hpub : ((CreateAccount env r s a opts).state.heap.read q).PublicId = id := by
      rw [hheap, hkeep]
      rfl
    refine ⟨hpub, ?_⟩
    intro hgen
    rw [hpub]
    exact hgen _ _ hid
  · intro p sa hp hsa hun
    subst hp
    have hr := read_eq_of_embedded hsa
    simp only [Heap.read, List.getD] at hr
    by_cases ham : sa.AuthMethodId = []
    · simp only [CreateAccount, Heap.read, List.getD, hr, Account.AuthMethodId, ham]
      simp [errorsIs]
    · by_cases hpid : sa.PublicId = []
      · simp only [CreateAccount, Heap.read, List.getD, hr, Account.AuthMethodId,
          Account.PublicId, Account.UserName, ham, hpid, hun]
        simp [errorsIs, hpid, hun, ham]
      · simp only [CreateAccount, Heap.read, List.getD, hr, Account.AuthMethodId,
          Account.PublicId, ham, hpid]
        simp [errorsIs, hpid]

/-- Witness for C24, amended: the one-letter user name `A` is invalid; with a minimum user name length
of 5 it is rejected with an error that wraps `db.ErrInvalidParameter`, and the account is
nil. The account returned for `alice.smith` has a non-empty `PublicId`. -/
theorem CreateAccount_account_iff_no_error_witness :
    ((CreateAccount exampleEnv exampleRepository (exampleState (exampleStoreAccount "A"))
        (some 0) noOptions).account = none ∧
      ∃ e, (CreateAccount exampleEnv exampleRepository (exampleState (exampleStoreAccount "A"))
          (some 0) noOptions).err = some e ∧
        errorsIs e .ErrInvalidParameter = true ∧ errorsIs e .ErrTooShort = false) ∧
    ((CreateAccount exampleEnv exampleRepository
        (exampleState (exampleStoreAccount "alice.smith")) (some 0)
        noOptions).state.heap.read 2).PublicId ≠ [] :=
  ⟨((CreateAccount_account_iff_no_error exampleEnv exampleRepository
      (exampleState (exampleStoreAccount "A")) (some 0) noOptions).2.2 0
      (exampleStoreAccount "A") rfl rfl (by decide)) |> fun h => ⟨h.1, h.2.2⟩,
   ((CreateAccount_account_iff_no_error exampleEnv exampleRepository
      (exampleState (exampleStoreAccount "alice.smith")) (some 0) noOptions).2.1 2
      (by decide)) |> fun ⟨_, _, _, _, _, _, _, _, _, h⟩ =>
        (h (fun _ _ _ => rfl)).2 (fun _ i hi => by cases hi; decide)⟩

end Password

namespace Iam

/-! ## Lemmas: the principal repository -/

theorem userRows_filter_ne (st : Store) (id : String) :
    (st.users.filter (fun u => u.PublicId ≠ id)).filter (fun u => u.PublicId = id) = [] := by
  rw [List.filter_filter]
  apply List.filter_eq_nil_iff.mpr
  intro u _
  simp

/-- The outcomes of the shared write: a failure leaves the store as it was; a write needs
exactly one row with the id and the expected version. -/
theorem applyAccountChanges_cases (st : Store) (op uid : String) (v : Nat)
    (adds removes : List String) :
    ((applyAccountChanges st op uid v adds removes).2 = st ∧
      (applyAccountChanges st op uid v adds removes).1 ≠ none) ∨
    ((∃ cur, (userRows st uid).filter (fun u => u.Version = v) = [cur]) ∧
      applyAccountChanges st op uid v adds removes =
        (none, writeAccountChanges st uid v adds removes)) := by
  unfold applyAccountChanges
  split
  · left
    split_ifs <;> simp
  · rename_i cur hrows
    right
    exact ⟨⟨cur, hrows⟩, rfl⟩
  · left
    simp

theorem UpdateUser_invalid_eq (st : Store) (user : User) (version : Nat)
    (mask : List String) (f : String)
    (h : mask.find? (fun f => decide (f ∉ mutableFields)) = some f) :
    UpdateUser st user version (some mask) =
      UpdateResult.failure st
        { kind := .InvalidFieldMask
          context := ["iam.(Repository).UpdateUser", "invalid field mask", f] } := by
  have hne : mask ≠ [] := by
    intro h0
    rw [h0] at h
    simp at h
  simp only [UpdateUser, Option.getD_some, hne, if_false, h]

/-- The outcomes of `UpdateUser`: a failure leaves the store as it was and returns a nil
principal and no row; a success found one row with the id and the expected version, wrote it,
and reports one row. -/
theorem UpdateUser_cases (st : Store) (user : User) (v : Nat) (fm : Option (List String)) :
    ((UpdateUser st user v fm).err ≠ none ∧ (UpdateUser st user v fm).store = st ∧
      (UpdateUser st user v fm).user = none ∧ (UpdateUser st user v fm).rowsUpdated = 0) ∨
    ((UpdateUser st user v fm).err = none ∧ (UpdateUser st user v fm).rowsUpdated = 1 ∧
      (∃ cur, (userRows st user.PublicId).filter (fun u => u.Version = v) = [cur]) ∧
      (UpdateUser st user v fm).store = writeUser st user v (fm.getD [])) := by
  unfold UpdateUser
  by_cases h1 : fm.getD [] = []
  · left; simp [h1, UpdateResult.failure]
  simp only [h1, if_false]
  cases hf : (fm.getD []).find? (fun f => decide (f ∉ mutableFields)) with
  | some f => left; simp [UpdateResult.failure]
  | none =>
    simp only []
    by_cases h2 : user.PublicId = ""
    · left; simp [h2, UpdateResult.failure]
    simp only [h2, if_false]
    split
    · left
      split_ifs <;> simp [UpdateResult.failure]
    · rename_i cur hrows
      split_ifs
      · left; simp [UpdateResult.failure]
      · right
        exact ⟨rfl, rfl, ⟨cur, hrows⟩, rfl⟩
    · left
      simp [UpdateResult.failure]

/-- The outcomes of `AddUserAccounts`: a failure leaves the store as it was; a success found
one row with the id and the expected version, wrote it, and returns the ids of the list. -/
theorem AddUserAccounts_cases (st : Store) (uid : String) (v : Nat) (ids : List String) :
    ((AddUserAccounts st uid v ids).err ≠ none ∧ (AddUserAccounts st uid v ids).store = st ∧
      (AddUserAccounts st uid v ids).accountIds = []) ∨
    ((AddUserAccounts st uid v ids).err = none ∧
      (AddUserAccounts st uid v ids).accountIds = ids.dedup ∧
      uid ≠ "" ∧ v ≠ 0 ∧ ids ≠ [] ∧
      checkAccounts st "iam.(Repository).AddUserAccounts" uid ids = none ∧
      (∃ cur, (userRows st uid).filter (fun u => u.Version = v) = [cur]) ∧
      (AddUserAccounts st uid v ids).store = writeAccountChanges st uid v ids.dedup []) := by
  unfold AddUserAccounts
  by_cases h1 : uid = ""
  · left; simp [h1, AccountsResult.failure]
  by_cases h2 : v = 0
  · left; simp [h1, h2, AccountsResult.failure]
  by_cases h3 : ids = []
  · left; simp [h1, h2, h3, AccountsResult.failure]
  simp only [h1, h2, h3, if_false]
  cases hc : checkAccounts st "iam.(Repository).AddUserAccounts" uid ids with
  | some e => left; simp [AccountsResult.failure]
  | none =>
    simp only []
    rcases applyAccountChanges_cases st "iam.(Repository).AddUserAccounts" uid v ids.dedup []
      with ⟨-, hne⟩ | ⟨hcur, heq⟩
    · rcases hap : applyAccountChanges st "iam.(Repository).AddUserAccounts" uid v ids.dedup
        [] with ⟨_ | e, st1⟩
      · rw [hap] at hne
        exact absurd rfl hne
      · left
        simp [AccountsResult.failure]
    · right
      rw [heq]
      exact ⟨rfl, rfl, h1, h2, h3, trivial, hcur, rfl⟩

/-- The outcomes of `DeleteUserAccounts`: a failure leaves the store as it was; a success found
one row with the id and the expected version, wrote it, and returns the ids that were
associated with the principal. -/
theorem DeleteUserAccounts_cases (st : Store) (uid : String) (v : Nat) (ids : List String) :
    ((DeleteUserAccounts st uid v ids).err ≠ none ∧
      (DeleteUserAccounts st uid v ids).store = st ∧
      (DeleteUserAccounts st uid v ids).accountIds = []) ∨
    ((DeleteUserAccounts st uid v ids).err = none ∧
      (DeleteUserAccounts st uid v ids).accountIds =
        (ids.filter (fun a => decide (a ∈ associatedAccountIds st uid))).dedup ∧
      uid ≠ "" ∧ v ≠ 0 ∧ ids ≠ [] ∧
      checkAccounts st "iam.(Repository).DeleteUserAccounts" uid ids = none ∧
      (∃ cur, (userRows st uid).filter (fun u => u.Version = v) = [cur]) ∧
      (DeleteUserAccounts st uid v ids).store =
        writeAccountChanges st uid v []
          (ids.filter (fun a => decide (a ∈ associatedAccountIds st uid))).dedup) := by
  unfold DeleteUserAccounts
  by_cases h1 : uid = ""
  · left; simp [h1, AccountsResult.failure]
  by_cases h2 : v = 0
  · left; simp [h1, h2, AccountsResult.failure]
  by_cases h3 : ids = []
  · left; simp [h1, h2, h3, AccountsResult.failure]
  simp only [h1, h2, h3, if_false]
  cases hc : checkAccounts st "iam.(Repository).DeleteUserAccounts" uid ids with
  | some e => left; simp [AccountsResult.failure]
  | none =>
    simp only []
    rcases applyAccountChanges_cases st "iam.(Repository).DeleteUserAccounts" uid v []
      (ids.filter (fun a => decide (a ∈ associatedAccountIds st uid))).dedup with
      ⟨-, hne⟩ | ⟨hcur, heq⟩
    · rcases hap : applyAccountChanges st "iam.(Repository).DeleteUserAccounts" uid v []
        (ids.filter (fun a => decide (a ∈ associatedAccountIds st uid))).dedup with
        ⟨_ | e, st1⟩
      · rw [hap] at hne
        exact absurd rfl hne
      · left
        simp [AccountsResult.failure]
    · right
      rw [heq]
      exact ⟨rfl, rfl, h1, h2, h3, trivial, hcur, rfl⟩

/-- The outcomes of `SetUserAccounts`: a failure leaves the store as it was; a success with an
empty difference leaves the store as it was, and one with a non-empty difference writes it. -/
theorem SetUserAccounts_cases (st : Store) (uid : String) (v : Nat) (ids : List String) :
    ((SetUserAccounts st uid v ids).err ≠ none ∧ (SetUserAccounts st uid v ids).store = st ∧
      (SetUserAccounts st uid v ids).accountIds = []) ∨
    ((SetUserAccounts st uid v ids).err = none ∧
      (SetUserAccounts st uid v ids).accountIds =
        associatedAccountIds (SetUserAccounts st uid v ids).store uid ∧
      uid ≠ "" ∧ v ≠ 0 ∧
      checkAccounts st "iam.(Repository).SetUserAccounts" uid ids = none ∧
      ((((ids.filter (fun a => decide (a ∉ associatedAccountIds st uid))).dedup = [] ∧
          ((associatedAccountIds st uid).filter (fun a => decide (a ∉ ids))).dedup = []) ∧
          (SetUserAccounts st uid v ids).store = st) ∨
        (¬ ((ids.filter (fun a => decide (a ∉ associatedAccountIds st uid))).dedup = [] ∧
            ((associatedAccountIds st uid).filter (fun a => decide (a ∉ ids))).dedup = []) ∧
          (∃ cur, (userRows st uid).filter (fun u => u.Version = v) = [cur]) ∧
          (SetUserAccounts st uid v ids).store =
            writeAccountChanges st uid v
              (ids.filter (fun a => decide (a ∉ associatedAccountIds st uid))).dedup
              ((associatedAccountIds st uid).filter (fun a => decide (a ∉ ids))).dedup))) := by
  unfold SetUserAccounts
  by_cases h1 : uid = ""
  · left; simp [h1, AccountsResult.failure]
  by_cases h2 : v = 0
  · left; simp [h1, h2, AccountsResult.failure]
  simp only [h1, h2, if_false]
  cases hc : checkAccounts st "iam.(Repository).SetUserAccounts" uid ids with
  | some e => left; simp [AccountsResult.failure]
  | none =>
    simp only []
    by_cases hdiff : (ids.filter (fun a => decide (a ∉ associatedAccountIds st uid))).dedup = [] ∧
        ((associatedAccountIds st uid).filter (fun a => decide (a ∉ ids))).dedup = []
    · right
      rw [if_pos hdiff]
      exact ⟨rfl, rfl, h1, h2, trivial, Or.inl ⟨hdiff, rfl⟩⟩
    · rw [if_neg hdiff]
      rcases applyAccountChanges_cases st "iam.(Repository).SetUserAccounts" uid v
        (ids.filter (fun a => decide (a ∉ associatedAccountIds st uid))).dedup
        ((associatedAccountIds st uid).filter (fun a => decide (a ∉ ids))).dedup with
        ⟨-, hne⟩ | ⟨hcur, heq⟩
      · rcases hap : applyAccountChanges st "iam.(Repository).SetUserAccounts" uid v
          (ids.filter (fun a => decide (a ∉ associatedAccountIds st uid))).dedup
          ((associatedAccountIds st uid).filter (fun a => decide (a ∉ ids))).dedup with
          ⟨_ | e, st1⟩
        · rw [hap] at hne
          exact absurd rfl hne
        · left
          simp [AccountsResult.failure]
      · right
        rw [heq]
        exact ⟨rfl, rfl, h1, h2, trivial, Or.inr ⟨hdiff, hcur, rfl⟩⟩

/-- The outcomes of `DeleteUser`: the store as it was, or the store without the principal. -/
theorem DeleteUser_store_cases (st : Store) (id : String) :
    (DeleteUser st id).store = st ∨
    (DeleteUser st id).store =
      { users := st.users.filter (fun u => u.PublicId ≠ id)
        accounts := st.accounts.map (fun a =>
          if a.IamUserId = some id then { a with IamUserId := none } else a)
        oplog := st.oplog ++ [{ EntityPublicId := id, OperationType := .Delete }]
        now := st.now + 1 } := by
  unfold DeleteUser
  by_cases h : id = ""
  · left; simp [h]
  · simp only [h, if_false]
    split
    · left; rfl
    · right; rfl
    · left; rfl

/-- Claim C16: for every store, every principal and every expected version, `UpdateUser` with a
nil or an empty field mask fails with an `EmptyFieldMask` error, returns a nil principal and 0
rows updated, and leaves the store as it was: the rows of the principal are unchanged and no
oplog record is written. -/
theorem UpdateUser_empty_field_mask (st : Store) (user : User) (version : Nat) :
    ((UpdateUser st user version none).err =
        some { kind := .EmptyFieldMask
               context := ["iam.(Repository).UpdateUser", "empty field mask"] } ∧
      (UpdateUser st user version none).user = none ∧
      (UpdateUser st user version none).rowsUpdated = 0 ∧
      (UpdateUser st user version none).store = st ∧
      userRows (UpdateUser st user version none).store user.PublicId =
        userRows st user.PublicId ∧
      (UpdateUser st user version none).store.oplog = st.oplog) ∧
    ((UpdateUser st user version (some [])).err =
        some { kind := .EmptyFieldMask
               context := ["iam.(Repository).UpdateUser", "empty field mask"] } ∧
      (UpdateUser st user version (some [])).user = none ∧
      (UpdateUser st user version (some [])).rowsUpdated = 0 ∧
      (UpdateUser st user version (some [])).store = st ∧
      userRows (UpdateUser st user version (some [])).store user.PublicId =
        userRows st user.PublicId ∧
      (UpdateUser st user version (some [])).store.oplog = st.oplog) := by
  have hnil : UpdateUser st user version none =
      UpdateResult.failure st
        { kind := .EmptyFieldMask
          context := ["iam.(Repository).UpdateUser", "empty field mask"] } := by
    simp [UpdateUser]
  have hempty : UpdateUser st user version (some []) =
      UpdateResult.failure st
        { kind := .EmptyFieldMask
          context := ["iam.(Repository).UpdateUser", "empty field mask"] } := by
    simp [UpdateUser]
  rw [hnil, hempty]
  exact ⟨⟨rfl, rfl, rfl, rfl, rfl, rfl⟩, rfl, rfl, rfl, rfl, rfl, rfl⟩

/-- Claim C17: for every field mask with a path that is not a mutable field, `UpdateUser`
fails with an `InvalidFieldMask` error whose context names the first such path of the mask,
returns a nil principal and 0 rows updated, and leaves the store as it was, so that no
oplog record is written; `Alice`, `CreateTime` and `ScopeId` are such paths. -/
theorem UpdateUser_invalid_field_mask (st : Store) (user : User) (version : Nat)
    (mask : List String) (f : String) (hf : f ∈ mask) (hbad : f ∉ mutableFields) :
    (∃ g, g ∈ mask ∧ g ∉ mutableFields ∧
      mask.find? (fun f => decide (f ∉ mutableFields)) = some g ∧
      (UpdateUser st user version (some mask)).err =
        some { kind := .InvalidFieldMask
               context := ["iam.(Repository).UpdateUser", "invalid field mask", g] }) ∧
    (UpdateUser st user version (some mask)).user = none ∧
    (UpdateUser st user version (some mask)).rowsUpdated = 0 ∧
    (UpdateUser st user version (some mask)).store = st ∧
    (UpdateUser st user version (some mask)).store.oplog = st.oplog ∧
    "Alice" ∉ mutableFields ∧ "CreateTime" ∉ mutableFields ∧ "ScopeId" ∉ mutableFields := by
  cases h : mask.find? (fun f => decide (f ∉ mutableFields)) with
  | none =>
    exfalso
    rw [List.find?_eq_none] at h
    have := h f hf
    simp at this
    exact hbad this
  | some g =>
    have hg1 : g ∈ mask := List.mem_of_find?_eq_some h
    have hg2 : g ∉ mutableFields := by
      have := List.find?_some h
      simpa using this
    rw [UpdateUser_invalid_eq st user version mask g h]
    refine ⟨⟨g, hg1, hg2, rfl, rfl⟩, rfl, rfl, rfl, rfl, ?_, ?_, ?_⟩ <;> decide

/-- Witness for C17: the mask `Name, CreateTime` is refused, and the error names
`CreateTime`. -/
theorem UpdateUser_invalid_field_mask_witness :
    (UpdateUser exampleStore exampleUpdate 1 (some ["Name", "CreateTime"])).err =
      some { kind := .InvalidFieldMask
             context := ["iam.(Repository).UpdateUser", "invalid field mask", "CreateTime"] } ∧
    (UpdateUser exampleStore exampleUpdate 1 (some ["Name", "CreateTime"])).store =
      exampleStore :=
  (UpdateUser_invalid_field_mask exampleStore exampleUpdate 1 ["Name", "CreateTime"]
      "CreateTime" (by decide) (by decide)) |> fun h =>
    ⟨by
      obtain ⟨g, -, -, hfind, herr⟩ := h.1
      have hg : g = "CreateTime" := by
        have : (["Name", "CreateTime"] : List String).find?
            (fun f => decide (f ∉ mutableFields)) = some "CreateTime" := by decide
        rw [this] at hfind
        exact (Option.some.inj hfind).symm
      rw [herr, hg], h.2.2.2.1⟩

/-! ## Claim C18: the version of a principal -/

/-- Claim C19: for a non-empty id with no row in the principal table, `DeleteUser` fails with a
`RecordNotFound` error, reports 0 rows and leaves the store as it was, so that no oplog record
of a deletion is written; for the id of a principal of the table it reports 1 row and no error,
appends the oplog record of the deletion, and a lookup of the id in the store it leaves gives a
nil principal and no error. -/
theorem DeleteUser_results (st : Store) (id : String) (hid : id ≠ "") :
    (userRows st id = [] →
      (DeleteUser st id).err =
        some { kind := .RecordNotFound, context := ["iam.(Repository).DeleteUser", id] } ∧
      (DeleteUser st id).rowsDeleted = 0 ∧
      (DeleteUser st id).store = st ∧
      (DeleteUser st id).store.oplog = st.oplog) ∧
    (∀ p, userRows st id = [p] →
      (DeleteUser st id).err = none ∧
      (DeleteUser st id).rowsDeleted = 1 ∧
      (DeleteUser st id).store.oplog =
        st.oplog ++ [{ EntityPublicId := id, OperationType := .Delete }] ∧
      (LookupUser (DeleteUser st id).store id).user = none ∧
      (LookupUser (DeleteUser st id).store id).err = none) := by
  refine ⟨?_, ?_⟩
  · intro h
    simp [DeleteUser, hid, h]
  · intro p h
    have h2 := userRows_filter_ne st id
    have hd : DeleteUser st id =
        { rowsDeleted := 1
          err := none
          store :=
            { users := st.users.filter (fun u => u.PublicId ≠ id)
              accounts := st.accounts.map (fun a =>
                if a.IamUserId = some id then { a with IamUserId := none } else a)
              oplog := st.oplog ++ [{ EntityPublicId := id, OperationType := .Delete }]
              now := st.now + 1 } } := by
      simp only [DeleteUser, hid, if_false, h]
    rw [hd]
    refine ⟨rfl, rfl, rfl, ?_, ?_⟩
    · simp only [LookupUser, hid, if_false, userRows, h2]
      rfl
    · simp only [LookupUser, hid, if_false, userRows, h2]
      rfl

/-- Witness for C19: deleting the unknown `u_9` is a `RecordNotFound` error and no row, deleting
`u_1` is one row, and `u_1` is not found afterwards. -/
theorem DeleteUser_results_witness :
    ((DeleteUser exampleStore "u_9").err =
        some { kind := .RecordNotFound, context := ["iam.(Repository).DeleteUser", "u_9"] } ∧
      (DeleteUser exampleStore "u_9").rowsDeleted = 0) ∧
    ((DeleteUser exampleStore "u_1").err = none ∧
      (DeleteUser exampleStore "u_1").rowsDeleted = 1 ∧
      (LookupUser (DeleteUser exampleStore "u_1").store "u_1").user = none) :=
  ⟨((DeleteUser_results exampleStore "u_9" (by decide)).1 (by decide)) |> fun h => ⟨h.1, h.2.1⟩,
   ((DeleteUser_results exampleStore "u_1" (by decide)).2
      { PublicId := "u_1", ScopeId := "o_1", Name := "alice", Description := "", Version := 1,
        CreateTime := 1, UpdateTime := 1 } (by decide)) |> fun h =>
      ⟨h.1, h.2.1, h.2.2.2.1⟩⟩

/-! ## Lemmas: the states the operations reach -/

theorem accountKeys_map (l : List AuthAccount) (f : AuthAccount → AuthAccount)
    (hf : ∀ a, (f a).PublicId = a.PublicId)
    (hk : ∀ a ∈ l, ∀ b ∈ l, a.PublicId = b.PublicId → a = b) :
    ∀ a ∈ l.map f, ∀ b ∈ l.map f, a.PublicId = b.PublicId → a = b := by
  intro a ha b hb hab
  obtain ⟨a0, ha0, rfl⟩ := List.mem_map.mp ha
  obtain ⟨b0, hb0, rfl⟩ := List.mem_map.mp hb
  rw [hf, hf] at hab
  rw [hk a0 ha0 b0 hb0 hab]

theorem accountKeys_writeAccountChanges (st : Store) (uid : String) (v : Nat)
    (adds removes : List String) (hk : accountKeys st) :
    accountKeys (writeAccountChanges st uid v adds removes) := by
  unfold accountKeys writeAccountChanges
  apply accountKeys_map _ _ _ hk
  intro a
  split_ifs <;> rfl

/-- Every operation keeps the account ids keys of the account table. -/
theorem accountKeys_apply (st : Store) (op : Op) (hk : accountKeys st) :
    accountKeys (op.apply st) := by
  cases op with
  | UpdateUser user v fm =>
    simp only [Op.apply]
    rcases UpdateUser_cases st user v fm with ⟨-, hst, -⟩ | ⟨-, -, -, hst⟩
    · rw [hst]; exact hk
    · rw [hst]; exact hk
  | AddUserAccounts uid v ids =>
    simp only [Op.apply]
    rcases AddUserAccounts_cases st uid v ids with ⟨-, hst, -⟩ | ⟨-, -, -, -, -, -, -, hst⟩
    · rw [hst]; exact hk
    · rw [hst]; exact accountKeys_writeAccountChanges st uid v _ _ hk
  | DeleteUserAccounts uid v ids =>
    simp only [Op.apply]
    rcases DeleteUserAccounts_cases st uid v ids with
      ⟨-, hst, -⟩ | ⟨-, -, -, -, -, -, -, hst⟩
    · rw [hst]; exact hk
    · rw [hst]; exact accountKeys_writeAccountChanges st uid v _ _ hk
  | SetUserAccounts uid v ids =>
    simp only [Op.apply]
    rcases SetUserAccounts_cases st uid v ids with ⟨-, hst, -⟩ | ⟨-, -, -, -, -, h⟩
    · rw [hst]; exact hk
    · rcases h with ⟨-, hst⟩ | ⟨-, -, hst⟩
      · rw [hst]; exact hk
      · rw [hst]; exact accountKeys_writeAccountChanges st uid v _ _ hk
  | DeleteUser id =>
    simp only [Op.apply]
    rcases DeleteUser_store_cases st id with hst | hst
    · rw [hst]; exact hk
    · rw [hst]
      apply accountKeys_map _ _ _ hk
      intro a
      split_ifs <;> rfl

theorem accountKeys_run (ops : List Op) (st : Store) (hk : accountKeys st) :
    accountKeys (run st ops) := by
  induction ops generalizing st with
  | nil => exact hk
  | cons op ops ih =>
    simp only [run, List.foldl_cons]
    exact ih (op.apply st) (accountKeys_apply st op hk)

/-- `AddUserAccounts` with an id owned by another principal fails and leaves the store as it
was; past the checks of the parameters the error is `AccountAlreadyAssociated`. -/
theorem AddUserAccounts_owned_by_other (st : Store) (A B : String) (v : Nat)
    (ids : List String) (a : AuthAccount) (hx : a.PublicId ∈ ids) (ha : a ∈ st.accounts)
    (hown : a.IamUserId = some A) (hAB : A ≠ B) :
    (∃ e, AddUserAccounts st B v ids = AccountsResult.failure st e) ∧
    (B ≠ "" → v ≠ 0 →
      ∃ y, y ∈ ids ∧ ownedByOther st B y = true ∧
        AddUserAccounts st B v ids = AccountsResult.failure st
          { kind := .AccountAlreadyAssociated
            context := ["iam.(Repository).AddUserAccounts", y] }) := by
  have hne : ids ≠ [] := by
    intro h
    rw [h] at hx
    simp at hx
  have hother : ownedByOther st B a.PublicId = true := by
    simp only [ownedByOther, List.any_eq_true]
    refine ⟨a, ha, ?_⟩
    have h2 : ¬ A = B := hAB
    simp [hown, h2]
  have hfind : ∃ y, ids.find? (fun y => ownedByOther st B y) = some y := by
    cases h : ids.find? (fun y => ownedByOther st B y) with
    | some y => exact ⟨y, rfl⟩
    | none =>
      rw [List.find?_eq_none] at h
      exact absurd hother (h _ hx)
  obtain ⟨y, hy⟩ := hfind
  have hcheck : checkAccounts st "iam.(Repository).AddUserAccounts" B ids =
      some { kind := .AccountAlreadyAssociated
             context := ["iam.(Repository).AddUserAccounts", y] } := by
    simp only [checkAccounts, hy]
  have hvalid : B ≠ "" → v ≠ 0 →
      AddUserAccounts st B v ids = AccountsResult.failure st
        { kind := .AccountAlreadyAssociated
          context := ["iam.(Repository).AddUserAccounts", y] } := by
    intro h1 h2
    simp only [AddUserAccounts, h1, h2, hne, if_false, hcheck]
  refine ⟨?_, ?_⟩
  · by_cases h1 : B = ""
    · refine ⟨⟨.InvalidParameter, ["iam.(Repository).AddUserAccounts", "missing public id"]⟩,
        ?_⟩
      simp only [AddUserAccounts, h1, if_true]
    · by_cases h2 : v = 0
      · refine ⟨⟨.InvalidParameter, ["iam.(Repository).AddUserAccounts", "missing version"]⟩,
          ?_⟩
        simp only [AddUserAccounts, h1, h2, if_true, if_false]
      · exact ⟨_, hvalid h1 h2⟩
  · intro h1 h2
    exact ⟨y, List.mem_of_find?_eq_some hy, by simpa using List.find?_some hy, hvalid h1 h2⟩

/-! ## Claim C21: one owner for each account -/

/-- Claim C21: in every state reached by the operations of the principal repository from a
store whose account ids are keys of the account table, the account ids are keys still, and no
account id has two owners. In every store, `AddUserAccounts(B, v, ids)` with an id of `ids`
owned by another principal `A` fails and returns no id, with the error
`AccountAlreadyAssociated` when `B` is present and `v` is at least 1 (with `InvalidParameter`
otherwise), and the store it leaves is the store it was given: the rows
of `A` and of `B`, with their versions, and the accounts of `A` and of `B` are unchanged, and no
id of `ids` becomes associated with `B`. -/
theorem ownership_exclusive (st0 : Store) (ops : List Op) (hkeys : accountKeys st0) :
    (accountKeys (run st0 ops) ∧
      ∀ a ∈ (run st0 ops).accounts, ∀ b ∈ (run st0 ops).accounts, ∀ A B,
        a.PublicId = b.PublicId → a.IamUserId = some A → b.IamUserId = some B → A = B) ∧
    (∀ (st : Store) (A B : String) (v : Nat) (ids : List String) (a : AuthAccount),
      a.PublicId ∈ ids → a ∈ st.accounts → a.IamUserId = some A → A ≠ B →
      (AddUserAccounts st B v ids).err ≠ none ∧
      (AddUserAccounts st B v ids).accountIds = [] ∧
      (B ≠ "" → v ≠ 0 →
        ∃ y, y ∈ ids ∧ ownedByOther st B y = true ∧
          (AddUserAccounts st B v ids).err =
            some { kind := .AccountAlreadyAssociated
                   context := ["iam.(Repository).AddUserAccounts", y] }) ∧
      (AddUserAccounts st B v ids).store = st ∧
      userRows (AddUserAccounts st B v ids).store A = userRows st A ∧
      userRows (AddUserAccounts st B v ids).store B = userRows st B ∧
      associatedAccountIds (AddUserAccounts st B v ids).store A = associatedAccountIds st A ∧
      associatedAccountIds (AddUserAccounts st B v ids).store B = associatedAccountIds st B ∧
      (∀ y ∈ ids, y ∈ associatedAccountIds (AddUserAccounts st B v ids).store B →
        y ∈ associatedAccountIds st B)) := by
  refine ⟨⟨accountKeys_run ops st0 hkeys, ?_⟩, ?_⟩
  · intro a ha b hb A B hab hA hB
    have heq := accountKeys_run ops st0 hkeys a ha b hb hab
    rw [heq, hB] at hA
    exact (Option.some.inj hA).symm
  · intro st A B v ids a hx ha hown hAB
    obtain ⟨⟨e, he⟩, hvalid⟩ := AddUserAccounts_owned_by_other st A B v ids a hx ha hown hAB
    have hst : (AddUserAccounts st B v ids).store = st := by rw [he]; rfl
    refine ⟨by rw [he]; simp [AccountsResult.failure], by rw [he]; rfl, ?_, hst, ?_, ?_, ?_,
      ?_, ?_⟩
    · intro h1 h2
      obtain ⟨y, hy, hoy, hey⟩ := hvalid h1 h2
      exact ⟨y, hy, hoy, by rw [hey]; rfl⟩
    · rw [hst]
    · rw [hst]
    · rw [hst]
    · rw [hst]
    · intro y _ hy2
      rw [hst] at hy2
      exact hy2

/-- Witness for C21: `a_4` belongs to `u_2`; adding `a_2` and `a_4` to `u_1`, at version 1,
fails with `AccountAlreadyAssociated` and leaves the store as it was. -/
theorem ownership_exclusive_witness :
    (∃ y, y ∈ ["a_2", "a_4"] ∧ ownedByOther exampleStore "u_1" y = true ∧
      (AddUserAccounts exampleStore "u_1" 1 ["a_2", "a_4"]).err =
        some { kind := .AccountAlreadyAssociated
               context := ["iam.(Repository).AddUserAccounts", y] }) ∧
    (AddUserAccounts exampleStore "u_1" 1 ["a_2", "a_4"]).store = exampleStore ∧
    accountKeys (run exampleStore [.SetUserAccounts "u_1" 1 ["a_2", "a_3"],
      .AddUserAccounts "u_2" 3 ["a_1"], .DeleteUser "u_1"]) :=
  ⟨((ownership_exclusive exampleStore [] (by decide)).2 exampleStore "u_2" "u_1" 1
      ["a_2", "a_4"] { PublicId := "a_4", IamUserId := some "u_2" } (by decide) (by decide)
      rfl (by decide)).2.2.1 (by decide) (by decide),
   ((ownership_exclusive exampleStore [] (by decide)).2 exampleStore "u_2" "u_1" 1
      ["a_2", "a_4"] { PublicId := "a_4", IamUserId := some "u_2" } (by decide) (by decide)
      rfl (by decide)).2.2.2.1,
   (ownership_exclusive exampleStore [.SetUserAccounts "u_1" 1 ["a_2", "a_3"],
      .AddUserAccounts "u_2" 3 ["a_1"], .DeleteUser "u_1"] (by decide)).1.1⟩

end Iam

namespace Metric

/-! ## Lemmas: splitMethodName -/

theorem bytes_slash : Password.bytes "/" = [47] := by decide

theorem HasPrefix_slash_cons (c : Nat) (cs : Password.GoString) :
    HasPrefix (c :: cs) [47] = decide (c = 47) := by
  by_cases h : c = 47
  · subst h
    simp [HasPrefix]
  · have h2 : ¬ 47 = c := fun h3 => h h3.symm
    simp [HasPrefix, h, h2]

theorem indexFrom_slash_of_not_mem (s : Password.GoString) (k : Nat) (h : 47 ∉ s) :
    indexFrom s [47] k = -1 := by
  induction s generalizing k with
  | nil =>
    unfold indexFrom
    simp [HasPrefix]
  | cons c cs ih =>
    have hc : c ≠ 47 := fun h2 => h (by simp [h2])
    have hcs : 47 ∉ cs := fun h2 => h (by simp [h2])
    unfold indexFrom
    simp only [HasPrefix_slash_cons, hc, decide_False, Bool.false_eq_true, if_false]
    exact ih (k + 1) hcs

theorem indexFrom_slash_append (s m : Password.GoString) (k : Nat) (h : 47 ∉ s) :
    indexFrom (s ++ 47 :: m) [47] k = ((k + s.length : Nat) : Int) := by
  induction s generalizing k with
  | nil =>
    unfold indexFrom
    simp [HasPrefix_slash_cons]
  | cons c cs ih =>
    have hc : c ≠ 47 := fun h2 => h (by simp [h2])
    have hcs : 47 ∉ cs := fun h2 => h (by simp [h2])
    rw [List.cons_append]
    unfold indexFrom
    simp only [HasPrefix_slash_cons, hc, decide_False, Bool.false_eq_true, if_false]
    rw [ih (k + 1) hcs]
    simp only [List.length_cons]
    congr 1
    omega

/-- A byte sequence has no `/`, or splits at its first `/`. -/
theorem split_at_first_slash (t : Password.GoString) :
    47 ∉ t ∨ ∃ a b, t = a ++ 47 :: b ∧ 47 ∉ a := by
  induction t with
  | nil => left; simp
  | cons c cs ih =>
    by_cases hc : c = 47
    · right
      exact ⟨[], cs, by simp [hc], by simp⟩
    · rcases ih with h | ⟨a, b, hab, ha⟩
      · left
        intro h2
        rcases List.mem_cons.1 h2 with h3 | h3
        · exact hc h3.symm
        · exact h h3
      · right
        refine ⟨c :: a, b, by simp [hab], ?_⟩
        intro h2
        rcases List.mem_cons.1 h2 with h3 | h3
        · exact hc h3.symm
        · exact ha h3

/-- What `splitMethodName` returns once the leading slash is trimmed: the fallback when no `/`
is left, the two sides of the first `/` otherwise. -/
theorem splitMethodName_of_trimmed (t : Password.GoString) :
    (47 ∉ TrimPrefix t [47] →
      splitMethodName t = (Password.bytes "unknown", Password.bytes "unknown")) ∧
    (∀ a b, TrimPrefix t [47] = a ++ 47 :: b → 47 ∉ a → splitMethodName t = (a, b)) := by
  refine ⟨?_, ?_⟩
  · intro h
    have hi := indexFrom_slash_of_not_mem _ 0 h
    simp only [splitMethodName, bytes_slash, Index, hi]
    rfl
  · intro a b hab ha
    have hi := indexFrom_slash_append a b 0 ha
    simp only [splitMethodName, bytes_slash, Index, hab, hi]
    simp

theorem TrimPrefix_slash_cons (t : Password.GoString) : TrimPrefix (47 :: t) [47] = t := by
  simp [TrimPrefix, HasPrefix_slash_cons]

theorem TrimPrefix_slash_of_ne (c : Nat) (t : Password.GoString) (hc : c ≠ 47) :
    TrimPrefix (c :: t) [47] = c :: t := by
  simp [TrimPrefix, HasPrefix_slash_cons, hc]

theorem TrimPrefix_slash_nil : TrimPrefix [] [47] = [] := by
  simp [TrimPrefix, HasPrefix]

/-! ## Claim C23: splitMethodName -/

/-- Counterexample for C23: without the leading slash and with an empty service, the input is
`/foo`; its one slash is the leading one and is removed, and `splitMethodName` returns the
fallback, not the empty service and the method `foo`. -/
theorem splitMethodName_empty_service_without_leading_slash :
    47 ∉ ([] : Password.GoString) ∧
    splitMethodName ([] ++ Password.bytes "/" ++ Password.bytes "foo") =
      (Password.bytes "unknown", Password.bytes "unknown") ∧
    splitMethodName ([] ++ Password.bytes "/" ++ Password.bytes "foo") ≠
      ([], Password.bytes "foo") := by
  decide

/-- Claim C23, amended: `splitMethodName` removes one leading `/`, if there is one, and splits
what is left at its first `/`. For every `s` without a `/` and every `m`, the input
`/` + `s` + `/` + `m` gives `(s, m)`, and so does `s` + `/` + `m` when `s` is not empty. An
input that has no `/` left once the one leading slash is removed, the empty string among
them, gives `(unknown, unknown)`. Whenever the result is not the fallback, the service,
a `/` and the method make up the input without its one leading slash, and the service has no
`/`. -/
theorem splitMethodName_spec (t s m : Password.GoString) :
    (TrimPrefix (47 :: t) (Password.bytes "/") = t ∧
      (∀ c, c ≠ 47 → TrimPrefix (c :: t) (Password.bytes "/") = c :: t) ∧
      TrimPrefix [] (Password.bytes "/") = []) ∧
    (47 ∉ s →
      splitMethodName (Password.bytes "/" ++ s ++ Password.bytes "/" ++ m) = (s, m)) ∧
    (47 ∉ s → s ≠ [] → splitMethodName (s ++ Password.bytes "/" ++ m) = (s, m)) ∧
    (47 ∉ TrimPrefix t (Password.bytes "/") →
      splitMethodName t = (Password.bytes "unknown", Password.bytes "unknown")) ∧
    splitMethodName [] = (Password.bytes "unknown", Password.bytes "unknown") ∧
    (splitMethodName t ≠ (Password.bytes "unknown", Password.bytes "unknown") →
      (splitMethodName t).1 ++ Password.bytes "/" ++ (splitMethodName t).2 =
        TrimPrefix t (Password.bytes "/") ∧
      47 ∉ (splitMethodName t).1) := by
  rw [bytes_slash]
  refine ⟨⟨TrimPrefix_slash_cons t, fun c hc => TrimPrefix_slash_of_ne c t hc,
    TrimPrefix_slash_nil⟩, ?_, ?_, ?_, ?_, ?_⟩
  · intro hs
    apply (splitMethodName_of_trimmed _).2 s m _ hs
    simp [TrimPrefix_slash_cons]
  · intro hs hne
    apply (splitMethodName_of_trimmed _).2 s m _ hs
    cases s with
    | nil => exact absurd rfl hne
    | cons c cs =>
      have hc : c ≠ 47 := fun h2 => hs (by simp [h2])
      simp [TrimPrefix_slash_of_ne c _ hc]
  · exact (splitMethodName_of_trimmed t).1
  · exact (splitMethodName_of_trimmed []).1 (by simp [TrimPrefix_slash_nil])
  · intro hne
    rcases split_at_first_slash (TrimPrefix t [47]) with h | ⟨a, b, hab, ha⟩
    · exact absurd ((splitMethodName_of_trimmed t).1 h) hne
    · rw [(splitMethodName_of_trimmed t).2 a b hab ha, hab]
      exact ⟨by simp, ha⟩

/-- Witness for C23, amended: `/svc.Name/Method` and `svc.Name/Method` both give the service
`svc.Name` and the method `Method`. -/
theorem splitMethodName_spec_witness :
    splitMethodName (Password.bytes "/" ++ Password.bytes "svc.Name" ++ Password.bytes "/" ++
      Password.bytes "Method") = (Password.bytes "svc.Name", Password.bytes "Method") ∧
    splitMethodName (Password.bytes "svc.Name" ++ Password.bytes "/" ++
      Password.bytes "Method") = (Password.bytes "svc.Name", Password.bytes "Method") :=
  ⟨(splitMethodName_spec [] (Password.bytes "svc.Name") (Password.bytes "Method")).2.1
      (by decide),
   (splitMethodName_spec [] (Password.bytes "svc.Name") (Password.bytes "Method")).2.2.1
      (by decide) (by decide)⟩

end Metric
